import Mathlib

/-!
# Verification of the BansheeEngine pixel-format and conversion core

Shallow embedding of `CmPixelUtil.cpp` (the pixel-format catalog, color
codec, bulk converter, resampling kernels and gamma helper).  Machine
integers are modelled as `Nat` (with explicit `% 2^w` where the source
relies on wrap-around), C `float` arithmetic is modelled over `ℚ`, and
fallible code returns `Except String`.

Definitions are translated from the source file.  A few collaborators of
the source file live in headers that are not part of the source set
(`CmBitwise.h`, `CmPixelUtil.h`'s enum/flag constants, `CmPixelData.h`);
those are modelled from the specification and carry a doc comment saying
so.
-/

namespace Banshee

/-- The `PixelFormat` enumeration, in the order of the `_pixelFormats`
catalog in the source (which is indexed by enum ordinal). -/
inductive PixelFormat where
  | PF_UNKNOWN
  | PF_R8
  | PF_R8G8
  | PF_R8G8B8
  | PF_B8G8R8
  | PF_A8R8G8B8
  | PF_A8B8G8R8
  | PF_B8G8R8A8
  | PF_R8G8B8A8
  | PF_X8R8G8B8
  | PF_X8B8G8R8
  | PF_R8G8B8X8
  | PF_B8G8R8X8
  | PF_DXT1
  | PF_DXT2
  | PF_DXT3
  | PF_DXT4
  | PF_DXT5
  | PF_FLOAT16_R
  | PF_FLOAT16_RG
  | PF_FLOAT16_RGB
  | PF_FLOAT16_RGBA
  | PF_FLOAT32_R
  | PF_FLOAT32_RG
  | PF_FLOAT32_RGB
  | PF_FLOAT32_RGBA
  | PF_D32_S8X24
  | PF_D24_S8
  | PF_D32
  | PF_D16
  deriving DecidableEq, Repr

open PixelFormat

/-- Modelled from the spec: the `PixelFormatFlags` bits declared in
`CmPixelUtil.h` (not among the source files).  The spec lists the
capability flags "has-alpha, floating-point, compressed, depth,
native-endian-packed"; we represent the flag word as five booleans
(only membership of each bit matters to the code in the source file). -/
structure PixelFormatFlags where
  hasAlpha : Bool
  isFloat : Bool
  isCompressed : Bool
  isDepth : Bool
  isNativeEndian : Bool
  deriving DecidableEq, Repr

/-- No flag set (`0` in the source table). -/
def PFF_NONE : PixelFormatFlags := ⟨false, false, false, false, false⟩

/-- Data describing a pixel format (struct `PixelFormatDescription`). -/
structure PixelFormatDescription where
  name : String
  elemBytes : Nat
  flags : PixelFormatFlags
  componentCount : Nat
  rbits : Nat
  gbits : Nat
  bbits : Nat
  abits : Nat
  rmask : Nat
  gmask : Nat
  bmask : Nat
  amask : Nat
  rshift : Nat
  gshift : Nat
  bshift : Nat
  ashift : Nat
  deriving DecidableEq, Repr

/-- The `_pixelFormats` catalog, one entry per format, transcribed from
the source table (the `PixelComponentType` field is dropped: no claim
refers to it).  `getDescriptionFor` asserts the ordinal is in range; the
enum type makes that vacuous here. -/
def getDescriptionFor : PixelFormat → PixelFormatDescription
  | PF_UNKNOWN =>
      ⟨"PF_UNKNOWN", 0, PFF_NONE, 0, 0, 0, 0, 0, 0, 0, 0, 0, 0, 0, 0, 0⟩
  | PF_R8 =>
      ⟨"PF_R8", 1, PFF_NONE, 1, 8, 0, 0, 0,
        0x000000FF, 0, 0, 0, 0, 0, 0, 0⟩
  | PF_R8G8 =>
      ⟨"PF_R8G8", 2, PFF_NONE, 2, 8, 8, 0, 0,
        0x000000FF, 0x0000FF00, 0, 0, 0, 8, 0, 0⟩
  | PF_R8G8B8 =>
      ⟨"PF_R8G8B8", 3, ⟨false, false, false, false, true⟩, 3, 8, 8, 8, 0,
        0x000000FF, 0x0000FF00, 0x00FF0000, 0, 0, 8, 16, 0⟩
  | PF_B8G8R8 =>
      ⟨"PF_B8G8R8", 3, ⟨false, false, false, false, true⟩, 3, 8, 8, 8, 0,
        0x00FF0000, 0x0000FF00, 0x000000FF, 0, 16, 8, 0, 0⟩
  | PF_A8R8G8B8 =>
      ⟨"PF_A8R8G8B8", 4, ⟨true, false, false, false, true⟩, 4, 8, 8, 8, 8,
        0x0000FF00, 0x00FF0000, 0xFF000000, 0x000000FF, 8, 16, 24, 0⟩
  | PF_A8B8G8R8 =>
      ⟨"PF_A8B8G8R8", 4, ⟨true, false, false, false, true⟩, 4, 8, 8, 8, 8,
        0xFF000000, 0x00FF0000, 0x0000FF00, 0x000000FF, 24, 16, 8, 0⟩
  | PF_B8G8R8A8 =>
      ⟨"PF_B8G8R8A8", 4, ⟨true, false, false, false, true⟩, 4, 8, 8, 8, 8,
        0x00FF0000, 0x0000FF00, 0x000000FF, 0xFF000000, 16, 8, 0, 24⟩
  | PF_R8G8B8A8 =>
      ⟨"PF_R8G8B8A8", 4, ⟨true, false, false, false, true⟩, 4, 8, 8, 8, 8,
        0x000000FF, 0x0000FF00, 0x00FF0000, 0xFF000000, 0, 8, 16, 24⟩
  | PF_X8R8G8B8 =>
      ⟨"PF_X8R8G8B8", 4, ⟨false, false, false, false, true⟩, 3, 8, 8, 8, 0,
        0x0000FF00, 0x00FF0000, 0xFF000000, 0x000000FF, 8, 16, 24, 0⟩
  | PF_X8B8G8R8 =>
      ⟨"PF_X8B8G8R8", 4, ⟨false, false, false, false, true⟩, 3, 8, 8, 8, 0,
        0xFF000000, 0x00FF0000, 0x0000FF00, 0x000000FF, 24, 16, 8, 0⟩
  | PF_R8G8B8X8 =>
      ⟨"PF_R8G8B8X8", 4, ⟨true, false, false, false, true⟩, 3, 8, 8, 8, 0,
        0x000000FF, 0x0000FF00, 0x00FF0000, 0xFF000000, 0, 8, 16, 0⟩
  | PF_B8G8R8X8 =>
      ⟨"PF_B8G8R8X8", 4, ⟨true, false, false, false, true⟩, 3, 8, 8, 8, 0,
        0x00FF0000, 0x0000FF00, 0x000000FF, 0xFF000000, 16, 8, 0, 0⟩
  | PF_DXT1 =>
      ⟨"PF_DXT1", 0, ⟨true, false, true, false, false⟩, 3, 0, 0, 0, 0,
        0, 0, 0, 0, 0, 0, 0, 0⟩
  | PF_DXT2 =>
      ⟨"PF_DXT2", 0, ⟨true, false, true, false, false⟩, 4, 0, 0, 0, 0,
        0, 0, 0, 0, 0, 0, 0, 0⟩
  | PF_DXT3 =>
      ⟨"PF_DXT3", 0, ⟨true, false, true, false, false⟩, 4, 0, 0, 0, 0,
        0, 0, 0, 0, 0, 0, 0, 0⟩
  | PF_DXT4 =>
      ⟨"PF_DXT4", 0, ⟨true, false, true, false, false⟩, 4, 0, 0, 0, 0,
        0, 0, 0, 0, 0, 0, 0, 0⟩
  | PF_DXT5 =>
      ⟨"PF_DXT5", 0, ⟨true, false, true, false, false⟩, 4, 0, 0, 0, 0,
        0, 0, 0, 0, 0, 0, 0, 0⟩
  | PF_FLOAT16_R =>
      ⟨"PF_FLOAT16_R", 2, ⟨false, true, false, false, false⟩, 1, 16, 0, 0, 0,
        0, 0, 0, 0, 0, 0, 0, 0⟩
  | PF_FLOAT16_RG =>
      ⟨"PF_FLOAT16_RG", 4, ⟨false, true, false, false, false⟩, 2, 16, 16, 0, 0,
        0, 0, 0, 0, 0, 0, 0, 0⟩
  | PF_FLOAT16_RGB =>
      ⟨"PF_FLOAT16_RGB", 6, ⟨false, true, false, false, false⟩, 3, 16, 16, 16, 0,
        0, 0, 0, 0, 0, 0, 0, 0⟩
  | PF_FLOAT16_RGBA =>
      ⟨"PF_FLOAT16_RGBA", 8, ⟨true, true, false, false, false⟩, 4, 16, 16, 16, 16,
        0, 0, 0, 0, 0, 0, 0, 0⟩
  | PF_FLOAT32_R =>
      ⟨"PF_FLOAT32_R", 4, ⟨false, true, false, false, false⟩, 1, 32, 0, 0, 0,
        0, 0, 0, 0, 0, 0, 0, 0⟩
  | PF_FLOAT32_RG =>
      ⟨"PF_FLOAT32_RG", 8, ⟨false, true, false, false, false⟩, 2, 32, 32, 0, 0,
        0, 0, 0, 0, 0, 0, 0, 0⟩
  | PF_FLOAT32_RGB =>
      ⟨"PF_FLOAT32_RGB", 12, ⟨false, true, false, false, false⟩, 3, 32, 32, 32, 0,
        0, 0, 0, 0, 0, 0, 0, 0⟩
  | PF_FLOAT32_RGBA =>
      ⟨"PF_FLOAT32_RGBA", 16, ⟨true, true, false, false, false⟩, 4, 32, 32, 32, 32,
        0, 0, 0, 0, 0, 0, 0, 0⟩
  | PF_D32_S8X24 =>
      ⟨"PF_D32_S8X24", 4, ⟨false, true, false, true, false⟩, 1, 0, 0, 0, 0,
        0, 0, 0, 0, 0, 0, 0, 0⟩
  | PF_D24_S8 =>
      ⟨"PF_D24_S8", 8, ⟨false, true, false, true, false⟩, 2, 0, 0, 0, 0,
        0, 0, 0, 0, 0, 0, 0, 0⟩
  | PF_D32 =>
      ⟨"PF_D32", 4, ⟨false, true, false, true, false⟩, 1, 0, 0, 0, 0,
        0, 0, 0, 0, 0, 0, 0, 0⟩
  | PF_D16 =>
      ⟨"PF_D16", 2, ⟨false, true, false, true, false⟩, 1, 0, 0, 0, 0,
        0, 0, 0, 0, 0, 0, 0, 0⟩

namespace PixelUtil

/-- `PixelUtil::getNumElemBytes`. -/
def getNumElemBytes (format : PixelFormat) : Nat :=
  (getDescriptionFor format).elemBytes

/-- `PixelUtil::hasAlpha`. -/
def hasAlpha (format : PixelFormat) : Bool :=
  (getDescriptionFor format).flags.hasAlpha

/-- `PixelUtil::isFloatingPoint`. -/
def isFloatingPoint (format : PixelFormat) : Bool :=
  (getDescriptionFor format).flags.isFloat

/-- `PixelUtil::isCompressed`. -/
def isCompressed (format : PixelFormat) : Bool :=
  (getDescriptionFor format).flags.isCompressed

/-- `PixelUtil::isDepth`. -/
def isDepth (format : PixelFormat) : Bool :=
  (getDescriptionFor format).flags.isDepth

/-- `PixelUtil::isNativeEndian`. -/
def isNativeEndian (format : PixelFormat) : Bool :=
  (getDescriptionFor format).flags.isNativeEndian

/-- `PixelUtil::getMemorySize`: block-granular size for the DXT
formats, `width*height*depth*elemBytes` otherwise.  The unreachable
`default` of the compressed switch raises `InvalidParametersException`. -/
def getMemorySize (width height depth : Nat) (format : PixelFormat) :
    Except String Nat :=
  if isCompressed format then
    match format with
    | PF_DXT1 => .ok (((width + 3) / 4) * ((height + 3) / 4) * 8 * depth)
    | PF_DXT2 | PF_DXT3 | PF_DXT4 | PF_DXT5 =>
        .ok (((width + 3) / 4) * ((height + 3) / 4) * 16 * depth)
    | _ => .error "Invalid compressed pixel format"
  else
    .ok (width * height * depth * getNumElemBytes format)

/-- `PixelUtil::isAccessible`: false for `PF_UNKNOWN`, otherwise true
iff neither the compressed nor the depth flag is set. -/
def isAccessible (srcformat : PixelFormat) : Bool :=
  if srcformat = PF_UNKNOWN then false
  else !(isCompressed srcformat || isDepth srcformat)

end PixelUtil

/-- List of all pixel formats, for quantifying claims by `decide`. -/
def allFormats : List PixelFormat :=
  [PF_UNKNOWN, PF_R8, PF_R8G8, PF_R8G8B8, PF_B8G8R8, PF_A8R8G8B8,
   PF_A8B8G8R8, PF_B8G8R8A8, PF_R8G8B8A8, PF_X8R8G8B8, PF_X8B8G8R8,
   PF_R8G8B8X8, PF_B8G8R8X8, PF_DXT1, PF_DXT2, PF_DXT3, PF_DXT4, PF_DXT5,
   PF_FLOAT16_R, PF_FLOAT16_RG, PF_FLOAT16_RGB, PF_FLOAT16_RGBA,
   PF_FLOAT32_R, PF_FLOAT32_RG, PF_FLOAT32_RGB, PF_FLOAT32_RGBA,
   PF_D32_S8X24, PF_D24_S8, PF_D32, PF_D16]

/-- The per-channel mask/shift consistency property of claim C3 for one
channel: the mask equals `bit-width` ones shifted left by the shift. -/
def maskConsistent (bits mask shift : Nat) : Prop :=
  mask = (2 ^ bits - 1) <<< shift

instance (bits mask shift : Nat) : Decidable (maskConsistent bits mask shift) :=
  inferInstanceAs (Decidable (mask = _))

/-- All four channels of a descriptor are mask/shift consistent. -/
def allMasksConsistent (d : PixelFormatDescription) : Prop :=
  maskConsistent d.rbits d.rmask d.rshift ∧
  maskConsistent d.gbits d.gmask d.gshift ∧
  maskConsistent d.bbits d.bmask d.bshift ∧
  maskConsistent d.abits d.amask d.ashift

instance (d : PixelFormatDescription) : Decidable (allMasksConsistent d) :=
  inferInstanceAs (Decidable (_ ∧ _))

/-- All four masks and shifts of a descriptor are zero. -/
def allMasksZero (d : PixelFormatDescription) : Prop :=
  d.rmask = 0 ∧ d.gmask = 0 ∧ d.bmask = 0 ∧ d.amask = 0 ∧
  d.rshift = 0 ∧ d.gshift = 0 ∧ d.bshift = 0 ∧ d.ashift = 0

instance (d : PixelFormatDescription) : Decidable (allMasksZero d) :=
  inferInstanceAs (Decidable (_ ∧ _))

/-- The four alpha-padded byte formats. -/
def isPaddedByteFormat (f : PixelFormat) : Prop :=
  f = PF_X8R8G8B8 ∨ f = PF_X8B8G8R8 ∨ f = PF_R8G8B8X8 ∨ f = PF_B8G8R8X8

instance (f : PixelFormat) : Decidable (isPaddedByteFormat f) :=
  inferInstanceAs (Decidable (_ ∨ _))

namespace Bitwise

/-- Modelled from the spec: `Bitwise::fixedToFixed` from `CmBitwise.h`
(not among the source files) — conversion of an `n`-bit fixed-point
fraction to `p` bits, "rounding via bit-replication/truncation
consistent with a generic fixed-to-fixed conversion ... e.g.
1-bit-to-8-bit maps to 0 or 255, not 0 or 1".  Narrowing drops the low
bits; widening maps 0 to 0, the top code to the top code, and scales by
`(2^p)/(2^n - 1)` otherwise (for `n = 0` that divides by zero, which is
undefined behaviour in C; `Nat` division yields 0). -/
def fixedToFixed (value n p : Nat) : Nat :=
  if n > p then value >>> (n - p)
  else if n < p then
    (if value = 0 then 0
     else if value = (1 <<< n) - 1 then (1 <<< p) - 1
     else value * (1 <<< p) / ((1 <<< n) - 1))
  else value

/-- Modelled from the spec: `Bitwise::floatToFixed` — clamps to `[0,1]`
and scales by `2^bits`, the C float-to-unsigned cast truncating toward
zero. -/
def floatToFixed (value : ℚ) (bits : Nat) : Nat :=
  if value ≤ 0 then 0
  else if 1 ≤ value then (1 <<< bits) - 1
  else (⌊value * ((1 <<< bits : Nat) : ℚ)⌋).toNat

/-- Modelled from the spec: `Bitwise::fixedToFloat` — divides by the
top code `2^bits − 1`.  (For `bits = 0` the C code divides by `0.0f`,
producing NaN; `ℚ` division by zero yields 0.) -/
def fixedToFloat (value bits : Nat) : ℚ :=
  (value : ℚ) / (((1 <<< bits) - 1 : Nat) : ℚ)

/-- Modelled from the spec: `Bitwise::intWrite` — writes the low
`n ∈ {1,2,3,4}` bytes of `value` in native (little-endian) byte order. -/
def intWrite (n value : Nat) : List Nat :=
  match n with
  | 1 => [value % 256]
  | 2 => [value % 256, value / 256 % 256]
  | 3 => [value % 256, value / 256 % 256, value / 65536 % 256]
  | _ => [value % 256, value / 256 % 256, value / 65536 % 256,
          value / 16777216 % 256]

/-- Modelled from the spec: `Bitwise::intRead` — reads `n ∈ {1,2,3,4}`
bytes in native (little-endian) byte order. -/
def intRead (src : List Nat) (n : Nat) : Nat :=
  match n with
  | 1 => src.getD 0 0
  | 2 => src.getD 0 0 + 256 * src.getD 1 0
  | 3 => src.getD 0 0 + 256 * src.getD 1 0 + 65536 * src.getD 2 0
  | _ => src.getD 0 0 + 256 * src.getD 1 0 + 65536 * src.getD 2 0 +
         16777216 * src.getD 3 0

/-- Modelled from the spec: the composite `halfToFloat ∘ floatToHalf`
from `CmBitwise.h` ("half-float conversions").  `floatToHalf` keeps the
value's sign and exponent and truncates the mantissa to the half's 10
bits (values below the smallest normal half are flushed through the
truncation at exponent −14); `halfToFloat` is exact.  Only inputs in
`[0, 2)` arise in the claims, so overflow to infinity is not modelled. -/
def halfRound (x : ℚ) : ℚ :=
  if x ≤ 0 then 0
  else
    let e : ℤ := max (Int.log 2 x) (-14)
    (⌊x * (2 : ℚ) ^ (10 - e)⌋ : ℚ) * (2 : ℚ) ^ (e - 10)

end Bitwise

/-- A four-component floating-point color (`CmColor.h`'s `Color`),
modelled over `ℚ`. -/
structure Color where
  r : ℚ
  g : ℚ
  b : ℚ
  a : ℚ
  deriving DecidableEq, Repr

/-- Color scaled by a weight (`Color::operator*`). -/
def Color.smul (c : Color) (w : ℚ) : Color :=
  ⟨c.r * w, c.g * w, c.b * w, c.a * w⟩

/-- Componentwise color sum (`Color::operator+`). -/
def Color.add (c d : Color) : Color :=
  ⟨c.r + d.r, c.g + d.g, c.b + d.b, c.a + d.a⟩

/-- Memory written by `packColor` for one pixel.  Native-endian and the
hand-coded one/two-byte formats write raw bytes; the float16/float32
cases of the source store IEEE values through `UINT16*`/`float*` casts,
modelled as a list of exact `ℚ` values (half-float values are stored
already rounded by `halfRound`, `halfToFloat` being exact).  Presenting
a float-format pixel as raw bytes (bit reinterpretation) is not
modelled. -/
inductive PackedPixel where
  | bytes (l : List Nat)
  | floats (l : List ℚ)
  deriving DecidableEq, Repr

/-- View of a packed pixel as raw bytes.  The source reads the raw
memory directly; a float-cell pixel would be a bit reinterpretation of
IEEE floats, which is not modelled. -/
def PackedPixel.asBytes : PackedPixel → Except String (List Nat)
  | .bytes l => .ok l
  | .floats _ => .error "bit reinterpretation of floats not modelled"

/-- View of a packed pixel as a float array (the source casts the
memory pointer to `float*`/`UINT16*`).  A raw-byte pixel would be a bit
reinterpretation, which is not modelled. -/
def PackedPixel.asFloats : PackedPixel → Except String (List ℚ)
  | .floats l => .ok l
  | .bytes _ => .error "bit reinterpretation of floats not modelled"

namespace PixelUtil

/-- `PixelUtil::packColor` (float components overload). -/
def packColor (r g b a : ℚ) (format : PixelFormat) :
    Except String PackedPixel :=
  let des := getDescriptionFor format
  if des.flags.isNativeEndian then
    let value :=
      ((Bitwise.floatToFixed r des.rbits <<< des.rshift) &&& des.rmask) |||
      ((Bitwise.floatToFixed g des.gbits <<< des.gshift) &&& des.gmask) |||
      ((Bitwise.floatToFixed b des.bbits <<< des.bshift) &&& des.bmask) |||
      ((Bitwise.floatToFixed a des.abits <<< des.ashift) &&& des.amask)
    .ok (.bytes (Bitwise.intWrite des.elemBytes value))
  else
    match format with
    | PF_FLOAT32_R => .ok (.floats [r])
    | PF_FLOAT32_RG => .ok (.floats [r, g])
    | PF_FLOAT32_RGB => .ok (.floats [r, g, b])
    | PF_FLOAT32_RGBA => .ok (.floats [r, g, b, a])
    | PF_FLOAT16_R => .ok (.floats [Bitwise.halfRound r])
    | PF_FLOAT16_RG => .ok (.floats [Bitwise.halfRound r, Bitwise.halfRound g])
    | PF_FLOAT16_RGB =>
        .ok (.floats [Bitwise.halfRound r, Bitwise.halfRound g,
          Bitwise.halfRound b])
    | PF_FLOAT16_RGBA =>
        .ok (.floats [Bitwise.halfRound r, Bitwise.halfRound g,
          Bitwise.halfRound b, Bitwise.halfRound a])
    | PF_R8G8 => .ok (.bytes [Bitwise.floatToFixed r 8, Bitwise.floatToFixed g 8])
    | PF_R8 => .ok (.bytes [Bitwise.floatToFixed r 8])
    | _ => .error ("Pack to " ++ des.name ++ " not implemented")

/-- `PixelUtil::packColor` (byte components overload): native-endian
fast path through `fixedToFixed`, otherwise through the float overload
with each component divided by 255. -/
def packColorB (r g b a : Nat) (format : PixelFormat) :
    Except String PackedPixel :=
  let des := getDescriptionFor format
  if des.flags.isNativeEndian then
    let value :=
      ((Bitwise.fixedToFixed r 8 des.rbits <<< des.rshift) &&& des.rmask) |||
      ((Bitwise.fixedToFixed g 8 des.gbits <<< des.gshift) &&& des.gmask) |||
      ((Bitwise.fixedToFixed b 8 des.bbits <<< des.bshift) &&& des.bmask) |||
      ((Bitwise.fixedToFixed a 8 des.abits <<< des.ashift) &&& des.amask)
    .ok (.bytes (Bitwise.intWrite des.elemBytes value))
  else
    packColor ((r : ℚ) / 255) ((g : ℚ) / 255) ((b : ℚ) / 255) ((a : ℚ) / 255)
      format

/-- `PixelUtil::unpackColor` (float out-parameters overload). -/
def unpackColor (format : PixelFormat) (src : PackedPixel) :
    Except String Color :=
  let des := getDescriptionFor format
  if des.flags.isNativeEndian then
    src.asBytes.map fun l =>
      let value := Bitwise.intRead l des.elemBytes
      ⟨Bitwise.fixedToFloat ((value &&& des.rmask) >>> des.rshift) des.rbits,
       Bitwise.fixedToFloat ((value &&& des.gmask) >>> des.gshift) des.gbits,
       Bitwise.fixedToFloat ((value &&& des.bmask) >>> des.bshift) des.bbits,
       if des.flags.hasAlpha then
         Bitwise.fixedToFloat ((value &&& des.amask) >>> des.ashift) des.abits
       else 1⟩
  else
    match format with
    | PF_FLOAT32_R => src.asFloats.map fun l =>
        ⟨l.getD 0 0, l.getD 0 0, l.getD 0 0, 1⟩
    | PF_FLOAT32_RG => src.asFloats.map fun l =>
        ⟨l.getD 0 0, l.getD 1 0, l.getD 1 0, 1⟩
    | PF_FLOAT32_RGB => src.asFloats.map fun l =>
        ⟨l.getD 0 0, l.getD 1 0, l.getD 2 0, 1⟩
    | PF_FLOAT32_RGBA => src.asFloats.map fun l =>
        ⟨l.getD 0 0, l.getD 1 0, l.getD 2 0, l.getD 3 0⟩
    | PF_FLOAT16_R => src.asFloats.map fun l =>
        ⟨l.getD 0 0, l.getD 0 0, l.getD 0 0, 1⟩
    | PF_FLOAT16_RG => src.asFloats.map fun l =>
        ⟨l.getD 0 0, l.getD 1 0, l.getD 1 0, 1⟩
    | PF_FLOAT16_RGB => src.asFloats.map fun l =>
        ⟨l.getD 0 0, l.getD 1 0, l.getD 2 0, 1⟩
    | PF_FLOAT16_RGBA => src.asFloats.map fun l =>
        ⟨l.getD 0 0, l.getD 1 0, l.getD 2 0, l.getD 3 0⟩
    | PF_R8G8 => src.asBytes.map fun l =>
        ⟨Bitwise.fixedToFloat (l.getD 0 0) 8,
         Bitwise.fixedToFloat (l.getD 1 0) 8, 0, 1⟩
    | PF_R8 => src.asBytes.map fun l =>
        ⟨Bitwise.fixedToFloat (l.getD 0 0) 8, 0, 0, 1⟩
    | _ => .error ("Unpack from " ++ des.name ++ " not implemented")

/-- `PixelUtil::unpackColor` (byte out-parameters overload):
native-endian fast path through `fixedToFixed` with the alpha default
255, otherwise through the float overload and `floatToFixed(…, 8)`. -/
def unpackColorB (format : PixelFormat) (src : PackedPixel) :
    Except String (Nat × Nat × Nat × Nat) :=
  let des := getDescriptionFor format
  if des.flags.isNativeEndian then
    src.asBytes.map fun l =>
      let value := Bitwise.intRead l des.elemBytes
      (Bitwise.fixedToFixed ((value &&& des.rmask) >>> des.rshift) des.rbits 8,
       Bitwise.fixedToFixed ((value &&& des.gmask) >>> des.gshift) des.gbits 8,
       Bitwise.fixedToFixed ((value &&& des.bmask) >>> des.bshift) des.bbits 8,
       if des.flags.hasAlpha then
         Bitwise.fixedToFixed ((value &&& des.amask) >>> des.ashift) des.abits 8
       else 255)
  else
    (unpackColor format src).map fun c =>
      (Bitwise.floatToFixed c.r 8, Bitwise.floatToFixed c.g 8,
       Bitwise.floatToFixed c.b 8, Bitwise.floatToFixed c.a 8)

end PixelUtil

/-- Round trip of the float-overload codec: pack then unpack. -/
def roundTripF (f : PixelFormat) (r g b a : ℚ) : Except String Color :=
  (PixelUtil.packColor r g b a f).bind (PixelUtil.unpackColor f)

/-- Round trip of the byte-overload codec: pack then unpack. -/
def roundTripB (f : PixelFormat) (r g b a : Nat) :
    Except String (Nat × Nat × Nat × Nat) :=
  (PixelUtil.packColorB r g b a f).bind (PixelUtil.unpackColorB f)

/-- Decidable equality for `Except`, used to evaluate the codec on
concrete pixels in counterexamples and witnesses. -/
instance {α β : Type} [DecidableEq α] [DecidableEq β] :
    DecidableEq (Except α β) := fun a b =>
  match a, b with
  | .ok x, .ok y =>
      if h : x = y then .isTrue (by rw [h]) else .isFalse (by simp [h])
  | .error x, .error y =>
      if h : x = y then .isTrue (by rw [h]) else .isFalse (by simp [h])
  | .ok _, .error _ => .isFalse (by simp)
  | .error _, .ok _ => .isFalse (by simp)

/-- Claim C1's per-channel quantization bound: every channel with
nonzero bit-width is reproduced within `1/(2^bits - 1)`. -/
def channelsWithinQuant (f : PixelFormat) (r g b a : ℚ) (c : Color) : Prop :=
  (0 < (getDescriptionFor f).rbits →
    |c.r - r| ≤ 1 / ((2:ℚ) ^ (getDescriptionFor f).rbits - 1)) ∧
  (0 < (getDescriptionFor f).gbits →
    |c.g - g| ≤ 1 / ((2:ℚ) ^ (getDescriptionFor f).gbits - 1)) ∧
  (0 < (getDescriptionFor f).bbits →
    |c.b - b| ≤ 1 / ((2:ℚ) ^ (getDescriptionFor f).bbits - 1)) ∧
  (0 < (getDescriptionFor f).abits →
    |c.a - a| ≤ 1 / ((2:ℚ) ^ (getDescriptionFor f).abits - 1))

/-- Half-float precision bound: every channel with nonzero bit-width is
reproduced within `2^(-10)` (the half's 10-bit mantissa granularity at
exponent 0). -/
def channelsWithinHalf (f : PixelFormat) (r g b a : ℚ) (c : Color) : Prop :=
  (0 < (getDescriptionFor f).rbits → |c.r - r| ≤ 1 / 1024) ∧
  (0 < (getDescriptionFor f).gbits → |c.g - g| ≤ 1 / 1024) ∧
  (0 < (getDescriptionFor f).bbits → |c.b - b| ≤ 1 / 1024) ∧
  (0 < (getDescriptionFor f).abits → |c.a - a| ≤ 1 / 1024)

/-- Modelled from the spec: the `PixelData` descriptor from
`CmPixelData.h` (not among the source files).  Spec §3: "a
rectangular-or-volumetric region of raw memory described by width,
height, depth, left/top/front and right/bottom/back bounds (allows
sub-region views), row pitch, slice pitch, an associated PixelFormat,
and an externally- or internally-owned backing allocation".  The view
extents (`getWidth` …) are the bound differences; `getData` is the
start of the backing memory, modelled as the byte list `mem` (an unset
data pointer is modelled as the empty list). -/
structure PixelData where
  left : Nat
  top : Nat
  front : Nat
  right : Nat
  bottom : Nat
  back : Nat
  rowPitch : Nat
  slicePitch : Nat
  format : PixelFormat
  mem : List Nat
  deriving Repr

namespace PixelData

/-- Width of the view. -/
def getWidth (p : PixelData) : Nat := p.right - p.left

/-- Height of the view. -/
def getHeight (p : PixelData) : Nat := p.bottom - p.top

/-- Depth of the view. -/
def getDepth (p : PixelData) : Nat := p.back - p.front

/-- Elements to skip at the end of a row to reach the next
(`rowPitch - width`). -/
def getRowSkip (p : PixelData) : Nat := p.rowPitch - p.getWidth

/-- Elements to skip at the end of a slice to reach the next
(`slicePitch - height*rowPitch`). -/
def getSliceSkip (p : PixelData) : Nat :=
  p.slicePitch - p.getHeight * p.rowPitch

/-- Modelled from the spec: "Consecutive means no padding between
rows/slices relative to the logical bounds". -/
def isConsecutive (p : PixelData) : Bool :=
  p.rowPitch == p.getWidth && p.slicePitch == p.getWidth * p.getHeight

/-- Modelled from the spec: the byte size of the whole consecutive
region, `getMemorySize` of the view extents. -/
def getConsecutiveSize (p : PixelData) : Except String Nat :=
  PixelUtil.getMemorySize p.getWidth p.getHeight p.getDepth p.format

/-- The constructor `PixelData(width, height, depth, format)`: a full
view with consecutive pitches and no backing buffer attached. -/
def mk4 (width height depth : Nat) (format : PixelFormat) : PixelData :=
  ⟨0, 0, 0, width, height, depth, width, width * height, format, []⟩

/-- `PixelData::setExternalBuffer`. -/
def setExternalBuffer (p : PixelData) (m : List Nat) : PixelData :=
  { p with mem := m }

end PixelData

/-- One `memcpy(dst, src, n)` over whole buffers. -/
def memcpy (dst src : List Nat) (n : Nat) : List Nat :=
  src.take n ++ dst.drop n

/-- Byte splice: write `bytes` into `dst` starting at offset `off`. -/
def writeBytes (dst : List Nat) (off : Nat) (bytes : List Nat) : List Nat :=
  dst.take off ++ bytes ++ dst.drop (off + bytes.length)

/-- The per-row `memcpy` loop of the same-format non-consecutive branch
of `bulkPixelConversion`: `rows` rows of `rowSize` bytes, the source
offset advancing by `srcPitchB` and the destination offset by
`dstPitchB` per row. -/
def copyRows (srcMem : List Nat) (rowSize srcPitchB dstPitchB : Nat) :
    Nat → Nat → Nat → List Nat → List Nat
  | 0, _, _, dstMem => dstMem
  | y + 1, srcOff, dstOff, dstMem =>
      copyRows srcMem rowSize srcPitchB dstPitchB y (srcOff + srcPitchB)
        (dstOff + dstPitchB)
        (writeBytes dstMem dstOff ((srcMem.drop srcOff).take rowSize))

/-- The slice loop around `copyRows`: after the rows of a slice the
offsets advance by the slice-skip bytes. -/
def copySlices (srcMem : List Nat) (rows rowSize srcPitchB dstPitchB
    srcSliceSkipB dstSliceSkipB : Nat) :
    Nat → Nat → Nat → List Nat → List Nat
  | 0, _, _, dstMem => dstMem
  | z + 1, srcOff, dstOff, dstMem =>
      copySlices srcMem rows rowSize srcPitchB dstPitchB srcSliceSkipB
        dstSliceSkipB z (srcOff + rows * srcPitchB + srcSliceSkipB)
        (dstOff + rows * dstPitchB + dstSliceSkipB)
        (copyRows srcMem rowSize srcPitchB dstPitchB rows srcOff dstOff dstMem)

/-- The innermost loop of the general conversion path: `count` pixels
of one row, each unpacked from the source format and repacked into the
destination format, the pointers advancing by the element sizes.  An
exception propagates with the destination memory as written so far
(for a fixed format pair the first pixel already throws, so nothing
has been written when it escapes). -/
def convertRowPixels (srcMem : List Nat) (srcFmt dstFmt : PixelFormat)
    (srcPx dstPx : Nat) :
    Nat → Nat → Nat → List Nat → Except String Unit × List Nat
  | 0, _, _, dstMem => (.ok (), dstMem)
  | x + 1, srcOff, dstOff, dstMem =>
      match PixelUtil.unpackColor srcFmt
        (.bytes ((srcMem.drop srcOff).take srcPx)) with
      | .error e => (.error e, dstMem)
      | .ok c =>
          match PixelUtil.packColor c.r c.g c.b c.a dstFmt with
          | .error e => (.error e, dstMem)
          | .ok (.floats _) =>
              (.error "float-format memory write not modelled", dstMem)
          | .ok (.bytes out) =>
              convertRowPixels srcMem srcFmt dstFmt srcPx dstPx x
                (srcOff + srcPx) (dstOff + dstPx)
                (writeBytes dstMem dstOff out)

/-- The row loop of the general conversion path: after each row the
offsets advance by the row-skip bytes. -/
def convertRows (srcMem : List Nat) (srcFmt dstFmt : PixelFormat)
    (srcPx dstPx width srcRowSkipB dstRowSkipB : Nat) :
    Nat → Nat → Nat → List Nat → Except String Unit × List Nat
  | 0, _, _, dstMem => (.ok (), dstMem)
  | y + 1, srcOff, dstOff, dstMem =>
      match convertRowPixels srcMem srcFmt dstFmt srcPx dstPx width srcOff
        dstOff dstMem with
      | (.error e, m) => (.error e, m)
      | (.ok _, m) =>
          convertRows srcMem srcFmt dstFmt srcPx dstPx width srcRowSkipB
            dstRowSkipB y (srcOff + width * srcPx + srcRowSkipB)
            (dstOff + width * dstPx + dstRowSkipB) m

/-- The slice loop of the general conversion path: after each slice the
offsets advance by the slice-skip bytes. -/
def convertSlices (srcMem : List Nat) (srcFmt dstFmt : PixelFormat)
    (srcPx dstPx width height srcRowSkipB dstRowSkipB srcSliceSkipB
    dstSliceSkipB : Nat) :
    Nat → Nat → Nat → List Nat → Except String Unit × List Nat
  | 0, _, _, dstMem => (.ok (), dstMem)
  | z + 1, srcOff, dstOff, dstMem =>
      match convertRows srcMem srcFmt dstFmt srcPx dstPx width srcRowSkipB
        dstRowSkipB height srcOff dstOff dstMem with
      | (.error e, m) => (.error e, m)
      | (.ok _, m) =>
          convertSlices srcMem srcFmt dstFmt srcPx dstPx width height
            srcRowSkipB dstRowSkipB srcSliceSkipB dstSliceSkipB z
            (srcOff + height * (width * srcPx + srcRowSkipB) + srcSliceSkipB)
            (dstOff + height * (width * dstPx + dstRowSkipB) + dstSliceSkipB) m

namespace PixelUtil

/-- The general (brute-force) path of `bulkPixelConversion`: per-pixel
unpack and repack over the addressed 3D region, iterating z, then y,
then x, honoring the row and slice skips of both sides. -/
def bulkGeneral (src dst : PixelData) : Except String Unit × List Nat :=
  let srcPixelSize := getNumElemBytes src.format
  let dstPixelSize := getNumElemBytes dst.format
  let srcStart := (src.left + src.top * src.rowPitch +
    src.front * src.slicePitch) * srcPixelSize
  let dstStart := (dst.left + dst.top * dst.rowPitch +
    dst.front * dst.slicePitch) * dstPixelSize
  convertSlices src.mem src.format dst.format srcPixelSize dstPixelSize
    src.getWidth src.getHeight (src.getRowSkip * srcPixelSize)
    (dst.getRowSkip * dstPixelSize) (src.getSliceSkip * srcPixelSize)
    (dst.getSliceSkip * dstPixelSize) src.getDepth srcStart dstStart dst.mem

/-- `bulkPixelConversion` without its two format-substitution branches:
the extent assertion, the compressed branch, the same-format branch and
the general path.  This is exactly what the recursive delegation calls
of the source execute, since the substituted formats never satisfy the
delegation conditions again.  Results pair the raised exception (if
any) with the destination memory after the call; the source raises its
exceptions before the loops write anything, so the error cases carry
`dst.mem` unchanged. -/
def bulkCore (src dst : PixelData) : Except String Unit × List Nat :=
  if ¬ (src.getWidth = dst.getWidth ∧ src.getHeight = dst.getHeight ∧
      src.getDepth = dst.getDepth) then
    (.error "assertion failed: extent mismatch", dst.mem)
  else if isCompressed src.format || isCompressed dst.format then
    if src.format = dst.format then
      match src.getConsecutiveSize with
      | .ok n => (.ok (), memcpy dst.mem src.mem n)
      | .error e => (.error e, dst.mem)
    else
      (.error "This method can not be used to compress or decompress images",
        dst.mem)
  else if src.format = dst.format then
    if src.isConsecutive && dst.isConsecutive then
      match src.getConsecutiveSize with
      | .ok n => (.ok (), memcpy dst.mem src.mem n)
      | .error e => (.error e, dst.mem)
    else
      let srcPixelSize := getNumElemBytes src.format
      let dstPixelSize := getNumElemBytes dst.format
      let srcStart := (src.left + src.top * src.rowPitch +
        src.front * src.slicePitch) * srcPixelSize
      let dstStart := (dst.left + dst.top * dst.rowPitch +
        dst.front * dst.slicePitch) * dstPixelSize
      (.ok (), copySlices src.mem src.getHeight
        (src.getWidth * srcPixelSize) (src.rowPitch * srcPixelSize)
        (dst.rowPitch * dstPixelSize) (src.getSliceSkip * srcPixelSize)
        (dst.getSliceSkip * dstPixelSize) src.getDepth srcStart dstStart
        dst.mem)
  else
    bulkGeneral src dst

/-- `PixelUtil::bulkPixelConversion`.  The conversion-to-X branch
builds `PixelData tempdst(w, h, d, tempFormat)` and recurses into it,
but — unlike the converse branch — never attaches `dst`'s memory with
`setExternalBuffer`: the recursive call writes through the temporary's
unset data pointer and its output is lost, so the destination memory is
returned unchanged (in C this is a write through an uninitialized
pointer).  The conversion-from-X branch re-describes the source memory
under the alpha-bearing format and converts into `dst` normally. -/
def bulkPixelConversion (src dst : PixelData) :
    Except String Unit × List Nat :=
  if ¬ (src.getWidth = dst.getWidth ∧ src.getHeight = dst.getHeight ∧
      src.getDepth = dst.getDepth) then
    (.error "assertion failed: extent mismatch", dst.mem)
  else if isCompressed src.format || isCompressed dst.format then
    if src.format = dst.format then
      match src.getConsecutiveSize with
      | .ok n => (.ok (), memcpy dst.mem src.mem n)
      | .error e => (.error e, dst.mem)
    else
      (.error "This method can not be used to compress or decompress images",
        dst.mem)
  else if src.format = dst.format then
    (bulkCore src dst)
  else if dst.format = PF_X8R8G8B8 ∨ dst.format = PF_X8B8G8R8 then
    let tempFormat := if dst.format = PF_X8R8G8B8 then PF_A8R8G8B8
      else PF_A8B8G8R8
    let tempdst := PixelData.mk4 dst.getWidth dst.getHeight dst.getDepth
      tempFormat
    let res := bulkCore src tempdst
    (res.1, dst.mem)
  else if (src.format = PF_X8R8G8B8 ∨ src.format = PF_X8B8G8R8) ∧
      hasAlpha dst.format = false then
    let tempFormat := if src.format = PF_X8R8G8B8 then PF_A8R8G8B8
      else PF_A8B8G8R8
    let tempsrc := (PixelData.mk4 src.getWidth src.getHeight src.getDepth
      tempFormat).setExternalBuffer src.mem
    bulkCore tempsrc dst
  else
    bulkGeneral src dst

end PixelUtil

/-- The truncating C cast `(UINT8)x` from float, toward zero (negative
inputs are undefined behaviour in C; modelled as 0). -/
def toByte (q : ℚ) : Nat := (⌊q⌋).toNat

/-- The shared clip scale of `applyGamma` after the red test: `scale`
starts at 1 and is lowered to `255/r` when `r` exceeds 255 and the
quotient is below the current scale. -/
def clipScale1 (r : ℚ) : ℚ :=
  if 255 < r ∧ 255 / r < 1 then 255 / r else 1

/-- The clip scale after the green test. -/
def clipScale2 (r g : ℚ) : ℚ :=
  if 255 < g ∧ 255 / g < clipScale1 r then 255 / g else clipScale1 r

/-- The clip scale after the blue test (the final shared scale). -/
def clipScale3 (r g b : ℚ) : ℚ :=
  if 255 < b ∧ 255 / b < clipScale2 r g then 255 / b else clipScale2 r g

/-- One pixel group of `PixelUtil::applyGamma`: the first three bytes
are scaled by `gamma` and clipped by the shared scale factor. -/
def gammaGroup (gamma : ℚ) (b0 b1 b2 : Nat) : Nat × Nat × Nat :=
  let r : ℚ := (b0 : ℚ) * gamma
  let g : ℚ := (b1 : ℚ) * gamma
  let b : ℚ := (b2 : ℚ) * gamma
  (toByte (r * clipScale3 r g b), toByte (g * clipScale3 r g b),
   toByte (b * clipScale3 r g b))

/-- One `stride`-byte group of the `applyGamma` loop: the first three
bytes replaced through `gammaGroup`, the remaining `stride - 3` bytes
kept. -/
def gammaPrefix (gamma : ℚ) (stride : Nat) (buf : List Nat) : List Nat :=
  let t := gammaGroup gamma (buf.getD 0 0) (buf.getD 1 0) (buf.getD 2 0)
  [t.1, t.2.1, t.2.2] ++ (buf.take stride).drop 3

/-- The loop of `applyGamma`: `j` pixel groups of `stride` bytes each,
writing the first three bytes of each group through `gammaGroup` and
leaving the remaining `stride - 3` bytes and the trailing bytes as they
are.  (The source indexes `buffer[0..2]` then advances by `stride`; for
`stride ≥ 3` the groups are disjoint, which this list recursion
mirrors.) -/
def applyGammaLoop (gamma : ℚ) (stride : Nat) : Nat → List Nat → List Nat
  | 0, buf => buf
  | j + 1, buf =>
      gammaPrefix gamma stride buf ++
        applyGammaLoop gamma stride j (buf.drop stride)

namespace PixelUtil

/-- `PixelUtil::applyGamma`: early return at `gamma == 1.0`, otherwise
`size / stride` groups with `stride = bpp >> 3`. -/
def applyGamma (buffer : List Nat) (gamma : ℚ) (size : Nat) (bpp : Nat) :
    List Nat :=
  if gamma = 1 then buffer
  else applyGammaLoop gamma (bpp >>> 3) (size / (bpp >>> 3)) buffer

end PixelUtil

/-- The 16/48 fixed-point step `((UINT64)sourceExtent << 48) / destExtent`
shared by all resampling kernels (source lines 22-24, 71-73, 162-164,
287-288); the shift is UINT64 arithmetic. -/
def fpStep (srcExtent dstExtent : Nat) : Nat :=
  ((srcExtent <<< 48) % 2 ^ 64) / dstExtent

/-- The traversal position before destination pixel `i`: the kernels
start at `(step >> 1) - 1` (half a pixel back from the first pixel
center, in wrapping UINT64 arithmetic) and add `step` once per
destination pixel. -/
def fpCur (step i : Nat) : Nat :=
  ((step >>> 1) + (2 ^ 64 - 1) + i * step) % 2 ^ 64

/-- `NearestResampler::scale`: the source offset along an axis is the
integer part `(UINT32)(cur >> 48)` (source lines 29, 34, 39). -/
def nearestOffset (srcExtent dstExtent i : Nat) : Nat :=
  (fpCur (fpStep srcExtent dstExtent) i >>> 48) % 2 ^ 32

/-- `LinearResampler::scale`: the 16/16 fixed-point `temp` after the
truncating UINT32 cast of `cur >> 32` and the half-pixel re-centering
`temp = (temp > 0x8000) ? temp - 0x8000 : 0` (source lines 84-85,
93-94, 102-103). -/
def linearTemp (srcExtent dstExtent i : Nat) : Nat :=
  if 0x8000 < (fpCur (fpStep srcExtent dstExtent) i >>> 32) % 2 ^ 32
  then (fpCur (fpStep srcExtent dstExtent) i >>> 32) % 2 ^ 32 - 0x8000
  else 0

/-- First sample coordinate of the generic and float32 linear kernels:
`temp >> 16` (source lines 86, 95, 104). -/
def sampleCoord1 (srcExtent dstExtent i : Nat) : Nat :=
  linearTemp srcExtent dstExtent i >>> 16

/-- Second sample coordinate, clamped: `min(coord1 + 1, extent - 1)`
(source lines 87, 96, 105). -/
def sampleCoord2 (srcExtent dstExtent i : Nat) : Nat :=
  min (sampleCoord1 srcExtent dstExtent i + 1) (srcExtent - 1)

/-- The 16-bit blend numerator `temp & 0xFFFF` (the kernels divide it by
65536.0f; source lines 88, 97, 106). -/
def sampleWeight (srcExtent dstExtent i : Nat) : Nat :=
  linearTemp srcExtent dstExtent i &&& 0xFFFF

/-- `LinearResampler_Byte::scale`: the 12-bit-fraction `temp` after the
truncating cast of `cur >> 36` and the re-centering
`temp = (temp > 0x800) ? temp - 0x800 : 0` (source lines 299-300,
311-312). -/
def byteTemp (srcExtent dstExtent i : Nat) : Nat :=
  if 0x800 < (fpCur (fpStep srcExtent dstExtent) i >>> 36) % 2 ^ 32
  then (fpCur (fpStep srcExtent dstExtent) i >>> 36) % 2 ^ 32 - 0x800
  else 0

/-- Byte-kernel first sample coordinate `temp >> 12` (source lines 302,
314). -/
def byteSampleCoord1 (srcExtent dstExtent i : Nat) : Nat :=
  byteTemp srcExtent dstExtent i >>> 12

/-- Byte-kernel second sample coordinate, clamped to `extent - 1`
(source lines 303, 315). -/
def byteSampleCoord2 (srcExtent dstExtent i : Nat) : Nat :=
  min (byteSampleCoord1 srcExtent dstExtent i + 1) (srcExtent - 1)

/-- Byte-kernel 12-bit blend weight `temp & 0xFFF` (source lines 301,
313). -/
def byteSampleWeight (srcExtent dstExtent i : Nat) : Nat :=
  byteTemp srcExtent dstExtent i &&& 0xFFF

/-- The x loop of `NearestResampler<elementSize>::scale` (source lines
36-46): each destination pixel memcpys `elementSize` bytes from the
source element at `offsetX + rowOff`, the destination pointer
advancing. -/
def nearestRow (es : Nat) (srcMem : List Nat) (srcW dstW rowOff : Nat) :
    Nat → Nat → Nat → List Nat → Nat × List Nat
  | 0, _, off, mem => (off, mem)
  | n + 1, x, off, mem =>
      nearestRow es srcMem srcW dstW rowOff n (x + 1) (off + es)
        (writeBytes mem off
          ((srcMem.drop (es * (nearestOffset srcW dstW x + rowOff))).take es))

/-- The y loop of `NearestResampler::scale` (source lines 31-49): per
row the y source offset is `(curY >> 48) * rowPitch`; after a row the
destination skips `elementSize * rowSkip` bytes. -/
def nearestRows (es : Nat) (srcMem : List Nat) (srcW dstW srcH dstH
    rowPitch dstRowSkip sliceOff : Nat) :
    Nat → Nat → Nat → List Nat → Nat × List Nat
  | 0, _, off, mem => (off, mem)
  | n + 1, y, off, mem =>
      let r := nearestRow es srcMem srcW dstW
        (nearestOffset srcH dstH y * rowPitch + sliceOff) dstW 0 off mem
      nearestRows es srcMem srcW dstW srcH dstH rowPitch dstRowSkip sliceOff
        n (y + 1) (r.1 + es * dstRowSkip) r.2

/-- The z loop of `NearestResampler::scale` (source lines 26-52). -/
def nearestSlices (es : Nat) (srcMem : List Nat) (srcW dstW srcH dstH
    srcD dstD rowPitch slicePitch dstRowSkip dstSliceSkip : Nat) :
    Nat → Nat → Nat → List Nat → Nat × List Nat
  | 0, _, off, mem => (off, mem)
  | n + 1, z, off, mem =>
      let r := nearestRows es srcMem srcW dstW srcH dstH rowPitch dstRowSkip
        (nearestOffset srcD dstD z * slicePitch) dstH 0 off mem
      nearestSlices es srcMem srcW dstW srcH dstH srcD dstD rowPitch
        slicePitch dstRowSkip dstSliceSkip n (z + 1)
        (r.1 + es * dstSliceSkip) r.2

def bytePixel (srcMem : List Nat) (b11 b21 b12 b22 c11 c21 c12 c22 : Nat) :
    Nat → Nat → List Nat
  | _, 0 => []
  | k, n + 1 =>
      (((srcMem.getD (b11 + k) 0 * c11 + srcMem.getD (b21 + k) 0 * c21 +
          srcMem.getD (b12 + k) 0 * c12 + srcMem.getD (b22 + k) 0 * c22)
          % 2 ^ 32 + 0x800000) % 2 ^ 32) >>> 24 ::
        bytePixel srcMem b11 b21 b12 b22 c11 c21 c12 c22 (k + 1) n

/-- Wrapping UINT32 subtraction, for the byte-kernel coefficient
arithmetic (`0x1000000 - (wx<<12) - (wy<<12)` underflows and is healed
by the later `+ wx*wy`, exactly as C unsigned arithmetic does). -/
def sub32 (a b : Nat) : Nat := (a + (2 ^ 32 - b % 2 ^ 32)) % 2 ^ 32

def byteCoeff11 (wx wy : Nat) : Nat :=
  (sub32 (sub32 0x1000000 (wx <<< 12)) (wy <<< 12) + wx * wy) % 2 ^ 32

def byteCoeff21 (wx wy : Nat) : Nat := sub32 (wx <<< 12) (wx * wy)

def byteCoeff12 (wx wy : Nat) : Nat := sub32 (wy <<< 12) (wx * wy)

/-- The x loop of `LinearResampler_Byte<channels>::scale` (source lines
309-330): weights and clamped coordinates from the 16/48 position, one
`bytePixel` write per destination pixel. -/
def byteRow (ch : Nat) (srcMem : List Nat) (srcW dstW y1off y2off wy : Nat) :
    Nat → Nat → Nat → List Nat → Nat × List Nat
  | 0, _, off, mem => (off, mem)
  | n + 1, x, off, mem =>
      let wx := byteSampleWeight srcW dstW x
      let x1 := byteSampleCoord1 srcW dstW x
      let x2 := byteSampleCoord2 srcW dstW x
      let out := bytePixel srcMem ((x1 + y1off) * ch) ((x2 + y1off) * ch)
        ((x1 + y2off) * ch) ((x2 + y2off) * ch) (byteCoeff11 wx wy)
        (byteCoeff21 wx wy) (byteCoeff12 wx wy) (wx * wy) 0 ch
      byteRow ch srcMem srcW dstW y1off y2off wy n (x + 1) (off + ch)
        (writeBytes mem off out)

/-- The y loop of `LinearResampler_Byte::scale` (source lines
296-332). -/
def byteRows (ch : Nat) (srcMem : List Nat) (srcW dstW srcH dstH
    rowPitch dstRowSkip : Nat) :
    Nat → Nat → Nat → List Nat → Nat × List Nat
  | 0, _, off, mem => (off, mem)
  | n + 1, y, off, mem =>
      let r := byteRow ch srcMem srcW dstW
        (byteSampleCoord1 srcH dstH y * rowPitch)
        (byteSampleCoord2 srcH dstH y * rowPitch)
        (byteSampleWeight srcH dstH y) dstW 0 off mem
      byteRows ch srcMem srcW dstW srcH dstH rowPitch dstRowSkip n (y + 1)
        (r.1 + ch * dstRowSkip) r.2

/-- Float splice for `LinearResampler_Float32::scale`, which writes
`numDestChannels` floats per destination pixel. -/
def writeFloats (dst : List ℚ) (off : Nat) (vals : List ℚ) : List ℚ :=
  dst.take off ++ vals ++ dst.drop (off + vals.length)

/-- The eight-tap trilinear accumulation of one channel
(`LinearResampler_Float32::scale`, source lines 203-239). -/
def floatAccum (srcMem : List ℚ) (nsrc : Nat)
    (o111 o211 o121 o221 o112 o212 o122 o222 : Nat) (wx wy wz : ℚ)
    (ch : Nat) : ℚ :=
  srcMem.getD (o111 * nsrc + ch) 0 * ((1 - wx) * (1 - wy) * (1 - wz)) +
  srcMem.getD (o211 * nsrc + ch) 0 * (wx * (1 - wy) * (1 - wz)) +
  srcMem.getD (o121 * nsrc + ch) 0 * ((1 - wx) * wy * (1 - wz)) +
  srcMem.getD (o221 * nsrc + ch) 0 * (wx * wy * (1 - wz)) +
  srcMem.getD (o112 * nsrc + ch) 0 * ((1 - wx) * (1 - wy) * wz) +
  srcMem.getD (o212 * nsrc + ch) 0 * (wx * (1 - wy) * wz) +
  srcMem.getD (o122 * nsrc + ch) 0 * ((1 - wx) * wy * wz) +
  srcMem.getD (o222 * nsrc + ch) 0 * (wx * wy * wz)

/-- One destination pixel of `LinearResampler_Float32::scale`: the RGB
branch forces `accum[3] = 1.0`, then `numDestChannels` floats are
written (source lines 215-241). -/
def floatPixelOut (srcMem : List ℚ) (nsrc ndst : Nat)
    (o111 o211 o121 o221 o112 o212 o122 o222 : Nat)
    (wx wy wz : ℚ) : List ℚ :=
  if nsrc = 3 ∨ ndst = 3 then
    [floatAccum srcMem nsrc o111 o211 o121 o221 o112 o212 o122 o222
       wx wy wz 0,
     floatAccum srcMem nsrc o111 o211 o121 o221 o112 o212 o122 o222
       wx wy wz 1,
     floatAccum srcMem nsrc o111 o211 o121 o221 o112 o212 o122 o222
       wx wy wz 2, 1].take ndst
  else
    [floatAccum srcMem nsrc o111 o211 o121 o221 o112 o212 o122 o222
       wx wy wz 0,
     floatAccum srcMem nsrc o111 o211 o121 o221 o112 o212 o122 o222
       wx wy wz 1,
     floatAccum srcMem nsrc o111 o211 o121 o221 o112 o212 o122 o222
       wx wy wz 2,
     floatAccum srcMem nsrc o111 o211 o121 o221 o112 o212 o122 o222
       wx wy wz 3].take ndst

/-- The x, y and z loops of `LinearResampler_Float32::scale` (source
lines 172-253). -/
def floatRow (srcMem : List ℚ) (nsrc ndst srcW dstW rowPitch slicePitch
    y1 y2 z1 z2 : Nat) (wy wz : ℚ) :
    Nat → Nat → Nat → List ℚ → Nat × List ℚ
  | 0, _, off, mem => (off, mem)
  | n + 1, x, off, mem =>
      let x1 := sampleCoord1 srcW dstW x
      let x2 := sampleCoord2 srcW dstW x
      let wx : ℚ := (sampleWeight srcW dstW x : ℚ) / 65536
      let out := floatPixelOut srcMem nsrc ndst
        (x1 + y1 * rowPitch + z1 * slicePitch)
        (x2 + y1 * rowPitch + z1 * slicePitch)
        (x1 + y2 * rowPitch + z1 * slicePitch)
        (x2 + y2 * rowPitch + z1 * slicePitch)
        (x1 + y1 * rowPitch + z2 * slicePitch)
        (x2 + y1 * rowPitch + z2 * slicePitch)
        (x1 + y2 * rowPitch + z2 * slicePitch)
        (x2 + y2 * rowPitch + z2 * slicePitch) wx wy wz
      floatRow srcMem nsrc ndst srcW dstW rowPitch slicePitch y1 y2 z1 z2
        wy wz n (x + 1) (off + ndst) (writeFloats mem off out)

def floatRows (srcMem : List ℚ) (nsrc ndst srcW dstW srcH dstH rowPitch
    slicePitch dstRowSkip z1 z2 : Nat) (wz : ℚ) :
    Nat → Nat → Nat → List ℚ → Nat × List ℚ
  | 0, _, off, mem => (off, mem)
  | n + 1, y, off, mem =>
      let y1 := sampleCoord1 srcH dstH y
      let y2 := sampleCoord2 srcH dstH y
      let wy : ℚ := (sampleWeight srcH dstH y : ℚ) / 65536
      let r := floatRow srcMem nsrc ndst srcW dstW rowPitch slicePitch y1 y2
        z1 z2 wy wz dstW 0 off mem
      floatRows srcMem nsrc ndst srcW dstW srcH dstH rowPitch slicePitch
        dstRowSkip z1 z2 wz n (y + 1) (r.1 + ndst * dstRowSkip) r.2

def floatSlices (srcMem : List ℚ) (nsrc ndst srcW dstW srcH dstH srcD dstD
    rowPitch slicePitch dstRowSkip dstSliceSkip : Nat) :
    Nat → Nat → Nat → List ℚ → Nat × List ℚ
  | 0, _, off, mem => (off, mem)
  | n + 1, z, off, mem =>
      let z1 := sampleCoord1 srcD dstD z
      let z2 := sampleCoord2 srcD dstD z
      let wz : ℚ := (sampleWeight srcD dstD z : ℚ) / 65536
      let r := floatRows srcMem nsrc ndst srcW dstW srcH dstH rowPitch
        slicePitch dstRowSkip z1 z2 wz dstH 0 off mem
      floatSlices srcMem nsrc ndst srcW dstW srcH dstH srcD dstD rowPitch
        slicePitch dstRowSkip dstSliceSkip n (z + 1)
        (r.1 + ndst * dstSliceSkip) r.2

/-- `NearestResampler<elementSize>::scale` (source lines 14-54): no
format conversion, pure element copies steered by the 16/48 stepping. -/
def nearestScale (elementSize : Nat) (src dst : PixelData) : List Nat :=
  (nearestSlices elementSize src.mem src.getWidth dst.getWidth
    src.getHeight dst.getHeight src.getDepth dst.getDepth src.rowPitch
    src.slicePitch dst.getRowSkip dst.getSliceSkip dst.getDepth 0 0
    dst.mem).2

/-- `LinearResampler_Byte<channels>::scale` (source lines 272-334).  The
kernel is 2D only; a depth above 1 on either side delegates to the
generic `LinearResampler` (source lines 277-281), which this
development does not model in byte memory — that branch is returned as
an error value and is outside the identity theorem below. -/
def linearByteScale (channels : Nat) (src dst : PixelData) :
    Except String (List Nat) :=
  if 1 < src.getDepth ∨ 1 < dst.getDepth then
    .error "LinearResampler fallback"
  else
    .ok (byteRows channels src.mem src.getWidth dst.getWidth src.getHeight
      dst.getHeight src.rowPitch dst.getRowSkip dst.getHeight 0 0 dst.mem).2

/-- `LinearResampler_Float32::scale` (source lines 151-255): geometry
from the two descriptors, the float32 memories passed alongside (the
source casts the byte pointers to `float*`). -/
def float32Scale (src dst : PixelData) (srcMem dstMem : List ℚ) :
    List ℚ :=
  (floatSlices srcMem (PixelUtil.getNumElemBytes src.format / 4)
    (PixelUtil.getNumElemBytes dst.format / 4) src.getWidth dst.getWidth
    src.getHeight dst.getHeight src.getDepth dst.getDepth src.rowPitch
    src.slicePitch dst.getRowSkip dst.getSliceSkip dst.getDepth 0 0
    dstMem).2

theorem allFormats_complete : ∀ f : PixelFormat, f ∈ allFormats := by
  intro f; cases f <;> simp [allFormats]

/-- C3 counterexample: `PF_X8R8G8B8` carries the native-endian flag, has
a zero alpha bit-width, yet its alpha mask is `0x000000FF` (the padding
byte), not the zero mask the claim's formula forces. -/
theorem c3_counterexample :
    PixelUtil.isNativeEndian PF_X8R8G8B8 = true ∧
    (getDescriptionFor PF_X8R8G8B8).abits = 0 ∧
    ¬ maskConsistent (getDescriptionFor PF_X8R8G8B8).abits
        (getDescriptionFor PF_X8R8G8B8).amask
        (getDescriptionFor PF_X8R8G8B8).ashift := by
  decide

/-- C3 (amended): for every native-endian format the R, G and B masks
equal `(1 <<< bits) - 1 <<< shift`; the alpha mask satisfies the same
formula except in the four alpha-padded byte formats, whose alpha
bit-width is zero while their alpha mask covers the padding byte.
Every compressed or depth format carries zero masks and zero shifts. -/
theorem c3_amended :
    ∀ f : PixelFormat,
      (PixelUtil.isNativeEndian f = true →
        maskConsistent (getDescriptionFor f).rbits (getDescriptionFor f).rmask
          (getDescriptionFor f).rshift ∧
        maskConsistent (getDescriptionFor f).gbits (getDescriptionFor f).gmask
          (getDescriptionFor f).gshift ∧
        maskConsistent (getDescriptionFor f).bbits (getDescriptionFor f).bmask
          (getDescriptionFor f).bshift ∧
        (¬ isPaddedByteFormat f →
          maskConsistent (getDescriptionFor f).abits (getDescriptionFor f).amask
            (getDescriptionFor f).ashift) ∧
        (isPaddedByteFormat f →
          (getDescriptionFor f).abits = 0 ∧ (getDescriptionFor f).amask ≠ 0)) ∧
      ((PixelUtil.isCompressed f = true ∨ PixelUtil.isDepth f = true) →
        allMasksZero (getDescriptionFor f)) := by
  intro f; cases f <;> exact ⟨by decide, by decide⟩

/-- C3 witness: the amended theorem applied to the native-endian format
`PF_A8R8G8B8` and to the depth format `PF_D16`. -/
theorem c3_witness :
    (PixelUtil.isNativeEndian PF_A8R8G8B8 = true ∧
      maskConsistent (getDescriptionFor PF_A8R8G8B8).rbits
        (getDescriptionFor PF_A8R8G8B8).rmask
        (getDescriptionFor PF_A8R8G8B8).rshift) ∧
    (PixelUtil.isDepth PF_D16 = true ∧ allMasksZero (getDescriptionFor PF_D16)) :=
  ⟨⟨by decide, ((c3_amended PF_A8R8G8B8).1 (by decide)).1⟩,
   ⟨by decide, (c3_amended PF_D16).2 (Or.inr (by decide))⟩⟩

/-- C4 counterexample: `PF_UNKNOWN` has neither the compressed nor the
depth flag set, yet `isAccessible` returns `false` for it. -/
theorem c4_counterexample :
    PixelUtil.isCompressed PF_UNKNOWN = false ∧
    PixelUtil.isDepth PF_UNKNOWN = false ∧
    PixelUtil.isAccessible PF_UNKNOWN = false := by
  decide

/-- C4 (amended): `isAccessible f` is true iff `f` is not `PF_UNKNOWN`
and has neither the compressed flag nor the depth flag set. -/
theorem c4_amended :
    ∀ f : PixelFormat,
      PixelUtil.isAccessible f = true ↔
        f ≠ PF_UNKNOWN ∧ PixelUtil.isCompressed f = false ∧
          PixelUtil.isDepth f = false := by
  intro f; cases f <;> decide

/-- C7: uncompressed formats occupy `width*height*elemBytes` bytes per
slice; `PF_DXT1` (8 bytes per 4×4 block) gives 8 bytes at 4×4 and 32
bytes at 5×5 (2×2 blocks); the other four DXT variants use 16 bytes per
4×4 block. -/
theorem c7_memorySize :
    (∀ (w h : Nat) (f : PixelFormat), PixelUtil.isCompressed f = false →
      PixelUtil.getMemorySize w h 1 f = .ok (w * h * PixelUtil.getNumElemBytes f)) ∧
    PixelUtil.getMemorySize 4 4 1 PF_DXT1 = .ok 8 ∧
    PixelUtil.getMemorySize 5 5 1 PF_DXT1 = .ok 32 ∧
    (∀ (w h d : Nat) (f : PixelFormat),
      (f = PF_DXT2 ∨ f = PF_DXT3 ∨ f = PF_DXT4 ∨ f = PF_DXT5) →
      PixelUtil.getMemorySize w h d f =
        .ok (((w + 3) / 4) * ((h + 3) / 4) * 16 * d)) := by
  refine ⟨?_, by rfl, by rfl, ?_⟩
  · intro w h f hf
    simp only [PixelUtil.getMemorySize, hf, Bool.false_eq_true, if_false,
      mul_one, Nat.mul_one]
  · rintro w h d f (rfl | rfl | rfl | rfl) <;> rfl

/-- C7 witness: the uncompressed branch at `PF_A8R8G8B8`, 7×5, and the
DXT block branch at `PF_DXT3`, 5×5×2. -/
theorem c7_memorySize_witness :
    (PixelUtil.isCompressed PF_A8R8G8B8 = false ∧
      PixelUtil.getMemorySize 7 5 1 PF_A8R8G8B8 = .ok 140) ∧
    PixelUtil.getMemorySize 5 5 2 PF_DXT3 = .ok 128 :=
  ⟨⟨by rfl, c7_memorySize.1 7 5 PF_A8R8G8B8 (by rfl)⟩,
   c7_memorySize.2.2.2 5 5 2 PF_DXT3 (by simp)⟩

section BitLemmas

theorem and_lor_distrib (x y m : Nat) :
    (x ||| y) &&& m = (x &&& m) ||| (y &&& m) := by
  apply Nat.eq_of_testBit_eq; intro i
  simp [Nat.testBit_land, Nat.testBit_lor, Bool.and_or_distrib_right]

theorem lor_lt_two_pow {x y n : Nat} (hx : x < 2 ^ n) (hy : y < 2 ^ n) :
    x ||| y < 2 ^ n := by
  have h : (x ||| y) &&& (2 ^ n - 1) = x ||| y := by
    apply Nat.eq_of_testBit_eq; intro i
    simp only [Nat.testBit_land, Nat.testBit_two_pow_sub_one, Nat.testBit_lor]
    by_cases hi : i < n
    · simp [hi]
    · have hxi : x.testBit i = false :=
        Nat.testBit_eq_false_of_lt
          (lt_of_lt_of_le hx (Nat.pow_le_pow_right (by norm_num) (le_of_not_lt hi)))
      have hyi : y.testBit i = false :=
        Nat.testBit_eq_false_of_lt
          (lt_of_lt_of_le hy (Nat.pow_le_pow_right (by norm_num) (le_of_not_lt hi)))
      simp [hxi, hyi]
  calc x ||| y = (x ||| y) &&& (2 ^ n - 1) := h.symm
    _ = (x ||| y) % 2 ^ n := Nat.and_pow_two_sub_one_eq_mod _ n
    _ < 2 ^ n := Nat.mod_lt _ (Nat.pos_pow_of_pos n (by norm_num))

theorem shiftLeft_and_mask {v b : Nat} (s : Nat) (hv : v < 2 ^ b) :
    (v <<< s) &&& ((2 ^ b - 1) <<< s) = v <<< s := by
  apply Nat.eq_of_testBit_eq; intro i
  simp only [Nat.testBit_land, Nat.testBit_shiftLeft,
    Nat.testBit_two_pow_sub_one]
  by_cases hs : s ≤ i
  · by_cases hb : i - s < b
    · simp [ge_iff_le, hs, hb]
    · have : v.testBit (i - s) = false :=
        Nat.testBit_eq_false_of_lt
          (lt_of_lt_of_le hv (Nat.pow_le_pow_right (by norm_num) (le_of_not_lt hb)))
      simp [ge_iff_le, hs, this]
  · simp [ge_iff_le, hs]

theorem and_and_zero {x m m' : Nat} (h : m &&& m' = 0) :
    (x &&& m) &&& m' = 0 := by
  rw [Nat.land_assoc, h, Nat.and_zero]

/-- Extraction of one packed channel from the OR of the four channel
terms, target in first position: masking with the channel's mask and
shifting right recovers the channel value. -/
theorem extract_first {v b : Nat} (s : Nat) (o : Nat) (hv : v < 2 ^ b)
    (ho : o &&& ((2 ^ b - 1) <<< s) = 0) :
    ((((v <<< s) &&& ((2 ^ b - 1) <<< s)) ||| o) &&& ((2 ^ b - 1) <<< s)) >>> s
      = v := by
  rw [and_lor_distrib, ho, Nat.or_zero, shiftLeft_and_mask s hv,
    shiftLeft_and_mask s hv, Nat.shiftLeft_shiftRight]

end BitLemmas

section QuantLemmas

/-- Value range of `floatToFixed`: always below `2^bits`. -/
theorem floatToFixed_lt (x : ℚ) (b : Nat) : Bitwise.floatToFixed x b < 2 ^ b := by
  unfold Bitwise.floatToFixed
  have h2 : (0:ℕ) < 2 ^ b := Nat.pos_pow_of_pos b (by norm_num)
  split
  · exact h2
  · split
    · simp only [Nat.shiftLeft_eq, Nat.one_mul]; omega
    · rename_i h0 h1
      have hx0 : 0 < x := lt_of_not_le h0
      have hx1 : x < 1 := lt_of_not_le h1
      have hfl : (0:ℤ) ≤ ⌊x * ((1 <<< b : Nat) : ℚ)⌋ :=
        Int.floor_nonneg.2 (by positivity)
      have hNcast : ((1 <<< b : Nat) : ℚ) = (2:ℚ) ^ b := by
        push_cast [Nat.shiftLeft_eq]; ring
      have hlt : ⌊x * ((1 <<< b : Nat) : ℚ)⌋ < ((2 ^ b : ℕ) : ℤ) := by
        rw [Int.floor_lt]
        push_cast [hNcast]
        nlinarith [pow_pos (show (0:ℚ) < 2 by norm_num) b]
      omega

/-- Value range of `fixedToFixed`: below `2^p` when the input is below
`2^n`. -/
theorem fixedToFixed_lt {v n : Nat} (p : Nat) (hv : v < 2 ^ n) :
    Bitwise.fixedToFixed v n p < 2 ^ p := by
  unfold Bitwise.fixedToFixed
  have h2 : (0:ℕ) < 2 ^ p := Nat.pos_pow_of_pos p (by norm_num)
  split
  · rw [Nat.shiftRight_eq_div_pow]
    apply Nat.div_lt_of_lt_mul
    calc v < 2 ^ n := hv
      _ = 2 ^ (n - p) * 2 ^ p := by rw [← pow_add]; congr 1; omega
  · split
    · split
      · exact h2
      · split
        · simp only [Nat.shiftLeft_eq, Nat.one_mul]; omega
        · rename_i hnp hpn hv0 hvtop
          simp only [Nat.shiftLeft_eq, Nat.one_mul] at hvtop ⊢
          have hn1 : 1 ≤ 2 ^ n := Nat.one_le_two_pow
          have hvle : v ≤ 2 ^ n - 2 := by omega
          apply Nat.div_lt_of_lt_mul
          have hmono : v * 2 ^ p ≤ (2 ^ n - 2) * 2 ^ p :=
            Nat.mul_le_mul_right _ hvle
          have hstep : (2 ^ n - 2) * 2 ^ p < (2 ^ n - 1) * 2 ^ p := by
            have hne : 2 ≤ 2 ^ n := by
          -- v ≠ 0 and v < 2^n forces 2^n ≥ 2
              omega
            exact Nat.mul_lt_mul_of_lt_of_le (by omega) (le_refl _) h2
          omega
    · rename_i hnp hpn
      have : n = p := by omega
      subst this; exact hv

/-- Identity of `fixedToFixed` at equal widths. -/
theorem fixedToFixed_same (v n : Nat) : Bitwise.fixedToFixed v n n = v := by
  unfold Bitwise.fixedToFixed; simp

/-- The quantization error of the fixed-point round trip: for a channel
of positive bit-width `b` and an input in `[0,1]`, unpacking the packed
value lands within `1/(2^b - 1)` of the input. -/
theorem quant_err {b : Nat} (hb : 0 < b) {x : ℚ} (h0 : 0 ≤ x) (h1 : x ≤ 1) :
    |Bitwise.fixedToFloat (Bitwise.floatToFixed x b) b - x| ≤
      1 / ((2:ℚ) ^ b - 1) := by
  have hcast : (((1 <<< b) - 1 : Nat) : ℚ) = (2:ℚ) ^ b - 1 := by
    have h1b : (1:ℕ) ≤ 2 ^ b := Nat.one_le_two_pow
    rw [Nat.shiftLeft_eq, Nat.one_mul, Nat.cast_sub h1b]
    push_cast
    ring
  have hM : (1:ℚ) ≤ (2:ℚ) ^ b - 1 := by
    have h2 : (2:ℚ) ^ 1 ≤ (2:ℚ) ^ b := pow_le_pow_right₀ (by norm_num) hb
    rw [pow_one] at h2; linarith
  have hMpos : (0:ℚ) < (2:ℚ) ^ b - 1 := by linarith
  unfold Bitwise.fixedToFloat Bitwise.floatToFixed
  rw [hcast]
  split
  · rename_i hx0
    have hx : x = 0 := le_antisymm hx0 h0
    subst hx
    simp only [Nat.cast_zero, zero_div, sub_zero, abs_zero]
    positivity
  · split
    · rename_i hx0 hx1
      have hx : x = 1 := le_antisymm h1 hx1
      subst hx
      rw [hcast, div_self (ne_of_gt hMpos)]
      simp only [sub_self, abs_zero]
      positivity
    · rename_i hx0 hx1
      have hx0' : 0 < x := lt_of_not_le hx0
      have hx1' : x < 1 := lt_of_not_le hx1
      have hNcast : ((1 <<< b : Nat) : ℚ) = (2:ℚ) ^ b := by
        push_cast [Nat.shiftLeft_eq]; ring
      rw [hNcast]
      have hfl0 : (0:ℤ) ≤ ⌊x * (2:ℚ) ^ b⌋ :=
        Int.floor_nonneg.2 (by positivity)
      have hnum : (((⌊x * (2:ℚ) ^ b⌋).toNat : ℕ) : ℚ) =
          (⌊x * (2:ℚ) ^ b⌋ : ℚ) := by
        exact_mod_cast congrArg (Int.cast : ℤ → ℚ) (Int.toNat_of_nonneg hfl0)
      rw [hnum]
      have hvle : (⌊x * (2:ℚ) ^ b⌋ : ℚ) ≤ x * (2:ℚ) ^ b := Int.floor_le _
      have hvgt := Int.lt_floor_add_one (x * (2:ℚ) ^ b)
      set v : ℚ := (⌊x * (2:ℚ) ^ b⌋ : ℚ) with hvdef
      have key : |v - x * ((2:ℚ) ^ b - 1)| ≤ 1 := by
        rw [abs_le]
        constructor <;> nlinarith
      have heq : v / ((2:ℚ) ^ b - 1) - x =
          (v - x * ((2:ℚ) ^ b - 1)) / ((2:ℚ) ^ b - 1) := by
        field_simp
        ring
      rw [heq, abs_div, abs_of_pos hMpos]
      exact (div_le_div_right hMpos).2 key

end QuantLemmas

section ExtractLemmas

theorem extract_pos1 {v b : Nat} (s t2 t3 t4 : Nat) (hv : v < 2 ^ b)
    (h2 : t2 &&& ((2 ^ b - 1) <<< s) = 0)
    (h3 : t3 &&& ((2 ^ b - 1) <<< s) = 0)
    (h4 : t4 &&& ((2 ^ b - 1) <<< s) = 0) :
    ((((v <<< s) &&& ((2 ^ b - 1) <<< s)) ||| t2 ||| t3 ||| t4) &&&
      ((2 ^ b - 1) <<< s)) >>> s = v := by
  rw [and_lor_distrib, and_lor_distrib, and_lor_distrib, h2, h3, h4,
    Nat.or_zero, Nat.or_zero, Nat.or_zero, shiftLeft_and_mask s hv,
    shiftLeft_and_mask s hv, Nat.shiftLeft_shiftRight]

theorem extract_pos2 {v b : Nat} (s t1 t3 t4 : Nat) (hv : v < 2 ^ b)
    (h1 : t1 &&& ((2 ^ b - 1) <<< s) = 0)
    (h3 : t3 &&& ((2 ^ b - 1) <<< s) = 0)
    (h4 : t4 &&& ((2 ^ b - 1) <<< s) = 0) :
    ((t1 ||| ((v <<< s) &&& ((2 ^ b - 1) <<< s)) ||| t3 ||| t4) &&&
      ((2 ^ b - 1) <<< s)) >>> s = v := by
  rw [and_lor_distrib, and_lor_distrib, and_lor_distrib, h1, h3, h4,
    Nat.zero_or, Nat.or_zero, Nat.or_zero, shiftLeft_and_mask s hv,
    shiftLeft_and_mask s hv, Nat.shiftLeft_shiftRight]

theorem extract_pos3 {v b : Nat} (s t1 t2 t4 : Nat) (hv : v < 2 ^ b)
    (h1 : t1 &&& ((2 ^ b - 1) <<< s) = 0)
    (h2 : t2 &&& ((2 ^ b - 1) <<< s) = 0)
    (h4 : t4 &&& ((2 ^ b - 1) <<< s) = 0) :
    ((t1 ||| t2 ||| ((v <<< s) &&& ((2 ^ b - 1) <<< s)) ||| t4) &&&
      ((2 ^ b - 1) <<< s)) >>> s = v := by
  rw [and_lor_distrib, and_lor_distrib, and_lor_distrib, h1, h2, h4,
    Nat.zero_or, Nat.zero_or, Nat.or_zero, shiftLeft_and_mask s hv,
    shiftLeft_and_mask s hv, Nat.shiftLeft_shiftRight]

theorem extract_pos4 {v b : Nat} (s t1 t2 t3 : Nat) (hv : v < 2 ^ b)
    (h1 : t1 &&& ((2 ^ b - 1) <<< s) = 0)
    (h2 : t2 &&& ((2 ^ b - 1) <<< s) = 0)
    (h3 : t3 &&& ((2 ^ b - 1) <<< s) = 0) :
    ((t1 ||| t2 ||| t3 ||| ((v <<< s) &&& ((2 ^ b - 1) <<< s))) &&&
      ((2 ^ b - 1) <<< s)) >>> s = v := by
  rw [and_lor_distrib, and_lor_distrib, and_lor_distrib, h1, h2, h3,
    Nat.zero_or, Nat.zero_or, Nat.zero_or, shiftLeft_and_mask s hv,
    shiftLeft_and_mask s hv, Nat.shiftLeft_shiftRight]

/-- Round trip of `intWrite` then `intRead` at the same byte count. -/
theorem intRead_intWrite {n value : Nat} (hn : 1 ≤ n) (hn4 : n ≤ 4)
    (hv : value < 2 ^ (8 * n)) :
    Bitwise.intRead (Bitwise.intWrite n value) n = value := by
  interval_cases n <;>
    simp only [Bitwise.intWrite, Bitwise.intRead, List.getD] <;>
    norm_num at hv ⊢ <;> omega

/-- Values of `floatToFixed` at zero bit-width are always zero (the
alpha term packed for a zero-width alpha channel contributes nothing,
whatever the mask). -/
theorem floatToFixed_zero (x : ℚ) : Bitwise.floatToFixed x 0 = 0 := by
  unfold Bitwise.floatToFixed
  split
  · rfl
  · split
    · rfl
    · rename_i h0 h1
      have hx0 : 0 < x := lt_of_not_le h0
      have hx1 : x < 1 := lt_of_not_le h1
      have : ((1 <<< 0 : Nat) : ℚ) = 1 := by norm_num
      rw [this, mul_one]
      have : ⌊x⌋ = 0 := Int.floor_eq_zero_iff.2 ⟨le_of_lt hx0, hx1⟩
      simp [this]

/-- Error of the modelled half-float round trip: within `2^(-10)` for
inputs in `[0, 1]`. -/
theorem halfRound_err {x : ℚ} (h0 : 0 ≤ x) (h1 : x ≤ 1) :
    |Bitwise.halfRound x - x| ≤ 1 / 1024 := by
  unfold Bitwise.halfRound
  split
  · rename_i hx
    have : x = 0 := le_antisymm hx h0
    subst this
    norm_num
  · rename_i hx
    have hx0 : 0 < x := lt_of_not_le hx
    set e : ℤ := max (Int.log 2 x) (-14) with he
    have he0 : e ≤ 0 := by
      have hlog : Int.log 2 x ≤ 0 := by
        calc Int.log 2 x ≤ Int.log 2 (1:ℚ) := Int.log_mono_right hx0 h1
          _ = 0 := Int.log_one_right 2
      rw [he]
      exact max_le hlog (by norm_num)
    have hspos : (0:ℚ) < (2:ℚ) ^ (10 - e) := zpow_pos (by norm_num) _
    have hsi : (0:ℚ) < ((2:ℚ) ^ (10 - e))⁻¹ := inv_pos.2 hspos
    have hss : (2:ℚ) ^ (10 - e) * ((2:ℚ) ^ (10 - e))⁻¹ = 1 :=
      mul_inv_cancel₀ (ne_of_gt hspos)
    have hfl : (⌊x * (2:ℚ) ^ (10 - e)⌋ : ℚ) ≤ x * (2:ℚ) ^ (10 - e) :=
      Int.floor_le _
    have hfg := Int.lt_floor_add_one (x * (2:ℚ) ^ (10 - e))
    have hinv : (2:ℚ) ^ (e - 10) = ((2:ℚ) ^ (10 - e))⁻¹ := by
      rw [← zpow_neg]
      congr 1
      ring
    have habs : |(⌊x * (2:ℚ) ^ (10 - e)⌋ : ℚ) * (2:ℚ) ^ (e - 10) - x| ≤
        (2:ℚ) ^ (e - 10) := by
      rw [hinv, abs_le]
      constructor
      · have h := mul_le_mul_of_nonneg_right (le_of_lt hfg) (le_of_lt hsi)
        have hexp : (x * (2:ℚ) ^ (10 - e)) * ((2:ℚ) ^ (10 - e))⁻¹ =
            x * ((2:ℚ) ^ (10 - e) * ((2:ℚ) ^ (10 - e))⁻¹) := by ring
        rw [add_mul, one_mul, hexp, hss, mul_one] at h
        linarith
      · have h := mul_le_mul_of_nonneg_right hfl (le_of_lt hsi)
        have hexp : (x * (2:ℚ) ^ (10 - e)) * ((2:ℚ) ^ (10 - e))⁻¹ =
            x * ((2:ℚ) ^ (10 - e) * ((2:ℚ) ^ (10 - e))⁻¹) := by ring
        rw [hexp, hss, mul_one] at h
        linarith
    have hmono : (2:ℚ) ^ (e - 10) ≤ (2:ℚ) ^ (-10 : ℤ) :=
      zpow_le_zpow_right₀ (by norm_num) (by omega)
    have hval : (2:ℚ) ^ (-10 : ℤ) = 1 / 1024 := by norm_num
    rw [hval] at hmono
    linarith [habs, hmono]

end ExtractLemmas

/-- C5 counterexample: `PF_R8G8B8X8` is an opaque format with three
components, yet unpacking an all-zero pixel yields alpha 0 — not 255 on
the byte path nor 1.0 on the float path — because the format carries
the has-alpha flag with a zero alpha bit-width (the C code divides by
zero there: `fixedToFloat(…, 0)`). -/
theorem c5_counterexample :
    (getDescriptionFor PF_R8G8B8X8).componentCount = 3 ∧
    PixelUtil.hasAlpha PF_R8G8B8X8 = true ∧
    PixelUtil.unpackColorB PF_R8G8B8X8 (.bytes [0, 0, 0, 0]) =
      .ok (0, 0, 0, 0) ∧
    PixelUtil.unpackColor PF_R8G8B8X8 (.bytes [0, 0, 0, 0]) =
      .ok ⟨0, 0, 0, 0⟩ := by
  refine ⟨rfl, rfl, by decide, ?_⟩
  simp [PixelUtil.unpackColor, getDescriptionFor, PackedPixel.asBytes,
    Bitwise.intRead, Bitwise.fixedToFloat, Except.map]

/-- C5 (amended): the unpack alpha default is keyed on the has-alpha
FLAG, not on the channel count.  For every format lacking the flag,
whenever `unpackColor` succeeds the alpha out-parameter is 1.0 (float
path) resp. 255 (byte path), regardless of the source bytes; and
`packColor` into such a format is independent of the alpha argument
(the packed alpha term is zero).  The three-channel opaque formats
`PF_R8G8B8X8`/`PF_B8G8R8X8` carry the has-alpha flag and are exempt. -/
theorem c5_amended :
    (∀ (f : PixelFormat) (src : PackedPixel) (c : Color),
      PixelUtil.hasAlpha f = false →
      PixelUtil.unpackColor f src = .ok c → c.a = 1) ∧
    (∀ (f : PixelFormat) (src : PackedPixel) (r g b a : Nat),
      PixelUtil.hasAlpha f = false →
      PixelUtil.unpackColorB f src = .ok (r, g, b, a) → a = 255) ∧
    (∀ (f : PixelFormat) (r g b a a' : ℚ),
      PixelUtil.hasAlpha f = false →
      PixelUtil.packColor r g b a f = PixelUtil.packColor r g b a' f) := by
  refine ⟨?_, ?_, ?_⟩
  · intro f src c hf h
    cases f <;> simp [PixelUtil.hasAlpha, getDescriptionFor] at hf <;>
      rcases src with l | l <;>
      simp [PixelUtil.unpackColor, getDescriptionFor] at h <;>
      (try cases h) <;> simp_all
  · intro f src r g b a hf h
    cases f <;> simp [PixelUtil.hasAlpha, getDescriptionFor] at hf <;>
      rcases src with l | l <;>
      simp [PixelUtil.unpackColorB, PixelUtil.unpackColor,
        getDescriptionFor] at h <;>
      (try cases h) <;> simp_all <;> decide
  · intro f r g b a a' hf
    cases f <;> simp [PixelUtil.hasAlpha, getDescriptionFor] at hf <;>
      simp [PixelUtil.packColor, getDescriptionFor, floatToFixed_zero]

/-- C5 witness: the amended theorem applied to `PF_X8R8G8B8` (a
three-channel opaque format without the has-alpha flag) at a concrete
source pixel, and pack independence at concrete alpha values. -/
theorem c5_witness :
    (PixelUtil.hasAlpha PF_X8R8G8B8 = false ∧
      (Color.mk (Bitwise.fixedToFloat 1 8) (Bitwise.fixedToFloat 2 8)
        (Bitwise.fixedToFloat 3 8) 1).a = 1) ∧
    PixelUtil.packColor (1/2) (1/3) (1/4) (1/5) PF_X8R8G8B8 =
      PixelUtil.packColor (1/2) (1/3) (1/4) (4/5) PF_X8R8G8B8 := by
  have h : PixelUtil.unpackColor PF_X8R8G8B8 (.bytes [9, 1, 2, 3]) =
      .ok ⟨Bitwise.fixedToFloat 1 8, Bitwise.fixedToFloat 2 8,
        Bitwise.fixedToFloat 3 8, 1⟩ := by
    simp only [PixelUtil.unpackColor, getDescriptionFor, PackedPixel.asBytes,
      Bitwise.intRead, Except.map]
    norm_num
    refine ⟨?_, ?_, ?_⟩ <;> congr 1
  exact ⟨⟨rfl, c5_amended.1 PF_X8R8G8B8 (.bytes [9, 1, 2, 3]) _ rfl h⟩,
    c5_amended.2.2 PF_X8R8G8B8 (1/2) (1/3) (1/4) (1/5) (4/5) rfl⟩

section ChannelLemmas

theorem or4_lt {t1 t2 t3 t4 n : Nat} (h1 : t1 < 2 ^ n) (h2 : t2 < 2 ^ n)
    (h3 : t3 < 2 ^ n) (h4 : t4 < 2 ^ n) : t1 ||| t2 ||| t3 ||| t4 < 2 ^ n :=
  lor_lt_two_pow (lor_lt_two_pow (lor_lt_two_pow h1 h2) h3) h4

/-- Round trip of one native-endian channel packed in first position
(the R term of `packColor`): writing the OR of the four channel terms
to memory, reading it back, masking and shifting recovers the
fixed-point value, whose unpacking lands within the quantization
error. -/
theorem nchan1 {x : ℚ} {b : Nat} (s n t2 t3 t4 : Nat) (hb : 0 < b)
    (h0 : 0 ≤ x) (h1 : x ≤ 1)
    (h2 : t2 &&& ((2 ^ b - 1) <<< s) = 0)
    (h3 : t3 &&& ((2 ^ b - 1) <<< s) = 0)
    (h4 : t4 &&& ((2 ^ b - 1) <<< s) = 0)
    (hn : 1 ≤ n) (hn4 : n ≤ 4)
    (hlt : ((Bitwise.floatToFixed x b <<< s) &&& ((2 ^ b - 1) <<< s)) |||
      t2 ||| t3 ||| t4 < 2 ^ (8 * n)) :
    |Bitwise.fixedToFloat
        ((Bitwise.intRead
            (Bitwise.intWrite n
              (((Bitwise.floatToFixed x b <<< s) &&& ((2 ^ b - 1) <<< s)) |||
                t2 ||| t3 ||| t4)) n &&&
          ((2 ^ b - 1) <<< s)) >>> s) b - x| ≤ 1 / ((2:ℚ) ^ b - 1) := by
  rw [intRead_intWrite hn hn4 hlt,
    extract_pos1 s t2 t3 t4 (floatToFixed_lt x b) h2 h3 h4]
  exact quant_err hb h0 h1

/-- Round trip of one native-endian channel packed in second position
(the G term of `packColor`). -/
theorem nchan2 {x : ℚ} {b : Nat} (s n t1 t3 t4 : Nat) (hb : 0 < b)
    (h0 : 0 ≤ x) (h1 : x ≤ 1)
    (h1' : t1 &&& ((2 ^ b - 1) <<< s) = 0)
    (h3 : t3 &&& ((2 ^ b - 1) <<< s) = 0)
    (h4 : t4 &&& ((2 ^ b - 1) <<< s) = 0)
    (hn : 1 ≤ n) (hn4 : n ≤ 4)
    (hlt : t1 ||| ((Bitwise.floatToFixed x b <<< s) &&& ((2 ^ b - 1) <<< s)) |||
      t3 ||| t4 < 2 ^ (8 * n)) :
    |Bitwise.fixedToFloat
        ((Bitwise.intRead
            (Bitwise.intWrite n
              (t1 ||| ((Bitwise.floatToFixed x b <<< s) &&& ((2 ^ b - 1) <<< s)) |||
                t3 ||| t4)) n &&&
          ((2 ^ b - 1) <<< s)) >>> s) b - x| ≤ 1 / ((2:ℚ) ^ b - 1) := by
  rw [intRead_intWrite hn hn4 hlt,
    extract_pos2 s t1 t3 t4 (floatToFixed_lt x b) h1' h3 h4]
  exact quant_err hb h0 h1

/-- Round trip of one native-endian channel packed in third position
(the B term of `packColor`). -/
theorem nchan3 {x : ℚ} {b : Nat} (s n t1 t2 t4 : Nat) (hb : 0 < b)
    (h0 : 0 ≤ x) (h1 : x ≤ 1)
    (h1' : t1 &&& ((2 ^ b - 1) <<< s) = 0)
    (h2 : t2 &&& ((2 ^ b - 1) <<< s) = 0)
    (h4 : t4 &&& ((2 ^ b - 1) <<< s) = 0)
    (hn : 1 ≤ n) (hn4 : n ≤ 4)
    (hlt : t1 ||| t2 ||| ((Bitwise.floatToFixed x b <<< s) &&& ((2 ^ b - 1) <<< s)) |||
      t4 < 2 ^ (8 * n)) :
    |Bitwise.fixedToFloat
        ((Bitwise.intRead
            (Bitwise.intWrite n
              (t1 ||| t2 ||| ((Bitwise.floatToFixed x b <<< s) &&& ((2 ^ b - 1) <<< s)) |||
                t4)) n &&&
          ((2 ^ b - 1) <<< s)) >>> s) b - x| ≤ 1 / ((2:ℚ) ^ b - 1) := by
  rw [intRead_intWrite hn hn4 hlt,
    extract_pos3 s t1 t2 t4 (floatToFixed_lt x b) h1' h2 h4]
  exact quant_err hb h0 h1

/-- Round trip of one native-endian channel packed in fourth position
(the A term of `packColor`). -/
theorem nchan4 {x : ℚ} {b : Nat} (s n t1 t2 t3 : Nat) (hb : 0 < b)
    (h0 : 0 ≤ x) (h1 : x ≤ 1)
    (h1' : t1 &&& ((2 ^ b - 1) <<< s) = 0)
    (h2 : t2 &&& ((2 ^ b - 1) <<< s) = 0)
    (h3 : t3 &&& ((2 ^ b - 1) <<< s) = 0)
    (hn : 1 ≤ n) (hn4 : n ≤ 4)
    (hlt : t1 ||| t2 ||| t3 |||
      ((Bitwise.floatToFixed x b <<< s) &&& ((2 ^ b - 1) <<< s)) < 2 ^ (8 * n)) :
    |Bitwise.fixedToFloat
        ((Bitwise.intRead
            (Bitwise.intWrite n
              (t1 ||| t2 ||| t3 |||
                ((Bitwise.floatToFixed x b <<< s) &&& ((2 ^ b - 1) <<< s)))) n &&&
          ((2 ^ b - 1) <<< s)) >>> s) b - x| ≤ 1 / ((2:ℚ) ^ b - 1) := by
  rw [intRead_intWrite hn hn4 hlt,
    extract_pos4 s t1 t2 t3 (floatToFixed_lt x b) h1' h2 h3]
  exact quant_err hb h0 h1

theorem bchan1 {x : Nat} (s n t2 t3 t4 : Nat) (hx : x < 2 ^ 8)
    (h2 : t2 &&& ((2 ^ 8 - 1) <<< s) = 0)
    (h3 : t3 &&& ((2 ^ 8 - 1) <<< s) = 0)
    (h4 : t4 &&& ((2 ^ 8 - 1) <<< s) = 0)
    (hn : 1 ≤ n) (hn4 : n ≤ 4)
    (hlt : ((x <<< s) &&& ((2 ^ 8 - 1) <<< s)) ||| t2 ||| t3 ||| t4 <
      2 ^ (8 * n)) :
    Bitwise.fixedToFixed
      ((Bitwise.intRead
          (Bitwise.intWrite n
            (((Bitwise.fixedToFixed x 8 8 <<< s) &&& ((2 ^ 8 - 1) <<< s)) |||
              t2 ||| t3 ||| t4)) n &&&
        ((2 ^ 8 - 1) <<< s)) >>> s) 8 8 = x := by
  rw [fixedToFixed_same x 8, intRead_intWrite hn hn4 hlt,
    extract_pos1 s t2 t3 t4 hx h2 h3 h4, fixedToFixed_same]

theorem bchan2 {x : Nat} (s n t1 t3 t4 : Nat) (hx : x < 2 ^ 8)
    (h1 : t1 &&& ((2 ^ 8 - 1) <<< s) = 0)
    (h3 : t3 &&& ((2 ^ 8 - 1) <<< s) = 0)
    (h4 : t4 &&& ((2 ^ 8 - 1) <<< s) = 0)
    (hn : 1 ≤ n) (hn4 : n ≤ 4)
    (hlt : t1 ||| ((x <<< s) &&& ((2 ^ 8 - 1) <<< s)) ||| t3 ||| t4 <
      2 ^ (8 * n)) :
    Bitwise.fixedToFixed
      ((Bitwise.intRead
          (Bitwise.intWrite n
            (t1 ||| ((Bitwise.fixedToFixed x 8 8 <<< s) &&& ((2 ^ 8 - 1) <<< s)) |||
              t3 ||| t4)) n &&&
        ((2 ^ 8 - 1) <<< s)) >>> s) 8 8 = x := by
  rw [fixedToFixed_same x 8, intRead_intWrite hn hn4 hlt,
    extract_pos2 s t1 t3 t4 hx h1 h3 h4, fixedToFixed_same]

theorem bchan3 {x : Nat} (s n t1 t2 t4 : Nat) (hx : x < 2 ^ 8)
    (h1 : t1 &&& ((2 ^ 8 - 1) <<< s) = 0)
    (h2 : t2 &&& ((2 ^ 8 - 1) <<< s) = 0)
    (h4 : t4 &&& ((2 ^ 8 - 1) <<< s) = 0)
    (hn : 1 ≤ n) (hn4 : n ≤ 4)
    (hlt : t1 ||| t2 ||| ((x <<< s) &&& ((2 ^ 8 - 1) <<< s)) ||| t4 <
      2 ^ (8 * n)) :
    Bitwise.fixedToFixed
      ((Bitwise.intRead
          (Bitwise.intWrite n
            (t1 ||| t2 ||| ((Bitwise.fixedToFixed x 8 8 <<< s) &&& ((2 ^ 8 - 1) <<< s)) |||
              t4)) n &&&
        ((2 ^ 8 - 1) <<< s)) >>> s) 8 8 = x := by
  rw [fixedToFixed_same x 8, intRead_intWrite hn hn4 hlt,
    extract_pos3 s t1 t2 t4 hx h1 h2 h4, fixedToFixed_same]

theorem bchan4 {x : Nat} (s n t1 t2 t3 : Nat) (hx : x < 2 ^ 8)
    (h1 : t1 &&& ((2 ^ 8 - 1) <<< s) = 0)
    (h2 : t2 &&& ((2 ^ 8 - 1) <<< s) = 0)
    (h3 : t3 &&& ((2 ^ 8 - 1) <<< s) = 0)
    (hn : 1 ≤ n) (hn4 : n ≤ 4)
    (hlt : t1 ||| t2 ||| t3 ||| ((x <<< s) &&& ((2 ^ 8 - 1) <<< s)) <
      2 ^ (8 * n)) :
    Bitwise.fixedToFixed
      ((Bitwise.intRead
          (Bitwise.intWrite n
            (t1 ||| t2 ||| t3 |||
              ((Bitwise.fixedToFixed x 8 8 <<< s) &&& ((2 ^ 8 - 1) <<< s)))) n &&&
        ((2 ^ 8 - 1) <<< s)) >>> s) 8 8 = x := by
  rw [fixedToFixed_same x 8, intRead_intWrite hn hn4 hlt,
    extract_pos4 s t1 t2 t3 hx h1 h2 h3, fixedToFixed_same]

end ChannelLemmas

/-- Float-overload round trip bound for the non-half accessible
formats: each channel with nonzero bit-width is reproduced within its
quantization error. -/
theorem floatRoundtripBound :
    ∀ f : PixelFormat, PixelUtil.isAccessible f = true →
      f ≠ PF_FLOAT16_R → f ≠ PF_FLOAT16_RG → f ≠ PF_FLOAT16_RGB →
      f ≠ PF_FLOAT16_RGBA →
      ∀ r g b a : ℚ, 0 ≤ r → r ≤ 1 → 0 ≤ g → g ≤ 1 → 0 ≤ b → b ≤ 1 →
        0 ≤ a → a ≤ 1 →
      ∃ c, roundTripF f r g b a = .ok c ∧
        channelsWithinQuant f r g b a c := by
  intro f hacc h16a h16b h16c h16d r g b a h0r h1r h0g h1g h0b h1b h0a h1a
  cases f
  · -- PF_UNKNOWN
    exact absurd hacc (by decide)
  · -- PF_R8
    refine ⟨_, rfl, ?_, ?_, ?_, ?_⟩
    · intro _
      simp only [getDescriptionFor, roundTripF, PixelUtil.packColor,
        PixelUtil.unpackColor, PackedPixel.asBytes, Except.map, Except.bind,
        List.getD_cons_zero]
      exact quant_err (by norm_num) h0r h1r
    · exact fun h => absurd h (by decide)
    · exact fun h => absurd h (by decide)
    · exact fun h => absurd h (by decide)
  · -- PF_R8G8
    refine ⟨_, rfl, ?_, ?_, ?_, ?_⟩
    · intro _
      simp only [getDescriptionFor, roundTripF, PixelUtil.packColor,
        PixelUtil.unpackColor, PackedPixel.asBytes, Except.map, Except.bind,
        List.getD_cons_zero]
      exact quant_err (by norm_num) h0r h1r
    · intro _
      simp only [getDescriptionFor, roundTripF, PixelUtil.packColor,
        PixelUtil.unpackColor, PackedPixel.asBytes, Except.map, Except.bind,
        List.getD_cons_succ, List.getD_cons_zero]
      exact quant_err (by norm_num) h0g h1g
    · exact fun h => absurd h (by decide)
    · exact fun h => absurd h (by decide)
  · -- PF_R8G8B8
    refine ⟨_, rfl, ?_, ?_, ?_, ?_⟩
    · intro _
      simp only [getDescriptionFor, roundTripF, PixelUtil.packColor,
          PixelUtil.unpackColor, PackedPixel.asBytes, Except.map, Except.bind]
      rw [show (255:ℕ) = (2 ^ 8 - 1) <<< 0 from by decide]
      exact nchan1 0 3 _ _ _ (by norm_num) h0r h1r
        (and_and_zero (by decide)) (and_and_zero (by decide))
        (and_and_zero (by decide)) (by norm_num) (by norm_num)
        (or4_lt (lt_of_le_of_lt Nat.and_le_right (by decide))
          (lt_of_le_of_lt Nat.and_le_right (by decide))
          (lt_of_le_of_lt Nat.and_le_right (by decide))
          (lt_of_le_of_lt Nat.and_le_right (by decide)))
    · intro _
      simp only [getDescriptionFor, roundTripF, PixelUtil.packColor,
          PixelUtil.unpackColor, PackedPixel.asBytes, Except.map, Except.bind]
      rw [show (65280:ℕ) = (2 ^ 8 - 1) <<< 8 from by decide]
      exact nchan2 8 3 _ _ _ (by norm_num) h0g h1g
        (and_and_zero (by decide)) (and_and_zero (by decide))
        (and_and_zero (by decide)) (by norm_num) (by norm_num)
        (or4_lt (lt_of_le_of_lt Nat.and_le_right (by decide))
          (lt_of_le_of_lt Nat.and_le_right (by decide))
          (lt_of_le_of_lt Nat.and_le_right (by decide))
          (lt_of_le_of_lt Nat.and_le_right (by decide)))
    · intro _
      simp only [getDescriptionFor, roundTripF, PixelUtil.packColor,
          PixelUtil.unpackColor, PackedPixel.asBytes, Except.map, Except.bind]
      rw [show (16711680:ℕ) = (2 ^ 8 - 1) <<< 16 from by decide]
      exact nchan3 16 3 _ _ _ (by norm_num) h0b h1b
        (and_and_zero (by decide)) (and_and_zero (by decide))
        (and_and_zero (by decide)) (by norm_num) (by norm_num)
        (or4_lt (lt_of_le_of_lt Nat.and_le_right (by decide))
          (lt_of_le_of_lt Nat.and_le_right (by decide))
          (lt_of_le_of_lt Nat.and_le_right (by decide))
          (lt_of_le_of_lt Nat.and_le_right (by decide)))
    · exact fun h => absurd h (by decide)
  · -- PF_B8G8R8
    refine ⟨_, rfl, ?_, ?_, ?_, ?_⟩
    · intro _
      simp only [getDescriptionFor, roundTripF, PixelUtil.packColor,
          PixelUtil.unpackColor, PackedPixel.asBytes, Except.map, Except.bind]
      rw [show (16711680:ℕ) = (2 ^ 8 - 1) <<< 16 from by decide]
      exact nchan1 16 3 _ _ _ (by norm_num) h0r h1r
        (and_and_zero (by decide)) (and_and_zero (by decide))
        (and_and_zero (by decide)) (by norm_num) (by norm_num)
        (or4_lt (lt_of_le_of_lt Nat.and_le_right (by decide))
          (lt_of_le_of_lt Nat.and_le_right (by decide))
          (lt_of_le_of_lt Nat.and_le_right (by decide))
          (lt_of_le_of_lt Nat.and_le_right (by decide)))
    · intro _
      simp only [getDescriptionFor, roundTripF, PixelUtil.packColor,
          PixelUtil.unpackColor, PackedPixel.asBytes, Except.map, Except.bind]
      rw [show (65280:ℕ) = (2 ^ 8 - 1) <<< 8 from by decide]
      exact nchan2 8 3 _ _ _ (by norm_num) h0g h1g
        (and_and_zero (by decide)) (and_and_zero (by decide))
        (and_and_zero (by decide)) (by norm_num) (by norm_num)
        (or4_lt (lt_of_le_of_lt Nat.and_le_right (by decide))
          (lt_of_le_of_lt Nat.and_le_right (by decide))
          (lt_of_le_of_lt Nat.and_le_right (by decide))
          (lt_of_le_of_lt Nat.and_le_right (by decide)))
    · intro _
      simp only [getDescriptionFor, roundTripF, PixelUtil.packColor,
          PixelUtil.unpackColor, PackedPixel.asBytes, Except.map, Except.bind]
      rw [show (255:ℕ) = (2 ^ 8 - 1) <<< 0 from by decide]
      exact nchan3 0 3 _ _ _ (by norm_num) h0b h1b
        (and_and_zero (by decide)) (and_and_zero (by decide))
        (and_and_zero (by decide)) (by norm_num) (by norm_num)
        (or4_lt (lt_of_le_of_lt Nat.and_le_right (by decide))
          (lt_of_le_of_lt Nat.and_le_right (by decide))
          (lt_of_le_of_lt Nat.and_le_right (by decide))
          (lt_of_le_of_lt Nat.and_le_right (by decide)))
    · exact fun h => absurd h (by decide)
  · -- PF_A8R8G8B8
    refine ⟨_, rfl, ?_, ?_, ?_, ?_⟩
    · intro _
      simp only [getDescriptionFor, roundTripF, PixelUtil.packColor,
          PixelUtil.unpackColor, PackedPixel.asBytes, Except.map, Except.bind]
      rw [show (65280:ℕ) = (2 ^ 8 - 1) <<< 8 from by decide]
      exact nchan1 8 4 _ _ _ (by norm_num) h0r h1r
        (and_and_zero (by decide)) (and_and_zero (by decide))
        (and_and_zero (by decide)) (by norm_num) (by norm_num)
        (or4_lt (lt_of_le_of_lt Nat.and_le_right (by decide))
          (lt_of_le_of_lt Nat.and_le_right (by decide))
          (lt_of_le_of_lt Nat.and_le_right (by decide))
          (lt_of_le_of_lt Nat.and_le_right (by decide)))
    · intro _
      simp only [getDescriptionFor, roundTripF, PixelUtil.packColor,
          PixelUtil.unpackColor, PackedPixel.asBytes, Except.map, Except.bind]
      rw [show (16711680:ℕ) = (2 ^ 8 - 1) <<< 16 from by decide]
      exact nchan2 16 4 _ _ _ (by norm_num) h0g h1g
        (and_and_zero (by decide)) (and_and_zero (by decide))
        (and_and_zero (by decide)) (by norm_num) (by norm_num)
        (or4_lt (lt_of_le_of_lt Nat.and_le_right (by decide))
          (lt_of_le_of_lt Nat.and_le_right (by decide))
          (lt_of_le_of_lt Nat.and_le_right (by decide))
          (lt_of_le_of_lt Nat.and_le_right (by decide)))
    · intro _
      simp only [getDescriptionFor, roundTripF, PixelUtil.packColor,
          PixelUtil.unpackColor, PackedPixel.asBytes, Except.map, Except.bind]
      rw [show (4278190080:ℕ) = (2 ^ 8 - 1) <<< 24 from by decide]
      exact nchan3 24 4 _ _ _ (by norm_num) h0b h1b
        (and_and_zero (by decide)) (and_and_zero (by decide))
        (and_and_zero (by decide)) (by norm_num) (by norm_num)
        (or4_lt (lt_of_le_of_lt Nat.and_le_right (by decide))
          (lt_of_le_of_lt Nat.and_le_right (by decide))
          (lt_of_le_of_lt Nat.and_le_right (by decide))
          (lt_of_le_of_lt Nat.and_le_right (by decide)))
    · intro _
      simp only [getDescriptionFor, roundTripF, PixelUtil.packColor,
          PixelUtil.unpackColor, PackedPixel.asBytes, Except.map, Except.bind]
      rw [show (255:ℕ) = (2 ^ 8 - 1) <<< 0 from by decide]
      exact nchan4 0 4 _ _ _ (by norm_num) h0a h1a
        (and_and_zero (by decide)) (and_and_zero (by decide))
        (and_and_zero (by decide)) (by norm_num) (by norm_num)
        (or4_lt (lt_of_le_of_lt Nat.and_le_right (by decide))
          (lt_of_le_of_lt Nat.and_le_right (by decide))
          (lt_of_le_of_lt Nat.and_le_right (by decide))
          (lt_of_le_of_lt Nat.and_le_right (by decide)))
  · -- PF_A8B8G8R8
    refine ⟨_, rfl, ?_, ?_, ?_, ?_⟩
    · intro _
      simp only [getDescriptionFor, roundTripF, PixelUtil.packColor,
          PixelUtil.unpackColor, PackedPixel.asBytes, Except.map, Except.bind]
      rw [show (4278190080:ℕ) = (2 ^ 8 - 1) <<< 24 from by decide]
      exact nchan1 24 4 _ _ _ (by norm_num) h0r h1r
        (and_and_zero (by decide)) (and_and_zero (by decide))
        (and_and_zero (by decide)) (by norm_num) (by norm_num)
        (or4_lt (lt_of_le_of_lt Nat.and_le_right (by decide))
          (lt_of_le_of_lt Nat.and_le_right (by decide))
          (lt_of_le_of_lt Nat.and_le_right (by decide))
          (lt_of_le_of_lt Nat.and_le_right (by decide)))
    · intro _
      simp only [getDescriptionFor, roundTripF, PixelUtil.packColor,
          PixelUtil.unpackColor, PackedPixel.asBytes, Except.map, Except.bind]
      rw [show (16711680:ℕ) = (2 ^ 8 - 1) <<< 16 from by decide]
      exact nchan2 16 4 _ _ _ (by norm_num) h0g h1g
        (and_and_zero (by decide)) (and_and_zero (by decide))
        (and_and_zero (by decide)) (by norm_num) (by norm_num)
        (or4_lt (lt_of_le_of_lt Nat.and_le_right (by decide))
          (lt_of_le_of_lt Nat.and_le_right (by decide))
          (lt_of_le_of_lt Nat.and_le_right (by decide))
          (lt_of_le_of_lt Nat.and_le_right (by decide)))
    · intro _
      simp only [getDescriptionFor, roundTripF, PixelUtil.packColor,
          PixelUtil.unpackColor, PackedPixel.asBytes, Except.map, Except.bind]
      rw [show (65280:ℕ) = (2 ^ 8 - 1) <<< 8 from by decide]
      exact nchan3 8 4 _ _ _ (by norm_num) h0b h1b
        (and_and_zero (by decide)) (and_and_zero (by decide))
        (and_and_zero (by decide)) (by norm_num) (by norm_num)
        (or4_lt (lt_of_le_of_lt Nat.and_le_right (by decide))
          (lt_of_le_of_lt Nat.and_le_right (by decide))
          (lt_of_le_of_lt Nat.and_le_right (by decide))
          (lt_of_le_of_lt Nat.and_le_right (by decide)))
    · intro _
      simp only [getDescriptionFor, roundTripF, PixelUtil.packColor,
          PixelUtil.unpackColor, PackedPixel.asBytes, Except.map, Except.bind]
      rw [show (255:ℕ) = (2 ^ 8 - 1) <<< 0 from by decide]
      exact nchan4 0 4 _ _ _ (by norm_num) h0a h1a
        (and_and_zero (by decide)) (and_and_zero (by decide))
        (and_and_zero (by decide)) (by norm_num) (by norm_num)
        (or4_lt (lt_of_le_of_lt Nat.and_le_right (by decide))
          (lt_of_le_of_lt Nat.and_le_right (by decide))
          (lt_of_le_of_lt Nat.and_le_right (by decide))
          (lt_of_le_of_lt Nat.and_le_right (by decide)))
  · -- PF_B8G8R8A8
    refine ⟨_, rfl, ?_, ?_, ?_, ?_⟩
    · intro _
      simp only [getDescriptionFor, roundTripF, PixelUtil.packColor,
          PixelUtil.unpackColor, PackedPixel.asBytes, Except.map, Except.bind]
      rw [show (16711680:ℕ) = (2 ^ 8 - 1) <<< 16 from by decide]
      exact nchan1 16 4 _ _ _ (by norm_num) h0r h1r
        (and_and_zero (by decide)) (and_and_zero (by decide))
        (and_and_zero (by decide)) (by norm_num) (by norm_num)
        (or4_lt (lt_of_le_of_lt Nat.and_le_right (by decide))
          (lt_of_le_of_lt Nat.and_le_right (by decide))
          (lt_of_le_of_lt Nat.and_le_right (by decide))
          (lt_of_le_of_lt Nat.and_le_right (by decide)))
    · intro _
      simp only [getDescriptionFor, roundTripF, PixelUtil.packColor,
          PixelUtil.unpackColor, PackedPixel.asBytes, Except.map, Except.bind]
      rw [show (65280:ℕ) = (2 ^ 8 - 1) <<< 8 from by decide]
      exact nchan2 8 4 _ _ _ (by norm_num) h0g h1g
        (and_and_zero (by decide)) (and_and_zero (by decide))
        (and_and_zero (by decide)) (by norm_num) (by norm_num)
        (or4_lt (lt_of_le_of_lt Nat.and_le_right (by decide))
          (lt_of_le_of_lt Nat.and_le_right (by decide))
          (lt_of_le_of_lt Nat.and_le_right (by decide))
          (lt_of_le_of_lt Nat.and_le_right (by decide)))
    · intro _
      simp only [getDescriptionFor, roundTripF, PixelUtil.packColor,
          PixelUtil.unpackColor, PackedPixel.asBytes, Except.map, Except.bind]
      rw [show (255:ℕ) = (2 ^ 8 - 1) <<< 0 from by decide]
      exact nchan3 0 4 _ _ _ (by norm_num) h0b h1b
        (and_and_zero (by decide)) (and_and_zero (by decide))
        (and_and_zero (by decide)) (by norm_num) (by norm_num)
        (or4_lt (lt_of_le_of_lt Nat.and_le_right (by decide))
          (lt_of_le_of_lt Nat.and_le_right (by decide))
          (lt_of_le_of_lt Nat.and_le_right (by decide))
          (lt_of_le_of_lt Nat.and_le_right (by decide)))
    · intro _
      simp only [getDescriptionFor, roundTripF, PixelUtil.packColor,
          PixelUtil.unpackColor, PackedPixel.asBytes, Except.map, Except.bind]
      rw [show (4278190080:ℕ) = (2 ^ 8 - 1) <<< 24 from by decide]
      exact nchan4 24 4 _ _ _ (by norm_num) h0a h1a
        (and_and_zero (by decide)) (and_and_zero (by decide))
        (and_and_zero (by decide)) (by norm_num) (by norm_num)
        (or4_lt (lt_of_le_of_lt Nat.and_le_right (by decide))
          (lt_of_le_of_lt Nat.and_le_right (by decide))
          (lt_of_le_of_lt Nat.and_le_right (by decide))
          (lt_of_le_of_lt Nat.and_le_right (by decide)))
  · -- PF_R8G8B8A8
    refine ⟨_, rfl, ?_, ?_, ?_, ?_⟩
    · intro _
      simp only [getDescriptionFor, roundTripF, PixelUtil.packColor,
          PixelUtil.unpackColor, PackedPixel.asBytes, Except.map, Except.bind]
      rw [show (255:ℕ) = (2 ^ 8 - 1) <<< 0 from by decide]
      exact nchan1 0 4 _ _ _ (by norm_num) h0r h1r
        (and_and_zero (by decide)) (and_and_zero (by decide))
        (and_and_zero (by decide)) (by norm_num) (by norm_num)
        (or4_lt (lt_of_le_of_lt Nat.and_le_right (by decide))
          (lt_of_le_of_lt Nat.and_le_right (by decide))
          (lt_of_le_of_lt Nat.and_le_right (by decide))
          (lt_of_le_of_lt Nat.and_le_right (by decide)))
    · intro _
      simp only [getDescriptionFor, roundTripF, PixelUtil.packColor,
          PixelUtil.unpackColor, PackedPixel.asBytes, Except.map, Except.bind]
      rw [show (65280:ℕ) = (2 ^ 8 - 1) <<< 8 from by decide]
      exact nchan2 8 4 _ _ _ (by norm_num) h0g h1g
        (and_and_zero (by decide)) (and_and_zero (by decide))
        (and_and_zero (by decide)) (by norm_num) (by norm_num)
        (or4_lt (lt_of_le_of_lt Nat.and_le_right (by decide))
          (lt_of_le_of_lt Nat.and_le_right (by decide))
          (lt_of_le_of_lt Nat.and_le_right (by decide))
          (lt_of_le_of_lt Nat.and_le_right (by decide)))
    · intro _
      simp only [getDescriptionFor, roundTripF, PixelUtil.packColor,
          PixelUtil.unpackColor, PackedPixel.asBytes, Except.map, Except.bind]
      rw [show (16711680:ℕ) = (2 ^ 8 - 1) <<< 16 from by decide]
      exact nchan3 16 4 _ _ _ (by norm_num) h0b h1b
        (and_and_zero (by decide)) (and_and_zero (by decide))
        (and_and_zero (by decide)) (by norm_num) (by norm_num)
        (or4_lt (lt_of_le_of_lt Nat.and_le_right (by decide))
          (lt_of_le_of_lt Nat.and_le_right (by decide))
          (lt_of_le_of_lt Nat.and_le_right (by decide))
          (lt_of_le_of_lt Nat.and_le_right (by decide)))
    · intro _
      simp only [getDescriptionFor, roundTripF, PixelUtil.packColor,
          PixelUtil.unpackColor, PackedPixel.asBytes, Except.map, Except.bind]
      rw [show (4278190080:ℕ) = (2 ^ 8 - 1) <<< 24 from by decide]
      exact nchan4 24 4 _ _ _ (by norm_num) h0a h1a
        (and_and_zero (by decide)) (and_and_zero (by decide))
        (and_and_zero (by decide)) (by norm_num) (by norm_num)
        (or4_lt (lt_of_le_of_lt Nat.and_le_right (by decide))
          (lt_of_le_of_lt Nat.and_le_right (by decide))
          (lt_of_le_of_lt Nat.and_le_right (by decide))
          (lt_of_le_of_lt Nat.and_le_right (by decide)))
  · -- PF_X8R8G8B8
    refine ⟨_, rfl, ?_, ?_, ?_, ?_⟩
    · intro _
      simp only [getDescriptionFor, roundTripF, PixelUtil.packColor,
          PixelUtil.unpackColor, PackedPixel.asBytes, Except.map, Except.bind]
      rw [show (65280:ℕ) = (2 ^ 8 - 1) <<< 8 from by decide]
      exact nchan1 8 4 _ _ _ (by norm_num) h0r h1r
        (and_and_zero (by decide)) (and_and_zero (by decide))
        (and_and_zero (by decide)) (by norm_num) (by norm_num)
        (or4_lt (lt_of_le_of_lt Nat.and_le_right (by decide))
          (lt_of_le_of_lt Nat.and_le_right (by decide))
          (lt_of_le_of_lt Nat.and_le_right (by decide))
          (lt_of_le_of_lt Nat.and_le_right (by decide)))
    · intro _
      simp only [getDescriptionFor, roundTripF, PixelUtil.packColor,
          PixelUtil.unpackColor, PackedPixel.asBytes, Except.map, Except.bind]
      rw [show (16711680:ℕ) = (2 ^ 8 - 1) <<< 16 from by decide]
      exact nchan2 16 4 _ _ _ (by norm_num) h0g h1g
        (and_and_zero (by decide)) (and_and_zero (by decide))
        (and_and_zero (by decide)) (by norm_num) (by norm_num)
        (or4_lt (lt_of_le_of_lt Nat.and_le_right (by decide))
          (lt_of_le_of_lt Nat.and_le_right (by decide))
          (lt_of_le_of_lt Nat.and_le_right (by decide))
          (lt_of_le_of_lt Nat.and_le_right (by decide)))
    · intro _
      simp only [getDescriptionFor, roundTripF, PixelUtil.packColor,
          PixelUtil.unpackColor, PackedPixel.asBytes, Except.map, Except.bind]
      rw [show (4278190080:ℕ) = (2 ^ 8 - 1) <<< 24 from by decide]
      exact nchan3 24 4 _ _ _ (by norm_num) h0b h1b
        (and_and_zero (by decide)) (and_and_zero (by decide))
        (and_and_zero (by decide)) (by norm_num) (by norm_num)
        (or4_lt (lt_of_le_of_lt Nat.and_le_right (by decide))
          (lt_of_le_of_lt Nat.and_le_right (by decide))
          (lt_of_le_of_lt Nat.and_le_right (by decide))
          (lt_of_le_of_lt Nat.and_le_right (by decide)))
    · exact fun h => absurd h (by decide)
  · -- PF_X8B8G8R8
    refine ⟨_, rfl, ?_, ?_, ?_, ?_⟩
    · intro _
      simp only [getDescriptionFor, roundTripF, PixelUtil.packColor,
          PixelUtil.unpackColor, PackedPixel.asBytes, Except.map, Except.bind]
      rw [show (4278190080:ℕ) = (2 ^ 8 - 1) <<< 24 from by decide]
      exact nchan1 24 4 _ _ _ (by norm_num) h0r h1r
        (and_and_zero (by decide)) (and_and_zero (by decide))
        (and_and_zero (by decide)) (by norm_num) (by norm_num)
        (or4_lt (lt_of_le_of_lt Nat.and_le_right (by decide))
          (lt_of_le_of_lt Nat.and_le_right (by decide))
          (lt_of_le_of_lt Nat.and_le_right (by decide))
          (lt_of_le_of_lt Nat.and_le_right (by decide)))
    · intro _
      simp only [getDescriptionFor, roundTripF, PixelUtil.packColor,
          PixelUtil.unpackColor, PackedPixel.asBytes, Except.map, Except.bind]
      rw [show (16711680:ℕ) = (2 ^ 8 - 1) <<< 16 from by decide]
      exact nchan2 16 4 _ _ _ (by norm_num) h0g h1g
        (and_and_zero (by decide)) (and_and_zero (by decide))
        (and_and_zero (by decide)) (by norm_num) (by norm_num)
        (or4_lt (lt_of_le_of_lt Nat.and_le_right (by decide))
          (lt_of_le_of_lt Nat.and_le_right (by decide))
          (lt_of_le_of_lt Nat.and_le_right (by decide))
          (lt_of_le_of_lt Nat.and_le_right (by decide)))
    · intro _
      simp only [getDescriptionFor, roundTripF, PixelUtil.packColor,
          PixelUtil.unpackColor, PackedPixel.asBytes, Except.map, Except.bind]
      rw [show (65280:ℕ) = (2 ^ 8 - 1) <<< 8 from by decide]
      exact nchan3 8 4 _ _ _ (by norm_num) h0b h1b
        (and_and_zero (by decide)) (and_and_zero (by decide))
        (and_and_zero (by decide)) (by norm_num) (by norm_num)
        (or4_lt (lt_of_le_of_lt Nat.and_le_right (by decide))
          (lt_of_le_of_lt Nat.and_le_right (by decide))
          (lt_of_le_of_lt Nat.and_le_right (by decide))
          (lt_of_le_of_lt Nat.and_le_right (by decide)))
    · exact fun h => absurd h (by decide)
  · -- PF_R8G8B8X8
    refine ⟨_, rfl, ?_, ?_, ?_, ?_⟩
    · intro _
      simp only [getDescriptionFor, roundTripF, PixelUtil.packColor,
          PixelUtil.unpackColor, PackedPixel.asBytes, Except.map, Except.bind]
      rw [show (255:ℕ) = (2 ^ 8 - 1) <<< 0 from by decide]
      exact nchan1 0 4 _ _ _ (by norm_num) h0r h1r
        (and_and_zero (by decide)) (and_and_zero (by decide))
        (and_and_zero (by decide)) (by norm_num) (by norm_num)
        (or4_lt (lt_of_le_of_lt Nat.and_le_right (by decide))
          (lt_of_le_of_lt Nat.and_le_right (by decide))
          (lt_of_le_of_lt Nat.and_le_right (by decide))
          (lt_of_le_of_lt Nat.and_le_right (by decide)))
    · intro _
      simp only [getDescriptionFor, roundTripF, PixelUtil.packColor,
          PixelUtil.unpackColor, PackedPixel.asBytes, Except.map, Except.bind]
      rw [show (65280:ℕ) = (2 ^ 8 - 1) <<< 8 from by decide]
      exact nchan2 8 4 _ _ _ (by norm_num) h0g h1g
        (and_and_zero (by decide)) (and_and_zero (by decide))
        (and_and_zero (by decide)) (by norm_num) (by norm_num)
        (or4_lt (lt_of_le_of_lt Nat.and_le_right (by decide))
          (lt_of_le_of_lt Nat.and_le_right (by decide))
          (lt_of_le_of_lt Nat.and_le_right (by decide))
          (lt_of_le_of_lt Nat.and_le_right (by decide)))
    · intro _
      simp only [getDescriptionFor, roundTripF, PixelUtil.packColor,
          PixelUtil.unpackColor, PackedPixel.asBytes, Except.map, Except.bind]
      rw [show (16711680:ℕ) = (2 ^ 8 - 1) <<< 16 from by decide]
      exact nchan3 16 4 _ _ _ (by norm_num) h0b h1b
        (and_and_zero (by decide)) (and_and_zero (by decide))
        (and_and_zero (by decide)) (by norm_num) (by norm_num)
        (or4_lt (lt_of_le_of_lt Nat.and_le_right (by decide))
          (lt_of_le_of_lt Nat.and_le_right (by decide))
          (lt_of_le_of_lt Nat.and_le_right (by decide))
          (lt_of_le_of_lt Nat.and_le_right (by decide)))
    · exact fun h => absurd h (by decide)
  · -- PF_B8G8R8X8
    refine ⟨_, rfl, ?_, ?_, ?_, ?_⟩
    · intro _
      simp only [getDescriptionFor, roundTripF, PixelUtil.packColor,
          PixelUtil.unpackColor, PackedPixel.asBytes, Except.map, Except.bind]
      rw [show (16711680:ℕ) = (2 ^ 8 - 1) <<< 16 from by decide]
      exact nchan1 16 4 _ _ _ (by norm_num) h0r h1r
        (and_and_zero (by decide)) (and_and_zero (by decide))
        (and_and_zero (by decide)) (by norm_num) (by norm_num)
        (or4_lt (lt_of_le_of_lt Nat.and_le_right (by decide))
          (lt_of_le_of_lt Nat.and_le_right (by decide))
          (lt_of_le_of_lt Nat.and_le_right (by decide))
          (lt_of_le_of_lt Nat.and_le_right (by decide)))
    · intro _
      simp only [getDescriptionFor, roundTripF, PixelUtil.packColor,
          PixelUtil.unpackColor, PackedPixel.asBytes, Except.map, Except.bind]
      rw [show (65280:ℕ) = (2 ^ 8 - 1) <<< 8 from by decide]
      exact nchan2 8 4 _ _ _ (by norm_num) h0g h1g
        (and_and_zero (by decide)) (and_and_zero (by decide))
        (and_and_zero (by decide)) (by norm_num) (by norm_num)
        (or4_lt (lt_of_le_of_lt Nat.and_le_right (by decide))
          (lt_of_le_of_lt Nat.and_le_right (by decide))
          (lt_of_le_of_lt Nat.and_le_right (by decide))
          (lt_of_le_of_lt Nat.and_le_right (by decide)))
    · intro _
      simp only [getDescriptionFor, roundTripF, PixelUtil.packColor,
          PixelUtil.unpackColor, PackedPixel.asBytes, Except.map, Except.bind]
      rw [show (255:ℕ) = (2 ^ 8 - 1) <<< 0 from by decide]
      exact nchan3 0 4 _ _ _ (by norm_num) h0b h1b
        (and_and_zero (by decide)) (and_and_zero (by decide))
        (and_and_zero (by decide)) (by norm_num) (by norm_num)
        (or4_lt (lt_of_le_of_lt Nat.and_le_right (by decide))
          (lt_of_le_of_lt Nat.and_le_right (by decide))
          (lt_of_le_of_lt Nat.and_le_right (by decide))
          (lt_of_le_of_lt Nat.and_le_right (by decide)))
    · exact fun h => absurd h (by decide)
  · -- PF_DXT1
    exact absurd hacc (by decide)
  · -- PF_DXT2
    exact absurd hacc (by decide)
  · -- PF_DXT3
    exact absurd hacc (by decide)
  · -- PF_DXT4
    exact absurd hacc (by decide)
  · -- PF_DXT5
    exact absurd hacc (by decide)
  · -- PF_FLOAT16_R
    exact absurd rfl h16a
  · -- PF_FLOAT16_RG
    exact absurd rfl h16b
  · -- PF_FLOAT16_RGB
    exact absurd rfl h16c
  · -- PF_FLOAT16_RGBA
    exact absurd rfl h16d
  · -- PF_FLOAT32_R
    refine ⟨_, rfl, ?_, ?_, ?_, ?_⟩
    · intro _
      simp only [getDescriptionFor, roundTripF, PixelUtil.packColor,
        PixelUtil.unpackColor, PackedPixel.asFloats, Except.map, Except.bind,
        List.getD_cons_succ, List.getD_cons_zero, sub_self, abs_zero]
      positivity
    · exact fun h => absurd h (by decide)
    · exact fun h => absurd h (by decide)
    · exact fun h => absurd h (by decide)
  · -- PF_FLOAT32_RG
    refine ⟨_, rfl, ?_, ?_, ?_, ?_⟩
    · intro _
      simp only [getDescriptionFor, roundTripF, PixelUtil.packColor,
        PixelUtil.unpackColor, PackedPixel.asFloats, Except.map, Except.bind,
        List.getD_cons_succ, List.getD_cons_zero, sub_self, abs_zero]
      positivity
    · intro _
      simp only [getDescriptionFor, roundTripF, PixelUtil.packColor,
        PixelUtil.unpackColor, PackedPixel.asFloats, Except.map, Except.bind,
        List.getD_cons_succ, List.getD_cons_zero, sub_self, abs_zero]
      positivity
    · exact fun h => absurd h (by decide)
    · exact fun h => absurd h (by decide)
  · -- PF_FLOAT32_RGB
    refine ⟨_, rfl, ?_, ?_, ?_, ?_⟩
    · intro _
      simp only [getDescriptionFor, roundTripF, PixelUtil.packColor,
        PixelUtil.unpackColor, PackedPixel.asFloats, Except.map, Except.bind,
        List.getD_cons_succ, List.getD_cons_zero, sub_self, abs_zero]
      positivity
    · intro _
      simp only [getDescriptionFor, roundTripF, PixelUtil.packColor,
        PixelUtil.unpackColor, PackedPixel.asFloats, Except.map, Except.bind,
        List.getD_cons_succ, List.getD_cons_zero, sub_self, abs_zero]
      positivity
    · intro _
      simp only [getDescriptionFor, roundTripF, PixelUtil.packColor,
        PixelUtil.unpackColor, PackedPixel.asFloats, Except.map, Except.bind,
        List.getD_cons_succ, List.getD_cons_zero, sub_self, abs_zero]
      positivity
    · exact fun h => absurd h (by decide)
  · -- PF_FLOAT32_RGBA
    refine ⟨_, rfl, ?_, ?_, ?_, ?_⟩
    · intro _
      simp only [getDescriptionFor, roundTripF, PixelUtil.packColor,
        PixelUtil.unpackColor, PackedPixel.asFloats, Except.map, Except.bind,
        List.getD_cons_succ, List.getD_cons_zero, sub_self, abs_zero]
      positivity
    · intro _
      simp only [getDescriptionFor, roundTripF, PixelUtil.packColor,
        PixelUtil.unpackColor, PackedPixel.asFloats, Except.map, Except.bind,
        List.getD_cons_succ, List.getD_cons_zero, sub_self, abs_zero]
      positivity
    · intro _
      simp only [getDescriptionFor, roundTripF, PixelUtil.packColor,
        PixelUtil.unpackColor, PackedPixel.asFloats, Except.map, Except.bind,
        List.getD_cons_succ, List.getD_cons_zero, sub_self, abs_zero]
      positivity
    · intro _
      simp only [getDescriptionFor, roundTripF, PixelUtil.packColor,
        PixelUtil.unpackColor, PackedPixel.asFloats, Except.map, Except.bind,
        List.getD_cons_succ, List.getD_cons_zero, sub_self, abs_zero]
      positivity
  · -- PF_D32_S8X24
    exact absurd hacc (by decide)
  · -- PF_D24_S8
    exact absurd hacc (by decide)
  · -- PF_D32
    exact absurd hacc (by decide)
  · -- PF_D16
    exact absurd hacc (by decide)

/-- Float-overload round trip bound for the half-float formats: each
stored channel is reproduced within the half precision `2^(-10)`, not
within `1/(2^16 - 1)`. -/
theorem halfRoundtripBound :
    ∀ f : PixelFormat,
      (f = PF_FLOAT16_R ∨ f = PF_FLOAT16_RG ∨ f = PF_FLOAT16_RGB ∨
        f = PF_FLOAT16_RGBA) →
      ∀ r g b a : ℚ, 0 ≤ r → r ≤ 1 → 0 ≤ g → g ≤ 1 → 0 ≤ b → b ≤ 1 →
        0 ≤ a → a ≤ 1 →
      ∃ c, roundTripF f r g b a = .ok c ∧
        channelsWithinHalf f r g b a c := by
  intro f hf r g b a h0r h1r h0g h1g h0b h1b h0a h1a
  rcases hf with rfl | rfl | rfl | rfl
  · -- PF_FLOAT16_R
    refine ⟨_, rfl, ?_, ?_, ?_, ?_⟩
    · intro _
      simp only [getDescriptionFor, roundTripF, PixelUtil.packColor,
        PixelUtil.unpackColor, PackedPixel.asFloats, Except.map, Except.bind,
        List.getD_cons_succ, List.getD_cons_zero]
      exact halfRound_err h0r h1r
    · exact fun h => absurd h (by decide)
    · exact fun h => absurd h (by decide)
    · exact fun h => absurd h (by decide)
  · -- PF_FLOAT16_RG
    refine ⟨_, rfl, ?_, ?_, ?_, ?_⟩
    · intro _
      simp only [getDescriptionFor, roundTripF, PixelUtil.packColor,
        PixelUtil.unpackColor, PackedPixel.asFloats, Except.map, Except.bind,
        List.getD_cons_succ, List.getD_cons_zero]
      exact halfRound_err h0r h1r
    · intro _
      simp only [getDescriptionFor, roundTripF, PixelUtil.packColor,
        PixelUtil.unpackColor, PackedPixel.asFloats, Except.map, Except.bind,
        List.getD_cons_succ, List.getD_cons_zero]
      exact halfRound_err h0g h1g
    · exact fun h => absurd h (by decide)
    · exact fun h => absurd h (by decide)
  · -- PF_FLOAT16_RGB
    refine ⟨_, rfl, ?_, ?_, ?_, ?_⟩
    · intro _
      simp only [getDescriptionFor, roundTripF, PixelUtil.packColor,
        PixelUtil.unpackColor, PackedPixel.asFloats, Except.map, Except.bind,
        List.getD_cons_succ, List.getD_cons_zero]
      exact halfRound_err h0r h1r
    · intro _
      simp only [getDescriptionFor, roundTripF, PixelUtil.packColor,
        PixelUtil.unpackColor, PackedPixel.asFloats, Except.map, Except.bind,
        List.getD_cons_succ, List.getD_cons_zero]
      exact halfRound_err h0g h1g
    · intro _
      simp only [getDescriptionFor, roundTripF, PixelUtil.packColor,
        PixelUtil.unpackColor, PackedPixel.asFloats, Except.map, Except.bind,
        List.getD_cons_succ, List.getD_cons_zero]
      exact halfRound_err h0b h1b
    · exact fun h => absurd h (by decide)
  · -- PF_FLOAT16_RGBA
    refine ⟨_, rfl, ?_, ?_, ?_, ?_⟩
    · intro _
      simp only [getDescriptionFor, roundTripF, PixelUtil.packColor,
        PixelUtil.unpackColor, PackedPixel.asFloats, Except.map, Except.bind,
        List.getD_cons_succ, List.getD_cons_zero]
      exact halfRound_err h0r h1r
    · intro _
      simp only [getDescriptionFor, roundTripF, PixelUtil.packColor,
        PixelUtil.unpackColor, PackedPixel.asFloats, Except.map, Except.bind,
        List.getD_cons_succ, List.getD_cons_zero]
      exact halfRound_err h0g h1g
    · intro _
      simp only [getDescriptionFor, roundTripF, PixelUtil.packColor,
        PixelUtil.unpackColor, PackedPixel.asFloats, Except.map, Except.bind,
        List.getD_cons_succ, List.getD_cons_zero]
      exact halfRound_err h0b h1b
    · intro _
      simp only [getDescriptionFor, roundTripF, PixelUtil.packColor,
        PixelUtil.unpackColor, PackedPixel.asFloats, Except.map, Except.bind,
        List.getD_cons_succ, List.getD_cons_zero]
      exact halfRound_err h0a h1a

/-- Byte-overload round trip is exact for the formats whose four
channels are each 8 bits wide. -/
theorem byteRoundtripExact :
    ∀ f : PixelFormat,
      (getDescriptionFor f).rbits = 8 → (getDescriptionFor f).gbits = 8 →
      (getDescriptionFor f).bbits = 8 → (getDescriptionFor f).abits = 8 →
      ∀ r g b a : Nat, r < 256 → g < 256 → b < 256 → a < 256 →
      roundTripB f r g b a = .ok (r, g, b, a) := by
  intro f h8r h8g h8b h8a r g b a hr hg hb ha
  cases f
  · -- PF_UNKNOWN
    exact absurd h8r (by decide)
  · -- PF_R8
    exact absurd h8g (by decide)
  · -- PF_R8G8
    exact absurd h8b (by decide)
  · -- PF_R8G8B8
    exact absurd h8a (by decide)
  · -- PF_B8G8R8
    exact absurd h8a (by decide)
  · -- PF_A8R8G8B8
    simp only [roundTripB, PixelUtil.packColorB, PixelUtil.unpackColorB,
      getDescriptionFor, PackedPixel.asBytes, Except.map, Except.bind,
      if_true, Except.ok.injEq, Prod.mk.injEq]
    refine ⟨?_, ?_, ?_, ?_⟩
    · rw [show (65280:ℕ) = (2 ^ 8 - 1) <<< 8 from by decide]
      exact bchan1 8 4 _ _ _ (by simpa using hr)
        (and_and_zero (by decide)) (and_and_zero (by decide))
        (and_and_zero (by decide)) (by norm_num) (by norm_num)
        (or4_lt (lt_of_le_of_lt Nat.and_le_right (by decide))
          (lt_of_le_of_lt Nat.and_le_right (by decide))
          (lt_of_le_of_lt Nat.and_le_right (by decide))
          (lt_of_le_of_lt Nat.and_le_right (by decide)))
    · rw [show (16711680:ℕ) = (2 ^ 8 - 1) <<< 16 from by decide]
      exact bchan2 16 4 _ _ _ (by simpa using hg)
        (and_and_zero (by decide)) (and_and_zero (by decide))
        (and_and_zero (by decide)) (by norm_num) (by norm_num)
        (or4_lt (lt_of_le_of_lt Nat.and_le_right (by decide))
          (lt_of_le_of_lt Nat.and_le_right (by decide))
          (lt_of_le_of_lt Nat.and_le_right (by decide))
          (lt_of_le_of_lt Nat.and_le_right (by decide)))
    · rw [show (4278190080:ℕ) = (2 ^ 8 - 1) <<< 24 from by decide]
      exact bchan3 24 4 _ _ _ (by simpa using hb)
        (and_and_zero (by decide)) (and_and_zero (by decide))
        (and_and_zero (by decide)) (by norm_num) (by norm_num)
        (or4_lt (lt_of_le_of_lt Nat.and_le_right (by decide))
          (lt_of_le_of_lt Nat.and_le_right (by decide))
          (lt_of_le_of_lt Nat.and_le_right (by decide))
          (lt_of_le_of_lt Nat.and_le_right (by decide)))
    · rw [show (255:ℕ) = (2 ^ 8 - 1) <<< 0 from by decide]
      exact bchan4 0 4 _ _ _ (by simpa using ha)
        (and_and_zero (by decide)) (and_and_zero (by decide))
        (and_and_zero (by decide)) (by norm_num) (by norm_num)
        (or4_lt (lt_of_le_of_lt Nat.and_le_right (by decide))
          (lt_of_le_of_lt Nat.and_le_right (by decide))
          (lt_of_le_of_lt Nat.and_le_right (by decide))
          (lt_of_le_of_lt Nat.and_le_right (by decide)))
  · -- PF_A8B8G8R8
    simp only [roundTripB, PixelUtil.packColorB, PixelUtil.unpackColorB,
      getDescriptionFor, PackedPixel.asBytes, Except.map, Except.bind,
      if_true, Except.ok.injEq, Prod.mk.injEq]
    refine ⟨?_, ?_, ?_, ?_⟩
    · rw [show (4278190080:ℕ) = (2 ^ 8 - 1) <<< 24 from by decide]
      exact bchan1 24 4 _ _ _ (by simpa using hr)
        (and_and_zero (by decide)) (and_and_zero (by decide))
        (and_and_zero (by decide)) (by norm_num) (by norm_num)
        (or4_lt (lt_of_le_of_lt Nat.and_le_right (by decide))
          (lt_of_le_of_lt Nat.and_le_right (by decide))
          (lt_of_le_of_lt Nat.and_le_right (by decide))
          (lt_of_le_of_lt Nat.and_le_right (by decide)))
    · rw [show (16711680:ℕ) = (2 ^ 8 - 1) <<< 16 from by decide]
      exact bchan2 16 4 _ _ _ (by simpa using hg)
        (and_and_zero (by decide)) (and_and_zero (by decide))
        (and_and_zero (by decide)) (by norm_num) (by norm_num)
        (or4_lt (lt_of_le_of_lt Nat.and_le_right (by decide))
          (lt_of_le_of_lt Nat.and_le_right (by decide))
          (lt_of_le_of_lt Nat.and_le_right (by decide))
          (lt_of_le_of_lt Nat.and_le_right (by decide)))
    · rw [show (65280:ℕ) = (2 ^ 8 - 1) <<< 8 from by decide]
      exact bchan3 8 4 _ _ _ (by simpa using hb)
        (and_and_zero (by decide)) (and_and_zero (by decide))
        (and_and_zero (by decide)) (by norm_num) (by norm_num)
        (or4_lt (lt_of_le_of_lt Nat.and_le_right (by decide))
          (lt_of_le_of_lt Nat.and_le_right (by decide))
          (lt_of_le_of_lt Nat.and_le_right (by decide))
          (lt_of_le_of_lt Nat.and_le_right (by decide)))
    · rw [show (255:ℕ) = (2 ^ 8 - 1) <<< 0 from by decide]
      exact bchan4 0 4 _ _ _ (by simpa using ha)
        (and_and_zero (by decide)) (and_and_zero (by decide))
        (and_and_zero (by decide)) (by norm_num) (by norm_num)
        (or4_lt (lt_of_le_of_lt Nat.and_le_right (by decide))
          (lt_of_le_of_lt Nat.and_le_right (by decide))
          (lt_of_le_of_lt Nat.and_le_right (by decide))
          (lt_of_le_of_lt Nat.and_le_right (by decide)))
  · -- PF_B8G8R8A8
    simp only [roundTripB, PixelUtil.packColorB, PixelUtil.unpackColorB,
      getDescriptionFor, PackedPixel.asBytes, Except.map, Except.bind,
      if_true, Except.ok.injEq, Prod.mk.injEq]
    refine ⟨?_, ?_, ?_, ?_⟩
    · rw [show (16711680:ℕ) = (2 ^ 8 - 1) <<< 16 from by decide]
      exact bchan1 16 4 _ _ _ (by simpa using hr)
        (and_and_zero (by decide)) (and_and_zero (by decide))
        (and_and_zero (by decide)) (by norm_num) (by norm_num)
        (or4_lt (lt_of_le_of_lt Nat.and_le_right (by decide))
          (lt_of_le_of_lt Nat.and_le_right (by decide))
          (lt_of_le_of_lt Nat.and_le_right (by decide))
          (lt_of_le_of_lt Nat.and_le_right (by decide)))
    · rw [show (65280:ℕ) = (2 ^ 8 - 1) <<< 8 from by decide]
      exact bchan2 8 4 _ _ _ (by simpa using hg)
        (and_and_zero (by decide)) (and_and_zero (by decide))
        (and_and_zero (by decide)) (by norm_num) (by norm_num)
        (or4_lt (lt_of_le_of_lt Nat.and_le_right (by decide))
          (lt_of_le_of_lt Nat.and_le_right (by decide))
          (lt_of_le_of_lt Nat.and_le_right (by decide))
          (lt_of_le_of_lt Nat.and_le_right (by decide)))
    · rw [show (255:ℕ) = (2 ^ 8 - 1) <<< 0 from by decide]
      exact bchan3 0 4 _ _ _ (by simpa using hb)
        (and_and_zero (by decide)) (and_and_zero (by decide))
        (and_and_zero (by decide)) (by norm_num) (by norm_num)
        (or4_lt (lt_of_le_of_lt Nat.and_le_right (by decide))
          (lt_of_le_of_lt Nat.and_le_right (by decide))
          (lt_of_le_of_lt Nat.and_le_right (by decide))
          (lt_of_le_of_lt Nat.and_le_right (by decide)))
    · rw [show (4278190080:ℕ) = (2 ^ 8 - 1) <<< 24 from by decide]
      exact bchan4 24 4 _ _ _ (by simpa using ha)
        (and_and_zero (by decide)) (and_and_zero (by decide))
        (and_and_zero (by decide)) (by norm_num) (by norm_num)
        (or4_lt (lt_of_le_of_lt Nat.and_le_right (by decide))
          (lt_of_le_of_lt Nat.and_le_right (by decide))
          (lt_of_le_of_lt Nat.and_le_right (by decide))
          (lt_of_le_of_lt Nat.and_le_right (by decide)))
  · -- PF_R8G8B8A8
    simp only [roundTripB, PixelUtil.packColorB, PixelUtil.unpackColorB,
      getDescriptionFor, PackedPixel.asBytes, Except.map, Except.bind,
      if_true, Except.ok.injEq, Prod.mk.injEq]
    refine ⟨?_, ?_, ?_, ?_⟩
    · rw [show (255:ℕ) = (2 ^ 8 - 1) <<< 0 from by decide]
      exact bchan1 0 4 _ _ _ (by simpa using hr)
        (and_and_zero (by decide)) (and_and_zero (by decide))
        (and_and_zero (by decide)) (by norm_num) (by norm_num)
        (or4_lt (lt_of_le_of_lt Nat.and_le_right (by decide))
          (lt_of_le_of_lt Nat.and_le_right (by decide))
          (lt_of_le_of_lt Nat.and_le_right (by decide))
          (lt_of_le_of_lt Nat.and_le_right (by decide)))
    · rw [show (65280:ℕ) = (2 ^ 8 - 1) <<< 8 from by decide]
      exact bchan2 8 4 _ _ _ (by simpa using hg)
        (and_and_zero (by decide)) (and_and_zero (by decide))
        (and_and_zero (by decide)) (by norm_num) (by norm_num)
        (or4_lt (lt_of_le_of_lt Nat.and_le_right (by decide))
          (lt_of_le_of_lt Nat.and_le_right (by decide))
          (lt_of_le_of_lt Nat.and_le_right (by decide))
          (lt_of_le_of_lt Nat.and_le_right (by decide)))
    · rw [show (16711680:ℕ) = (2 ^ 8 - 1) <<< 16 from by decide]
      exact bchan3 16 4 _ _ _ (by simpa using hb)
        (and_and_zero (by decide)) (and_and_zero (by decide))
        (and_and_zero (by decide)) (by norm_num) (by norm_num)
        (or4_lt (lt_of_le_of_lt Nat.and_le_right (by decide))
          (lt_of_le_of_lt Nat.and_le_right (by decide))
          (lt_of_le_of_lt Nat.and_le_right (by decide))
          (lt_of_le_of_lt Nat.and_le_right (by decide)))
    · rw [show (4278190080:ℕ) = (2 ^ 8 - 1) <<< 24 from by decide]
      exact bchan4 24 4 _ _ _ (by simpa using ha)
        (and_and_zero (by decide)) (and_and_zero (by decide))
        (and_and_zero (by decide)) (by norm_num) (by norm_num)
        (or4_lt (lt_of_le_of_lt Nat.and_le_right (by decide))
          (lt_of_le_of_lt Nat.and_le_right (by decide))
          (lt_of_le_of_lt Nat.and_le_right (by decide))
          (lt_of_le_of_lt Nat.and_le_right (by decide)))
  · -- PF_X8R8G8B8
    exact absurd h8a (by decide)
  · -- PF_X8B8G8R8
    exact absurd h8a (by decide)
  · -- PF_R8G8B8X8
    exact absurd h8a (by decide)
  · -- PF_B8G8R8X8
    exact absurd h8a (by decide)
  · -- PF_DXT1
    exact absurd h8r (by decide)
  · -- PF_DXT2
    exact absurd h8r (by decide)
  · -- PF_DXT3
    exact absurd h8r (by decide)
  · -- PF_DXT4
    exact absurd h8r (by decide)
  · -- PF_DXT5
    exact absurd h8r (by decide)
  · -- PF_FLOAT16_R
    exact absurd h8r (by decide)
  · -- PF_FLOAT16_RG
    exact absurd h8r (by decide)
  · -- PF_FLOAT16_RGB
    exact absurd h8r (by decide)
  · -- PF_FLOAT16_RGBA
    exact absurd h8r (by decide)
  · -- PF_FLOAT32_R
    exact absurd h8r (by decide)
  · -- PF_FLOAT32_RG
    exact absurd h8r (by decide)
  · -- PF_FLOAT32_RGB
    exact absurd h8r (by decide)
  · -- PF_FLOAT32_RGBA
    exact absurd h8r (by decide)
  · -- PF_D32_S8X24
    exact absurd h8r (by decide)
  · -- PF_D24_S8
    exact absurd h8r (by decide)
  · -- PF_D32
    exact absurd h8r (by decide)
  · -- PF_D16
    exact absurd h8r (by decide)

/-- C1 (amended): for every accessible format other than the half-float
family, the float-overload round trip reproduces each channel of
nonzero bit-width within the format's quantization error
`1/(2^bitwidth - 1)`; the half-float formats reproduce each stored
channel only within the half precision `2^(-10)`; and for every format
whose four channels are all 8 bits wide, the byte-overload round trip
is exact on all 256 representable values per channel. -/
theorem c1_amended :
    (∀ f : PixelFormat, PixelUtil.isAccessible f = true →
      f ≠ PF_FLOAT16_R → f ≠ PF_FLOAT16_RG → f ≠ PF_FLOAT16_RGB →
      f ≠ PF_FLOAT16_RGBA →
      ∀ r g b a : ℚ, 0 ≤ r → r ≤ 1 → 0 ≤ g → g ≤ 1 → 0 ≤ b → b ≤ 1 →
        0 ≤ a → a ≤ 1 →
      ∃ c, roundTripF f r g b a = .ok c ∧
        channelsWithinQuant f r g b a c) ∧
    (∀ f : PixelFormat,
      (f = PF_FLOAT16_R ∨ f = PF_FLOAT16_RG ∨ f = PF_FLOAT16_RGB ∨
        f = PF_FLOAT16_RGBA) →
      ∀ r g b a : ℚ, 0 ≤ r → r ≤ 1 → 0 ≤ g → g ≤ 1 → 0 ≤ b → b ≤ 1 →
        0 ≤ a → a ≤ 1 →
      ∃ c, roundTripF f r g b a = .ok c ∧
        channelsWithinHalf f r g b a c) ∧
    (∀ f : PixelFormat,
      (getDescriptionFor f).rbits = 8 → (getDescriptionFor f).gbits = 8 →
      (getDescriptionFor f).bbits = 8 → (getDescriptionFor f).abits = 8 →
      ∀ r g b a : Nat, r < 256 → g < 256 → b < 256 → a < 256 →
      roundTripB f r g b a = .ok (r, g, b, a)) :=
  ⟨floatRoundtripBound, halfRoundtripBound, byteRoundtripExact⟩

/-- Evaluation of the modelled half round trip at `1/2 + 2^(-12)`: the
half's 10-bit mantissa truncates the value back to `1/2`. -/
theorem halfRound_at : Bitwise.halfRound (2049/4096 : ℚ) = 1/2 := by
  have hb : (1:ℕ) < 2 := by norm_num
  have hr : (0:ℚ) < 2049/4096 := by norm_num
  have hlog : Int.log 2 (2049/4096 : ℚ) = -1 := by
    have h1 : (-1:ℤ) ≤ Int.log 2 (2049/4096 : ℚ) := by
      rw [← Int.zpow_le_iff_le_log hb hr]
      norm_num
    have h2 : ¬ ((0:ℤ) ≤ Int.log 2 (2049/4096 : ℚ)) := by
      rw [← Int.zpow_le_iff_le_log hb hr]
      norm_num
    omega
  unfold Bitwise.halfRound
  rw [if_neg (by norm_num)]
  simp only [hlog]
  rw [show max (-1 : ℤ) (-14) = -1 from by norm_num]
  have hz : ((2:ℚ)) ^ ((10:ℤ) - (-1)) = 2048 := by norm_num
  rw [hz]
  have hfl : ⌊(2049/4096 : ℚ) * 2048⌋ = 1024 := by
    rw [show (2049/4096 : ℚ) * 2048 = 2049/2 from by norm_num]
    rw [Int.floor_eq_iff] <;> norm_num
  rw [hfl]
  norm_num

/-- C1 counterexample: (a) `PF_FLOAT16_R` is accessible, but the round
trip of `1/2 + 2^(-12)` comes back as `1/2`, an error of `2^(-12)` that
exceeds the claimed bound `1/(2^16 - 1)`; (b) `PF_FLOAT32_R` is
accessible, but its round trip collapses green onto red (and the
claimed per-channel bound is vacuous nonsense at bit-width 0). -/
theorem c1_counterexample :
    (PixelUtil.isAccessible PF_FLOAT16_R = true ∧
      roundTripF PF_FLOAT16_R (2049/4096) 0 0 1 = .ok ⟨1/2, 1/2, 1/2, 1⟩ ∧
      0 < (getDescriptionFor PF_FLOAT16_R).rbits ∧
      ¬ (|(1/2 : ℚ) - 2049/4096| ≤
        1 / ((2:ℚ) ^ (getDescriptionFor PF_FLOAT16_R).rbits - 1))) ∧
    (PixelUtil.isAccessible PF_FLOAT32_R = true ∧
      roundTripF PF_FLOAT32_R (3/10) (7/10) 0 1 = .ok ⟨3/10, 3/10, 3/10, 1⟩ ∧
      ¬ (|(3/10 : ℚ) - 7/10| ≤
        1 / ((2:ℚ) ^ (getDescriptionFor PF_FLOAT32_R).gbits - 1))) := by
  refine ⟨⟨by decide, ?_, by decide, ?_⟩, ⟨by decide, ?_, ?_⟩⟩
  · simp only [roundTripF, PixelUtil.packColor, PixelUtil.unpackColor,
      PackedPixel.asFloats, Except.map, Except.bind, getDescriptionFor,
      Bool.false_eq_true, if_false, List.getD_cons_zero, halfRound_at]
  · simp only [getDescriptionFor]
    rw [show (1/2 : ℚ) - 2049/4096 = -(1/4096) from by norm_num, abs_neg,
      abs_of_nonneg (by norm_num : (0:ℚ) ≤ 1/4096)]
    norm_num
  · simp only [roundTripF, PixelUtil.packColor, PixelUtil.unpackColor,
      PackedPixel.asFloats, Except.map, Except.bind, getDescriptionFor,
      Bool.false_eq_true, if_false, List.getD_cons_zero]
  · simp only [getDescriptionFor]
    rw [show (3/10 : ℚ) - 7/10 = -(2/5) from by norm_num, abs_neg,
      abs_of_nonneg (by norm_num : (0:ℚ) ≤ 2/5)]
    norm_num

/-- C1 witness: the amended theorem applied at `PF_A8R8G8B8` with the
color `(1/2, 1/3, 1/4, 1/5)` and at `PF_R8G8B8A8` with the bytes
`(7, 20, 30, 40)`. -/
theorem c1_witness :
    (PixelUtil.isAccessible PF_A8R8G8B8 = true ∧
      ∃ c, roundTripF PF_A8R8G8B8 (1/2) (1/3) (1/4) (1/5) = .ok c ∧
        channelsWithinQuant PF_A8R8G8B8 (1/2) (1/3) (1/4) (1/5) c) ∧
    roundTripB PF_R8G8B8A8 7 20 30 40 = .ok (7, 20, 30, 40) :=
  ⟨⟨by decide, c1_amended.1 PF_A8R8G8B8 (by decide) (by decide) (by decide)
      (by decide) (by decide) (1/2) (1/3) (1/4) (1/5) (by norm_num)
      (by norm_num) (by norm_num) (by norm_num) (by norm_num) (by norm_num)
      (by norm_num) (by norm_num)⟩,
    c1_amended.2.2 PF_R8G8B8A8 rfl rfl rfl rfl 7 20 30 40 (by norm_num)
      (by norm_num) (by norm_num) (by norm_num)⟩

theorem floatToFixed_zero_val (b : Nat) : Bitwise.floatToFixed 0 b = 0 := by
  unfold Bitwise.floatToFixed
  rw [if_pos le_rfl]

theorem floatToFixed_one (b : Nat) :
    Bitwise.floatToFixed 1 b = (1 <<< b) - 1 := by
  unfold Bitwise.floatToFixed
  rw [if_neg (by norm_num), if_pos le_rfl]

/-- Exactness of the fixed-point value round trip through float: for a
stored code `v < 2^b`, `floatToFixed (fixedToFloat v b) b = v`. -/
theorem floatToFixed_fixedToFloat {v b : Nat} (hb : 0 < b) (hv : v < 2 ^ b) :
    Bitwise.floatToFixed (Bitwise.fixedToFloat v b) b = v := by
  have hcast : (((1 <<< b) - 1 : Nat) : ℚ) = (2:ℚ) ^ b - 1 := by
    have h1b : (1:ℕ) ≤ 2 ^ b := Nat.one_le_two_pow
    rw [Nat.shiftLeft_eq, Nat.one_mul, Nat.cast_sub h1b]
    push_cast
    ring
  have hM : (1:ℚ) ≤ (2:ℚ) ^ b - 1 := by
    have h2 : (2:ℚ) ^ 1 ≤ (2:ℚ) ^ b := pow_le_pow_right₀ (by norm_num) hb
    rw [pow_one] at h2; linarith
  have hMpos : (0:ℚ) < (2:ℚ) ^ b - 1 := by linarith
  unfold Bitwise.floatToFixed Bitwise.fixedToFloat
  rw [hcast]
  split
  · rename_i hle
    have hv0 : ((v:ℚ)) ≤ 0 := by
      rcases div_nonpos_iff.1 hle with ⟨h1, h2⟩ | ⟨h1, h2⟩
      · linarith
      · exact h1
    have : v = 0 := by exact_mod_cast le_antisymm hv0 (by positivity)
    omega
  · split
    · rename_i hle hge
      have hvM : (2:ℚ) ^ b - 1 ≤ ((v:ℚ)) := (one_le_div hMpos).1 hge
      have hcast2 : ((2 ^ b - 1 : Nat) : ℚ) = (2:ℚ) ^ b - 1 := by
        rw [Nat.cast_sub Nat.one_le_two_pow]
        push_cast
        ring
      have hvnat : 2 ^ b - 1 ≤ v := by
        rw [← hcast2] at hvM
        exact_mod_cast hvM
      simp only [Nat.shiftLeft_eq, Nat.one_mul]
      omega
    · rename_i hle hge
      have hv0 : (0:ℚ) < (v:ℚ) / ((2:ℚ) ^ b - 1) := lt_of_not_le hle
      have hv1 : (v:ℚ) / ((2:ℚ) ^ b - 1) < 1 := lt_of_not_le hge
      have hNcast : ((1 <<< b : Nat) : ℚ) = (2:ℚ) ^ b := by
        push_cast [Nat.shiftLeft_eq]; ring
      rw [hNcast]
      have hexp : (v:ℚ) / ((2:ℚ) ^ b - 1) * (2:ℚ) ^ b =
          (v:ℚ) + (v:ℚ) / ((2:ℚ) ^ b - 1) := by
        field_simp
        ring
      rw [hexp]
      have hfr0 : (0:ℚ) ≤ (v:ℚ) / ((2:ℚ) ^ b - 1) := le_of_lt hv0
      have hfl : ⌊(v:ℚ) + (v:ℚ) / ((2:ℚ) ^ b - 1)⌋ = (v:ℤ) := by
        rw [Int.floor_eq_iff]
        constructor
        · push_cast; linarith
        · push_cast; linarith [hv1]
      rw [hfl]
      simp

/-- Compressed formats always have a well-defined memory size (they are
exactly the five DXT formats). -/
theorem getMemorySize_compressed_ok (w h d : Nat) {f : PixelFormat}
    (hf : PixelUtil.isCompressed f = true) :
    ∃ n, PixelUtil.getMemorySize w h d f = .ok n := by
  cases f <;> first
    | exact absurd hf (by decide)
    | exact ⟨_, rfl⟩

/-- C6: when either side of a bulk conversion is compressed and the
extents agree, an identical format yields exactly one contiguous
`memcpy` of the whole consecutive extent into the destination, and a
differing format raises "can not be used to compress or decompress"
before any write, the destination memory unchanged. -/
theorem c6_compressed :
    ∀ src dst : PixelData,
      src.getWidth = dst.getWidth → src.getHeight = dst.getHeight →
      src.getDepth = dst.getDepth →
      (PixelUtil.isCompressed src.format = true ∨
        PixelUtil.isCompressed dst.format = true) →
      (src.format = dst.format →
        ∃ n, src.getConsecutiveSize = .ok n ∧
          PixelUtil.bulkPixelConversion src dst =
            (.ok (), memcpy dst.mem src.mem n)) ∧
      (src.format ≠ dst.format →
        PixelUtil.bulkPixelConversion src dst =
          (.error
            "This method can not be used to compress or decompress images",
            dst.mem)) := by
  intro src dst hw hh hd hc
  unfold PixelUtil.bulkPixelConversion
  rw [if_neg (not_not_intro ⟨hw, hh, hd⟩)]
  rw [if_pos (by rcases hc with h | h <;> simp [h])]
  constructor
  · intro he
    have hcs : PixelUtil.isCompressed src.format = true := by
      rcases hc with h | h
      · exact h
      · rw [he]; exact h
    obtain ⟨n, hn⟩ := getMemorySize_compressed_ok src.getWidth src.getHeight
      src.getDepth hcs
    refine ⟨n, hn, ?_⟩
    rw [if_pos he]
    simp only [PixelData.getConsecutiveSize] at hn ⊢
    rw [hn]
  · intro hne
    rw [if_neg hne]

/-- C6 witness: a 4×4 DXT1-to-DXT1 conversion is one 8-byte memcpy; a
4×4 DXT1-to-DXT3 conversion raises the not-implemented error with the
destination bytes untouched. -/
theorem c6_witness :
    (∃ n, (⟨0, 0, 0, 4, 4, 1, 4, 16, PF_DXT1, [1, 2, 3, 4, 5, 6, 7, 8]⟩ :
        PixelData).getConsecutiveSize = .ok n ∧
      PixelUtil.bulkPixelConversion
        ⟨0, 0, 0, 4, 4, 1, 4, 16, PF_DXT1, [1, 2, 3, 4, 5, 6, 7, 8]⟩
        ⟨0, 0, 0, 4, 4, 1, 4, 16, PF_DXT1, [0, 0, 0, 0, 0, 0, 0, 0]⟩ =
        (.ok (), memcpy [0, 0, 0, 0, 0, 0, 0, 0] [1, 2, 3, 4, 5, 6, 7, 8] n)) ∧
    PixelUtil.bulkPixelConversion
      ⟨0, 0, 0, 4, 4, 1, 4, 16, PF_DXT1, [1, 2, 3, 4, 5, 6, 7, 8]⟩
      ⟨0, 0, 0, 4, 4, 1, 4, 16, PF_DXT3, [0, 0, 0, 0, 0, 0, 0, 0]⟩ =
      (.error "This method can not be used to compress or decompress images",
        [0, 0, 0, 0, 0, 0, 0, 0]) :=
  ⟨(c6_compressed ⟨0, 0, 0, 4, 4, 1, 4, 16, PF_DXT1, [1, 2, 3, 4, 5, 6, 7, 8]⟩
      ⟨0, 0, 0, 4, 4, 1, 4, 16, PF_DXT1, [0, 0, 0, 0, 0, 0, 0, 0]⟩
      rfl rfl rfl (Or.inl rfl)).1 rfl,
   (c6_compressed ⟨0, 0, 0, 4, 4, 1, 4, 16, PF_DXT1, [1, 2, 3, 4, 5, 6, 7, 8]⟩
      ⟨0, 0, 0, 4, 4, 1, 4, 16, PF_DXT3, [0, 0, 0, 0, 0, 0, 0, 0]⟩
      rfl rfl rfl (Or.inl rfl)).2 (by decide)⟩

/-- C2 evaluation at the failing input: converting a 1×1×1 `PF_R8`
pixel `[7]` into a `PF_X8R8G8B8` destination leaves the destination
bytes `[0,0,0,0]` untouched (the delegation branch builds its temporary
without attaching the destination's memory), whereas the same
conversion into the same memory re-described under `PF_A8R8G8B8` — what
the claim says the shortcut is equivalent to — writes `[255,7,0,0]`. -/
theorem c2_bug_eval :
    PixelUtil.bulkPixelConversion ⟨0, 0, 0, 1, 1, 1, 1, 1, PF_R8, [7]⟩
      ⟨0, 0, 0, 1, 1, 1, 1, 1, PF_X8R8G8B8, [0, 0, 0, 0]⟩ =
      (.ok (), [0, 0, 0, 0]) ∧
    PixelUtil.bulkPixelConversion ⟨0, 0, 0, 1, 1, 1, 1, 1, PF_R8, [7]⟩
      ⟨0, 0, 0, 1, 1, 1, 1, 1, PF_A8R8G8B8, [0, 0, 0, 0]⟩ =
      (.ok (), [255, 7, 0, 0]) ∧
    ([0, 0, 0, 0] : List Nat) ≠ [255, 7, 0, 0] := by
  refine ⟨?_, ?_, by decide⟩ <;>
    simp [PixelUtil.bulkPixelConversion, PixelUtil.bulkCore,
      PixelUtil.bulkGeneral, convertSlices, convertRows, convertRowPixels,
      PixelUtil.packColor, PixelUtil.unpackColor, PackedPixel.asBytes,
      getDescriptionFor, PixelData.getWidth, PixelData.getHeight,
      PixelData.getDepth, PixelData.getRowSkip, PixelData.getSliceSkip,
      PixelData.mk4, PixelData.setExternalBuffer, PixelData.isConsecutive,
      PixelData.getConsecutiveSize, PixelUtil.getMemorySize,
      PixelUtil.getNumElemBytes, writeBytes, memcpy, Bitwise.intRead,
      Bitwise.intWrite, floatToFixed_fixedToFloat, floatToFixed_zero_val,
      floatToFixed_one, PixelUtil.isCompressed, PixelUtil.hasAlpha,
      PFF_NONE, Except.map] <;>
    decide

theorem clipScale1_pos (r : ℚ) : 0 < clipScale1 r := by
  unfold clipScale1
  split
  · rename_i h
    exact div_pos (by norm_num) (lt_trans (by norm_num) h.1)
  · norm_num

theorem clipScale1_le_one (r : ℚ) : clipScale1 r ≤ 1 := by
  unfold clipScale1
  split
  · rename_i h; exact le_of_lt h.2
  · exact le_refl 1

theorem clipScale2_pos (r g : ℚ) : 0 < clipScale2 r g := by
  unfold clipScale2
  split
  · rename_i h
    exact div_pos (by norm_num) (lt_trans (by norm_num) h.1)
  · exact clipScale1_pos r

theorem clipScale2_le (r g : ℚ) : clipScale2 r g ≤ clipScale1 r := by
  unfold clipScale2
  split
  · rename_i h; exact le_of_lt h.2
  · exact le_refl _

theorem clipScale3_pos (r g b : ℚ) : 0 < clipScale3 r g b := by
  unfold clipScale3
  split
  · rename_i h
    exact div_pos (by norm_num) (lt_trans (by norm_num) h.1)
  · exact clipScale2_pos r g

theorem clipScale3_le (r g b : ℚ) : clipScale3 r g b ≤ clipScale2 r g := by
  unfold clipScale3
  split
  · rename_i h; exact le_of_lt h.2
  · exact le_refl _

theorem clipScale3_le_one (r g b : ℚ) : clipScale3 r g b ≤ 1 :=
  le_trans (clipScale3_le r g b) (le_trans (clipScale2_le r g)
    (clipScale1_le_one r))

/-- The scaled red value never exceeds 255. -/
theorem clip_r_le (r g b : ℚ) : r * clipScale3 r g b ≤ 255 := by
  by_cases h : 255 < r
  · have hr0 : 0 < r := lt_trans (by norm_num) h
    have h1 : clipScale1 r = 255 / r := by
      unfold clipScale1
      rw [if_pos ⟨h, (div_lt_one hr0).2 h⟩]
    have hle : clipScale3 r g b ≤ 255 / r :=
      le_trans (clipScale3_le r g b) (le_trans (clipScale2_le r g)
        (le_of_eq h1))
    calc r * clipScale3 r g b ≤ r * (255 / r) :=
          mul_le_mul_of_nonneg_left hle (le_of_lt hr0)
      _ = 255 := by field_simp
  · push_neg at h
    by_cases h0 : r ≤ 0
    · have := mul_nonpos_of_nonpos_of_nonneg h0
        (le_of_lt (clipScale3_pos r g b))
      linarith
    · push_neg at h0
      nlinarith [clipScale3_le_one r g b, clipScale3_pos r g b]

/-- The scaled green value never exceeds 255. -/
theorem clip_g_le (r g b : ℚ) : g * clipScale3 r g b ≤ 255 := by
  by_cases h : 255 < g
  · have hg0 : 0 < g := lt_trans (by norm_num) h
    have hle : clipScale3 r g b ≤ 255 / g := by
      by_cases hc : 255 / g < clipScale1 r
      · have h2 : clipScale2 r g = 255 / g := by
          unfold clipScale2
          rw [if_pos ⟨h, hc⟩]
        exact le_trans (clipScale3_le r g b) (le_of_eq h2)
      · push_neg at hc
        have h2 : clipScale2 r g ≤ clipScale1 r := clipScale2_le r g
        exact le_trans (clipScale3_le r g b) (le_trans h2 hc)
    calc g * clipScale3 r g b ≤ g * (255 / g) :=
          mul_le_mul_of_nonneg_left hle (le_of_lt hg0)
      _ = 255 := by field_simp
  · push_neg at h
    by_cases h0 : g ≤ 0
    · have := mul_nonpos_of_nonpos_of_nonneg h0
        (le_of_lt (clipScale3_pos r g b))
      linarith
    · push_neg at h0
      nlinarith [clipScale3_le_one r g b, clipScale3_pos r g b]

/-- The scaled blue value never exceeds 255. -/
theorem clip_b_le (r g b : ℚ) : b * clipScale3 r g b ≤ 255 := by
  by_cases h : 255 < b
  · have hb0 : 0 < b := lt_trans (by norm_num) h
    have hle : clipScale3 r g b ≤ 255 / b := by
      by_cases hc : 255 / b < clipScale2 r g
      · have h3 : clipScale3 r g b = 255 / b := by
          unfold clipScale3
          rw [if_pos ⟨h, hc⟩]
        exact le_of_eq h3
      · push_neg at hc
        exact le_trans (clipScale3_le r g b) hc
    calc b * clipScale3 r g b ≤ b * (255 / b) :=
          mul_le_mul_of_nonneg_left hle (le_of_lt hb0)
      _ = 255 := by field_simp
  · push_neg at h
    by_cases h0 : b ≤ 0
    · have := mul_nonpos_of_nonpos_of_nonneg h0
        (le_of_lt (clipScale3_pos r g b))
      linarith
    · push_neg at h0
      nlinarith [clipScale3_le_one r g b, clipScale3_pos r g b]

theorem toByte_le {q : ℚ} (h : q ≤ 255) : toByte q ≤ 255 := by
  unfold toByte
  have h1 : ⌊q⌋ ≤ (255:ℤ) := by
    have h2 := Int.floor_le_floor h
    simpa using h2
  omega

theorem gammaGroup_le (gamma : ℚ) (b0 b1 b2 : Nat) :
    (gammaGroup gamma b0 b1 b2).1 ≤ 255 ∧
      (gammaGroup gamma b0 b1 b2).2.1 ≤ 255 ∧
      (gammaGroup gamma b0 b1 b2).2.2 ≤ 255 := by
  simp only [gammaGroup]
  exact ⟨toByte_le (clip_r_le _ _ _), toByte_le (clip_g_le _ _ _),
    toByte_le (clip_b_le _ _ _)⟩

theorem gammaPrefix_length (gamma : ℚ) (stride : Nat) (buf : List Nat)
    (h3 : 3 ≤ stride) (hsb : stride ≤ buf.length) :
    (gammaPrefix gamma stride buf).length = stride := by
  simp only [gammaPrefix, List.length_append, List.length_cons,
    List.length_nil, List.length_drop, List.length_take]
  omega

/-- Within one group, the bytes at offsets 3 and beyond are the source
bytes. -/
theorem gammaPrefix_getD (gamma : ℚ) (stride : Nat) (buf : List Nat)
    (i : Nat) (h3 : 3 ≤ i) (hi : i < stride) :
    (gammaPrefix gamma stride buf).getD i 0 = buf.getD i 0 := by
  simp only [gammaPrefix, List.getD_eq_getElem?_getD]
  rw [List.getElem?_append_right (by simpa using h3), List.getElem?_drop]
  simp only [List.length_cons, List.length_nil]
  rw [show 3 + (i - (0 + 1 + 1 + 1)) = i from by omega, List.getElem?_take,
    if_pos hi]

/-- The tail of the buffer beyond the processed groups is unchanged by
the gamma loop. -/
theorem applyGammaLoop_drop (gamma : ℚ) (stride : Nat) (h3 : 3 ≤ stride) :
    ∀ (j : Nat) (buf : List Nat), j * stride ≤ buf.length →
      (applyGammaLoop gamma stride j buf).drop (j * stride) =
        buf.drop (j * stride) := by
  intro j
  induction j with
  | zero => intro buf _; rfl
  | succ j ih =>
      intro buf hlen
      have hlen' : j * stride + stride ≤ buf.length := by
        rw [Nat.succ_mul] at hlen; exact hlen
      have hsb : stride ≤ buf.length := by omega
      have hp : (gammaPrefix gamma stride buf).length = stride :=
        gammaPrefix_length gamma stride buf h3 hsb
      have hidx : (j + 1) * stride = stride + j * stride := by ring
      simp only [applyGammaLoop]
      rw [hidx]
      calc (gammaPrefix gamma stride buf ++
              applyGammaLoop gamma stride j (buf.drop stride)).drop
            (stride + j * stride)
          = (gammaPrefix gamma stride buf ++
              applyGammaLoop gamma stride j (buf.drop stride)).drop
              ((gammaPrefix gamma stride buf).length + j * stride) := by
            rw [hp]
        _ = (applyGammaLoop gamma stride j (buf.drop stride)).drop
              (j * stride) := List.drop_append _
        _ = (buf.drop stride).drop (j * stride) :=
            ih (buf.drop stride) (by rw [List.length_drop]; omega)
        _ = buf.drop (stride + j * stride) := by rw [List.drop_drop]

/-- Within each processed group, the bytes at offsets 3 and beyond are
unchanged by the gamma loop. -/
theorem applyGammaLoop_getD (gamma : ℚ) (stride : Nat) (h3 : 3 ≤ stride) :
    ∀ (j : Nat) (buf : List Nat), j * stride ≤ buf.length →
      ∀ k i, k < j → 3 ≤ i → i < stride →
        (applyGammaLoop gamma stride j buf).getD (k * stride + i) 0 =
          buf.getD (k * stride + i) 0 := by
  intro j
  induction j with
  | zero => intro buf _ k i hk _ _; exact absurd hk (Nat.not_lt_zero k)
  | succ j ih =>
      intro buf hlen k i hk hi3 his
      have hlen' : j * stride + stride ≤ buf.length := by
        rw [Nat.succ_mul] at hlen; exact hlen
      have hsb : stride ≤ buf.length := by omega
      have hp : (gammaPrefix gamma stride buf).length = stride :=
        gammaPrefix_length gamma stride buf h3 hsb
      simp only [applyGammaLoop]
      cases k with
      | zero =>
          simp only [Nat.zero_mul, Nat.zero_add]
          rw [List.getD_eq_getElem?_getD, List.getElem?_append,
            if_pos (by rw [hp]; exact his), ← List.getD_eq_getElem?_getD]
          exact gammaPrefix_getD gamma stride buf i hi3 his
      | succ k =>
          have hidx : (k + 1) * stride + i = stride + (k * stride + i) := by
            ring
          rw [hidx, List.getD_eq_getElem?_getD,
            List.getElem?_append_right
              (le_trans (le_of_eq hp) (Nat.le_add_right _ _)), hp,
            show stride + (k * stride + i) - stride = k * stride + i from by
              omega,
            ← List.getD_eq_getElem?_getD,
            ih (buf.drop stride) (by rw [List.length_drop]; omega) k i
              (by omega) hi3 his,
            List.getD_eq_getElem?_getD, List.getElem?_drop,
            ← List.getD_eq_getElem?_getD]

/-- Every byte the gamma loop outputs is an original buffer byte or is
at most 255. -/
theorem applyGammaLoop_mem (gamma : ℚ) (stride : Nat) :
    ∀ (j : Nat) (buf : List Nat) (x : Nat),
      x ∈ applyGammaLoop gamma stride j buf → x ∈ buf ∨ x ≤ 255 := by
  intro j
  induction j with
  | zero => intro buf x hx; exact Or.inl hx
  | succ j ih =>
      intro buf x hx
      simp only [applyGammaLoop, gammaPrefix, List.mem_append,
        List.mem_cons, List.not_mem_nil, or_false] at hx
      rcases hx with ((h1 | h2 | h3x) | hm) | hr
      · exact Or.inr (h1 ▸ (gammaGroup_le gamma _ _ _).1)
      · exact Or.inr (h2 ▸ (gammaGroup_le gamma _ _ _).2.1)
      · exact Or.inr (h3x ▸ (gammaGroup_le gamma _ _ _).2.2)
      · exact Or.inl (List.mem_of_mem_take (List.mem_of_mem_drop hm))
      · rcases ih (buf.drop stride) x hr with h | h
        · exact Or.inl (List.mem_of_mem_drop h)
        · exact Or.inr h

/-- C10: `applyGamma` with gamma 1 returns the buffer unchanged; for any
gamma, with stride `bpp >>> 3` at least 3 and the `size / stride`
processed groups fitting in the buffer, the bytes past the processed
groups and every in-group byte at offset 3 or beyond (e.g. the alpha
byte of a 4-byte pixel) are unchanged; and every output byte is either
an original buffer byte or at most 255 (the shared clip scale caps R, G
and B together). -/
theorem c10 :
    (∀ (buffer : List Nat) (size bpp : Nat),
      PixelUtil.applyGamma buffer 1 size bpp = buffer) ∧
    (∀ (buffer : List Nat) (gamma : ℚ) (size bpp : Nat),
      3 ≤ bpp >>> 3 → size / (bpp >>> 3) * (bpp >>> 3) ≤ buffer.length →
      ((PixelUtil.applyGamma buffer gamma size bpp).drop
          (size / (bpp >>> 3) * (bpp >>> 3)) =
        buffer.drop (size / (bpp >>> 3) * (bpp >>> 3)) ∧
       ∀ k i, k < size / (bpp >>> 3) → 3 ≤ i → i < bpp >>> 3 →
         (PixelUtil.applyGamma buffer gamma size bpp).getD
             (k * (bpp >>> 3) + i) 0 =
           buffer.getD (k * (bpp >>> 3) + i) 0)) ∧
    (∀ (buffer : List Nat) (gamma : ℚ) (size bpp : Nat) (x : Nat),
      x ∈ PixelUtil.applyGamma buffer gamma size bpp →
        x ∈ buffer ∨ x ≤ 255) := by
  refine ⟨?_, ?_, ?_⟩
  · intro buffer size bpp
    simp [PixelUtil.applyGamma]
  · intro buffer gamma size bpp h3 hlen
    by_cases hg : gamma = 1
    · simp only [PixelUtil.applyGamma, if_pos hg]
      exact ⟨trivial, fun _ _ _ _ _ => trivial⟩
    · simp only [PixelUtil.applyGamma, if_neg hg]
      exact ⟨applyGammaLoop_drop gamma _ h3 _ buffer hlen,
        fun k i hk hi3 his =>
          applyGammaLoop_getD gamma _ h3 _ buffer hlen k i hk hi3 his⟩
  · intro buffer gamma size bpp x hx
    by_cases hg : gamma = 1
    · rw [PixelUtil.applyGamma, if_pos hg] at hx
      exact Or.inl hx
    · rw [PixelUtil.applyGamma, if_neg hg] at hx
      exact applyGammaLoop_mem gamma _ _ buffer x hx

theorem fpStep_eq (srcE dstE : Nat) (h2 : srcE < 2 ^ 16) :
    fpStep srcE dstE = srcE * 2 ^ 48 / dstE := by
  unfold fpStep
  rw [Nat.shiftLeft_eq, Nat.mod_eq_of_lt]
  calc srcE * 2 ^ 48 < 2 ^ 16 * 2 ^ 48 :=
      (Nat.mul_lt_mul_right (by norm_num : (0:Nat) < 2 ^ 48)).2 h2
    _ = 2 ^ 64 := by norm_num

/-- When the extents fit the 16/48 format, the traversal position stays
strictly below `srcExtent << 48` for every destination pixel. -/
theorem fpCur_lt (srcE dstE i : Nat) (h1 : 1 ≤ srcE) (h2 : srcE < 2 ^ 16)
    (h3 : 1 ≤ dstE) (h4 : dstE < 2 ^ 32) (hi : i < dstE) :
    fpCur (fpStep srcE dstE) i < srcE * 2 ^ 48 := by
  have hlt64 : srcE * 2 ^ 48 < 2 ^ 64 := by
    calc srcE * 2 ^ 48 < 2 ^ 16 * 2 ^ 48 :=
        (Nat.mul_lt_mul_right (by norm_num : (0:Nat) < 2 ^ 48)).2 h2
      _ = 2 ^ 64 := by norm_num
  rw [fpStep_eq srcE dstE h2]
  set s := srcE * 2 ^ 48 / dstE with hs
  have hs2 : 2 ≤ s := by
    rw [hs, Nat.le_div_iff_mul_le (by omega : 0 < dstE)]
    calc 2 * dstE ≤ 2 * 2 ^ 32 := by omega
      _ ≤ 1 * 2 ^ 48 := by norm_num
      _ ≤ srcE * 2 ^ 48 := Nat.mul_le_mul_right _ h1
  have h6 : dstE * s ≤ srcE * 2 ^ 48 := by
    rw [hs, mul_comm]
    exact Nat.div_mul_le_self _ _
  have h5 : (i + 1) * s ≤ dstE * s := Nat.mul_le_mul_right s hi
  have h8 : s / 2 - 1 + i * s < (i + 1) * s := by
    have h9 : (i + 1) * s = i * s + s := by ring
    omega
  have hub : s / 2 - 1 + i * s < srcE * 2 ^ 48 := by omega
  unfold fpCur
  rw [Nat.shiftRight_eq_div_pow]
  rw [show s / 2 ^ 1 + (2 ^ 64 - 1) + i * s = s / 2 - 1 + i * s + 2 ^ 64
    from by omega]
  rw [Nat.add_mod_right, Nat.mod_eq_of_lt (lt_trans hub hlt64)]
  exact hub

theorem linearTemp_le (srcE dstE i : Nat) :
    linearTemp srcE dstE i ≤ fpCur (fpStep srcE dstE) i >>> 32 := by
  unfold linearTemp
  split
  · exact le_trans (Nat.sub_le _ _) (Nat.mod_le _ _)
  · exact Nat.zero_le _

theorem byteTemp_le (srcE dstE i : Nat) :
    byteTemp srcE dstE i ≤ fpCur (fpStep srcE dstE) i >>> 36 := by
  unfold byteTemp
  split
  · exact le_trans (Nat.sub_le _ _) (Nat.mod_le _ _)
  · exact Nat.zero_le _

/-- C9: in every resampling kernel, for every destination pixel the
sample coordinates stay inside the source bounds — the nearest offset
and the first linear/byte coordinates are below the source extent, and
the second coordinates are clamped to `extent - 1`; in particular a
source extent of 1 forces every coordinate to offset 0.  (Extents are
assumed to fit the 16/48 fixed-point format: source extent below 2^16,
destination extent a nonzero UINT32.) -/
theorem c9 (srcE dstE i : Nat) (h1 : 1 ≤ srcE) (h2 : srcE < 2 ^ 16)
    (h3 : 1 ≤ dstE) (h4 : dstE < 2 ^ 32) (hi : i < dstE) :
    nearestOffset srcE dstE i < srcE ∧
    sampleCoord1 srcE dstE i < srcE ∧ sampleCoord2 srcE dstE i < srcE ∧
    byteSampleCoord1 srcE dstE i < srcE ∧
    byteSampleCoord2 srcE dstE i < srcE ∧
    (srcE = 1 → nearestOffset srcE dstE i = 0 ∧
      sampleCoord1 srcE dstE i = 0 ∧ sampleCoord2 srcE dstE i = 0 ∧
      byteSampleCoord1 srcE dstE i = 0 ∧
      byteSampleCoord2 srcE dstE i = 0) := by
  have hcur := fpCur_lt srcE dstE i h1 h2 h3 h4 hi
  have hnear : nearestOffset srcE dstE i < srcE := by
    unfold nearestOffset
    have h48 : fpCur (fpStep srcE dstE) i >>> 48 < srcE := by
      rw [Nat.shiftRight_eq_div_pow, Nat.div_lt_iff_lt_mul (by norm_num)]
      exact hcur
    exact lt_of_le_of_lt (Nat.mod_le _ _) h48
  have h32 : fpCur (fpStep srcE dstE) i >>> 32 < srcE * 2 ^ 16 := by
    rw [Nat.shiftRight_eq_div_pow, Nat.div_lt_iff_lt_mul (by norm_num)]
    calc fpCur (fpStep srcE dstE) i < srcE * 2 ^ 48 := hcur
      _ = srcE * 2 ^ 16 * 2 ^ 32 := by ring
  have hl1 : sampleCoord1 srcE dstE i < srcE := by
    unfold sampleCoord1
    rw [Nat.shiftRight_eq_div_pow, Nat.div_lt_iff_lt_mul (by norm_num)]
    have h := linearTemp_le srcE dstE i
    omega
  have hl2 : sampleCoord2 srcE dstE i < srcE := by
    unfold sampleCoord2
    omega
  have h36 : fpCur (fpStep srcE dstE) i >>> 36 < srcE * 2 ^ 12 := by
    rw [Nat.shiftRight_eq_div_pow, Nat.div_lt_iff_lt_mul (by norm_num)]
    calc fpCur (fpStep srcE dstE) i < srcE * 2 ^ 48 := hcur
      _ = srcE * 2 ^ 12 * 2 ^ 36 := by ring
  have hb1 : byteSampleCoord1 srcE dstE i < srcE := by
    unfold byteSampleCoord1
    rw [Nat.shiftRight_eq_div_pow, Nat.div_lt_iff_lt_mul (by norm_num)]
    have h := byteTemp_le srcE dstE i
    omega
  have hb2 : byteSampleCoord2 srcE dstE i < srcE := by
    unfold byteSampleCoord2
    omega
  exact ⟨hnear, hl1, hl2, hb1, hb2, fun h1eq => by
    constructor
    · omega
    · constructor
      · omega
      · constructor
        · omega
        · exact ⟨by omega, by omega⟩⟩

/-- Witness for C9 with a 1-pixel source axis scaled to 7 destination
pixels: destination pixel 3 reads only offset 0. -/
theorem c9_witness :
    nearestOffset 1 7 3 < 1 ∧
    sampleCoord1 1 7 3 < 1 ∧ sampleCoord2 1 7 3 < 1 ∧
    byteSampleCoord1 1 7 3 < 1 ∧ byteSampleCoord2 1 7 3 < 1 ∧
    (1 = 1 → nearestOffset 1 7 3 = 0 ∧
      sampleCoord1 1 7 3 = 0 ∧ sampleCoord2 1 7 3 = 0 ∧
      byteSampleCoord1 1 7 3 = 0 ∧ byteSampleCoord2 1 7 3 = 0) :=
  c9 1 7 3 (by decide) (by decide) (by decide) (by decide) (by decide)

/-- Witness for C10 at a concrete 10-byte buffer: the alpha byte of the
second 4-byte pixel survives a gamma of 3/2. -/
theorem c10_witness :
    (PixelUtil.applyGamma [100, 100, 100, 7, 200, 200, 200, 9, 1, 2]
        (3 / 2) 8 32).getD (1 * (32 >>> 3) + 3) 0 =
      [100, 100, 100, 7, 200, 200, 200, 9, 1, 2].getD
        (1 * (32 >>> 3) + 3) 0 :=
  (c10.2.1 [100, 100, 100, 7, 200, 200, 200, 9, 1, 2] (3 / 2) 8 32
      (by decide) (by decide)).2 1 3 (by decide) (by decide) (by decide)

/-- List splice lemmas for the resampler kernels: writing nothing, a
write inside the buffer keeps its length, and two adjacent writes merge. -/
theorem writeBytes_nil (mem : List Nat) (off : Nat) :
    writeBytes mem off [] = mem := by
  unfold writeBytes
  simp

theorem writeBytes_length (mem bytes : List Nat) (off : Nat)
    (h : off + bytes.length ≤ mem.length) :
    (writeBytes mem off bytes).length = mem.length := by
  unfold writeBytes
  simp [List.length_take, List.length_drop]
  omega

theorem writeBytes_writeBytes (mem b1 b2 : List Nat) (off : Nat)
    (h : off + b1.length ≤ mem.length) :
    writeBytes (writeBytes mem off b1) (off + b1.length) b2 =
      writeBytes mem off (b1 ++ b2) := by
  unfold writeBytes
  have h1 : (mem.take off ++ b1).length = off + b1.length := by
    rw [List.length_append, List.length_take]
    omega
  rw [← List.append_assoc]
  have e1 : ((mem.take off ++ b1) ++ mem.drop (off + b1.length)).take
      (off + b1.length) = mem.take off ++ b1 := by
    rw [← h1]
    exact List.take_left _ _
  have e2 : ((mem.take off ++ b1) ++ mem.drop (off + b1.length)).drop
      (off + b1.length + b2.length) =
      mem.drop (off + b1.length + b2.length) := by
    conv_lhs => rw [show off + b1.length + b2.length =
        (mem.take off ++ b1).length + b2.length from by rw [h1]]
    rw [List.drop_append, List.drop_drop]
  rw [e1, e2]
  simp [List.append_assoc, List.length_append, Nat.add_assoc]

theorem slice_merge (l : List Nat) (a n m : Nat) :
    (l.drop a).take n ++ (l.drop (a + n)).take m = (l.drop a).take (n + m) := by
  rw [List.take_add]
  congr 1
  rw [List.drop_drop]

theorem drop_take_succ (l : List Nat) (m n : Nat) (h : m < l.length) :
    (l.drop m).take (n + 1) = l.getD m 0 :: (l.drop (m + 1)).take n := by
  rw [List.drop_eq_getElem_cons h]
  rw [List.take_succ_cons]
  congr 1
  rw [List.getD_eq_getElem?_getD, List.getElem?_eq_getElem h]
  rfl

theorem nearestOffset_same (E i : Nat) (h1 : 1 ≤ E) (h2 : E < 2 ^ 16)
    (hi : i < E) : nearestOffset E E i = i := by
  unfold nearestOffset
  rw [fpStep_eq E E h2, Nat.mul_div_cancel_left _ (by omega : 0 < E)]
  unfold fpCur
  rw [Nat.shiftRight_eq_div_pow, Nat.shiftRight_eq_div_pow]
  omega

theorem nearestRow_same (es W : Nat) (srcMem : List Nat) (rowOff : Nat)
    (h1 : 1 ≤ W) (h2 : W < 2 ^ 16) :
    ∀ (n x off : Nat) (mem : List Nat), x + n ≤ W →
      es * (x + rowOff) + es * n ≤ srcMem.length →
      off + es * n ≤ mem.length →
      nearestRow es srcMem W W rowOff n x off mem =
        (off + es * n,
         writeBytes mem off ((srcMem.drop (es * (x + rowOff))).take (es * n))) := by
  intro n
  induction n with
  | zero =>
      intro x off mem _ _ _
      simp [nearestRow, writeBytes_nil]
  | succ n ih =>
      intro x off mem hx hsrc hmem
      have hms : es * (n + 1) = es * n + es := by ring
      have hx1 : es * (x + 1 + rowOff) = es * (x + rowOff) + es := by ring
      have hb : ((srcMem.drop (es * (x + rowOff))).take es).length = es := by
        rw [List.length_take, List.length_drop]
        omega
      rw [nearestRow, nearestOffset_same W x h1 h2 (by omega)]
      rw [ih (x + 1) (off + es)
        (writeBytes mem off ((srcMem.drop (es * (x + rowOff))).take es))
        (by omega) (by omega) (by rw [writeBytes_length _ _ _ (by omega)]; omega)]
      have hw := writeBytes_writeBytes mem
        ((srcMem.drop (es * (x + rowOff))).take es)
        ((srcMem.drop (es * (x + 1 + rowOff))).take (es * n)) off (by omega)
      rw [hb] at hw
      rw [hx1] at hw ⊢
      rw [hw, slice_merge,
        show es + es * n = es * (n + 1) from by ring,
        show off + es + es * n = off + es * (n + 1) from by ring]

theorem nearestRows_same (es W H : Nat) (srcMem : List Nat) (sliceOff : Nat)
    (hW1 : 1 ≤ W) (hW2 : W < 2 ^ 16) (hH1 : 1 ≤ H) (hH2 : H < 2 ^ 16) :
    ∀ (n y off : Nat) (mem : List Nat), y + n ≤ H →
      es * (y * W + sliceOff) + es * (W * n) ≤ srcMem.length →
      off + es * (W * n) ≤ mem.length →
      nearestRows es srcMem W W H H W 0 sliceOff n y off mem =
        (off + es * (W * n),
         writeBytes mem off
           ((srcMem.drop (es * (y * W + sliceOff))).take (es * (W * n)))) := by
  intro n
  induction n with
  | zero =>
      intro y off mem _ _ _
      simp [nearestRows, writeBytes_nil]
  | succ n ih =>
      intro y off mem hy hsrc hmem
      have h9 : es * (W * (n + 1)) = es * W + es * (W * n) := by ring
      have e2 : es * ((y + 1) * W + sliceOff) =
          es * (y * W + sliceOff) + es * W := by ring
      have hbl : ((srcMem.drop (es * (0 + (y * W + sliceOff)))).take
          (es * W)).length = es * W := by
        rw [List.length_take, List.length_drop, Nat.zero_add]
        omega
      simp only [nearestRows]
      rw [nearestOffset_same H y hH1 hH2 (by omega)]
      have ha1 : (0:Nat) + W ≤ W := by omega
      have ha2 : es * (0 + (y * W + sliceOff)) + es * W ≤ srcMem.length := by
        rw [Nat.zero_add]
        omega
      have ha3 : off + es * W ≤ mem.length := by omega
      rw [nearestRow_same es W srcMem (y * W + sliceOff) hW1 hW2 W 0 off mem
        ha1 ha2 ha3]
      simp only
      rw [ih (y + 1) (off + es * W + es * 0)
        (writeBytes mem off ((srcMem.drop
          (es * (0 + (y * W + sliceOff)))).take (es * W)))
        (by omega)
        (by rw [e2]; omega)
        (by rw [writeBytes_length _ _ _ (by rw [hbl]; omega)]
            omega)]
      have hw := writeBytes_writeBytes mem
        ((srcMem.drop (es * (0 + (y * W + sliceOff)))).take (es * W))
        ((srcMem.drop (es * ((y + 1) * W + sliceOff))).take (es * (W * n)))
        off (by rw [hbl]; omega)
      rw [hbl] at hw
      rw [e2] at hw ⊢
      simp only [Nat.zero_add, Nat.mul_zero, Nat.add_zero] at hw ⊢
      rw [hw, slice_merge,
        show es * W + es * (W * n) = es * (W * (n + 1)) from by ring,
        show off + es * W + es * (W * n) = off + es * (W * (n + 1))
          from by ring]

theorem nearestSlices_same (es W H D : Nat) (srcMem : List Nat)
    (hW1 : 1 ≤ W) (hW2 : W < 2 ^ 16) (hH1 : 1 ≤ H) (hH2 : H < 2 ^ 16)
    (hD1 : 1 ≤ D) (hD2 : D < 2 ^ 16) :
    ∀ (n z off : Nat) (mem : List Nat), z + n ≤ D →
      es * (z * (W * H)) + es * (W * (H * n)) ≤ srcMem.length →
      off + es * (W * (H * n)) ≤ mem.length →
      nearestSlices es srcMem W W H H D D W (W * H) 0 0 n z off mem =
        (off + es * (W * (H * n)),
         writeBytes mem off
           ((srcMem.drop (es * (z * (W * H)))).take (es * (W * (H * n))))) := by
  intro n
  induction n with
  | zero =>
      intro z off mem _ _ _
      simp [nearestSlices, writeBytes_nil]
  | succ n ih =>
      intro z off mem hz hsrc hmem
      have h9 : es * (W * (H * (n + 1))) =
          es * (W * H) + es * (W * (H * n)) := by ring
      have e2 : es * ((z + 1) * (W * H)) =
          es * (z * (W * H)) + es * (W * H) := by ring
      have e3 : es * (0 * W + z * (W * H)) = es * (z * (W * H)) := by ring
      have hbl : ((srcMem.drop (es * (0 * W + z * (W * H)))).take
          (es * (W * H))).length = es * (W * H) := by
        rw [List.length_take, List.length_drop, e3]
        omega
      simp only [nearestSlices]
      rw [nearestOffset_same D z hD1 hD2 (by omega)]
      have ha1 : (0:Nat) + H ≤ H := by omega
      have ha2 : es * (0 * W + z * (W * H)) + es * (W * H) ≤
          srcMem.length := by
        rw [e3]
        omega
      have ha3 : off + es * (W * H) ≤ mem.length := by omega
      rw [nearestRows_same es W H srcMem (z * (W * H)) hW1 hW2 hH1 hH2 H 0
        off mem ha1 ha2 ha3]
      simp only
      rw [ih (z + 1) (off + es * (W * H) + es * 0)
        (writeBytes mem off ((srcMem.drop
          (es * (0 * W + z * (W * H)))).take (es * (W * H))))
        (by omega)
        (by rw [e2]; omega)
        (by rw [writeBytes_length _ _ _ (by rw [hbl]; omega)]
            omega)]
      have hw := writeBytes_writeBytes mem
        ((srcMem.drop (es * (0 * W + z * (W * H)))).take (es * (W * H)))
        ((srcMem.drop (es * ((z + 1) * (W * H)))).take (es * (W * (H * n))))
        off (by rw [hbl]; omega)
      rw [hbl] at hw
      rw [e2, e3] at hw
      rw [e3, e2]
      simp only [Nat.mul_zero, Nat.add_zero]
      rw [hw, slice_merge,
        show es * (W * H) + es * (W * (H * n)) = es * (W * (H * (n + 1)))
          from by ring,
        show off + es * (W * H) + es * (W * (H * n)) =
          off + es * (W * (H * (n + 1))) from by ring]

theorem nearestScale_same_core (es W H D : Nat) (srcMem dstMem : List Nat)
    (hW1 : 1 ≤ W) (hW2 : W < 2 ^ 16) (hH1 : 1 ≤ H) (hH2 : H < 2 ^ 16)
    (hD1 : 1 ≤ D) (hD2 : D < 2 ^ 16)
    (hsrc : srcMem.length = es * (W * (H * D)))
    (hdst : dstMem.length = es * (W * (H * D))) :
    (nearestSlices es srcMem W W H H D D W (W * H) 0 0 D 0 0 dstMem).2 =
      srcMem := by
  have e0 : es * ((0:Nat) * (W * H)) = 0 := by ring
  rw [nearestSlices_same es W H D srcMem hW1 hW2 hH1 hH2 hD1 hD2 D 0 0 dstMem
    (by omega) (by rw [e0]; omega) (by omega)]
  simp only [e0]
  unfold writeBytes
  rw [List.take_zero, List.drop_zero,
    List.take_of_length_le (le_of_eq hsrc)]
  rw [List.drop_eq_nil_of_le (by omega)]
  simp

theorem byteTemp_same_zero (E : Nat) (h1 : 1 ≤ E) (h2 : E < 2 ^ 16) :
    byteTemp E E 0 = 0 := by
  unfold byteTemp
  rw [fpStep_eq E E h2, Nat.mul_div_cancel_left _ (by omega : 0 < E)]
  decide

theorem byteTemp_same_succ (E i : Nat) (h2 : E < 2 ^ 16) (hi : i + 1 < E) :
    byteTemp E E (i + 1) = (i + 1) * 2 ^ 12 - 1 := by
  unfold byteTemp
  rw [fpStep_eq E E h2, Nat.mul_div_cancel_left _ (by omega : 0 < E)]
  unfold fpCur
  rw [Nat.shiftRight_eq_div_pow, Nat.shiftRight_eq_div_pow]
  split <;> omega

theorem byteCoord1_same_zero (E : Nat) (h1 : 1 ≤ E) (h2 : E < 2 ^ 16) :
    byteSampleCoord1 E E 0 = 0 := by
  unfold byteSampleCoord1
  rw [byteTemp_same_zero E h1 h2]
  decide

theorem byteWeight_same_zero (E : Nat) (h1 : 1 ≤ E) (h2 : E < 2 ^ 16) :
    byteSampleWeight E E 0 = 0 := by
  unfold byteSampleWeight
  rw [byteTemp_same_zero E h1 h2]
  decide

theorem byteCoord1_same_succ (E i : Nat) (h2 : E < 2 ^ 16) (hi : i + 1 < E) :
    byteSampleCoord1 E E (i + 1) = i := by
  unfold byteSampleCoord1
  rw [byteTemp_same_succ E i h2 hi, Nat.shiftRight_eq_div_pow]
  omega

theorem byteCoord2_same_succ (E i : Nat) (h2 : E < 2 ^ 16) (hi : i + 1 < E) :
    byteSampleCoord2 E E (i + 1) = i + 1 := by
  unfold byteSampleCoord2
  rw [byteCoord1_same_succ E i h2 hi]
  omega

theorem byteWeight_same_succ (E i : Nat) (h2 : E < 2 ^ 16) (hi : i + 1 < E) :
    byteSampleWeight E E (i + 1) = 4095 := by
  unfold byteSampleWeight
  rw [byteTemp_same_succ E i h2 hi,
    show (0xFFF : Nat) = 2 ^ 12 - 1 from rfl,
    Nat.and_pow_two_sub_one_eq_mod]
  omega

theorem getD_lt (srcMem : List Nat) (hbytes : ∀ v ∈ srcMem, v < 256)
    (i : Nat) : srcMem.getD i 0 < 256 := by
  rw [List.getD_eq_getElem?_getD]
  cases h : srcMem[i]? with
  | none => simp
  | some v =>
      simp only [Option.getD_some]
      exact hbytes v (List.getElem?_mem h)

theorem bytePixel_eq (srcMem : List Nat)
    (b11 b21 b12 b22 c11 c21 c12 c22 bT : Nat)
    (hblend : ∀ j : Nat,
      (((srcMem.getD (b11 + j) 0 * c11 + srcMem.getD (b21 + j) 0 * c21 +
          srcMem.getD (b12 + j) 0 * c12 + srcMem.getD (b22 + j) 0 * c22)
          % 2 ^ 32 + 0x800000) % 2 ^ 32) >>> 24 = srcMem.getD (bT + j) 0) :
    ∀ (n k : Nat), bT + k + n ≤ srcMem.length →
      bytePixel srcMem b11 b21 b12 b22 c11 c21 c12 c22 k n =
        (srcMem.drop (bT + k)).take n := by
  intro n
  induction n with
  | zero => intro k _; simp [bytePixel]
  | succ n ih =>
      intro k hk
      rw [bytePixel, hblend k,
        drop_take_succ srcMem (bT + k) n (by omega),
        ih (k + 1) (by omega)]
      rw [show bT + k + 1 = bT + (k + 1) from by omega]

theorem byteCoeff_00 : byteCoeff11 0 0 = 16777216 ∧ byteCoeff21 0 0 = 0 ∧
    byteCoeff12 0 0 = 0 := by decide

theorem byteCoeff_h0 : byteCoeff11 4095 0 = 4096 ∧
    byteCoeff21 4095 0 = 16773120 ∧ byteCoeff12 4095 0 = 0 := by decide

theorem byteCoeff_0h : byteCoeff11 0 4095 = 4096 ∧ byteCoeff21 0 4095 = 0 ∧
    byteCoeff12 0 4095 = 16773120 := by decide

theorem byteCoeff_hh : byteCoeff11 4095 4095 = 1 ∧
    byteCoeff21 4095 4095 = 4095 ∧ byteCoeff12 4095 4095 = 4095 := by decide

theorem blendMod (X : Nat) (hX : X < 2 ^ 32 - 2 ^ 23) :
    (X % 2 ^ 32 + 0x800000) % 2 ^ 32 = X + 0x800000 := by
  rw [Nat.mod_eq_of_lt (show X < 2 ^ 32 by omega)]
  exact Nat.mod_eq_of_lt (by omega)

theorem byteRow_same (ch W : Nat) (srcMem : List Nat)
    (y1off y2off yT wy : Nat) (hW1 : 1 ≤ W) (hW2 : W < 2 ^ 16)
    (hbytes : ∀ v ∈ srcMem, v < 256)
    (hcase : (wy = 0 ∧ yT = y1off) ∨ (wy = 4095 ∧ yT = y2off)) :
    ∀ (n x off : Nat) (mem : List Nat), x + n ≤ W →
      (x + yT) * ch + ch * n ≤ srcMem.length →
      off + ch * n ≤ mem.length →
      byteRow ch srcMem W W y1off y2off wy n x off mem =
        (off + ch * n,
         writeBytes mem off ((srcMem.drop ((x + yT) * ch)).take (ch * n))) := by
  intro n
  induction n with
  | zero =>
      intro x off mem _ _ _
      simp [byteRow, writeBytes_nil]
  | succ n ih =>
      intro x off mem hx hsrc hmem
      have hms : ch * (n + 1) = ch + ch * n := by ring
      have hx1 : (x + 1 + yT) * ch = (x + yT) * ch + ch := by ring
      have hout : bytePixel srcMem
          ((byteSampleCoord1 W W x + y1off) * ch)
          ((byteSampleCoord2 W W x + y1off) * ch)
          ((byteSampleCoord1 W W x + y2off) * ch)
          ((byteSampleCoord2 W W x + y2off) * ch)
          (byteCoeff11 (byteSampleWeight W W x) wy)
          (byteCoeff21 (byteSampleWeight W W x) wy)
          (byteCoeff12 (byteSampleWeight W W x) wy)
          (byteSampleWeight W W x * wy) 0 ch =
          (srcMem.drop ((x + yT) * ch + 0)).take ch := by
        cases x with
        | zero =>
            rw [byteWeight_same_zero W hW1 hW2, byteCoord1_same_zero W hW1 hW2]
            rcases hcase with ⟨hwy, hyT⟩ | ⟨hwy, hyT⟩ <;> subst hwy <;> rw [hyT] at hsrc ⊢
            · rw [byteCoeff_00.1, byteCoeff_00.2.1, byteCoeff_00.2.2,
                show (0 * 0 : Nat) = 0 from rfl]
              refine bytePixel_eq srcMem _ _ _ _ _ _ _ _ ((0 + y1off) * ch)
                (fun j => ?_) ch 0 (by omega)
              have g1 := getD_lt srcMem hbytes ((0 + y1off) * ch + j)
              have g2 := getD_lt srcMem hbytes
                ((byteSampleCoord2 W W 0 + y1off) * ch + j)
              have g3 := getD_lt srcMem hbytes ((0 + y2off) * ch + j)
              have g4 := getD_lt srcMem hbytes
                ((byteSampleCoord2 W W 0 + y2off) * ch + j)
              simp only [Nat.mul_zero, Nat.add_zero]
              rw [blendMod _ (by omega), Nat.shiftRight_eq_div_pow]
              omega
            · rw [byteCoeff_0h.1, byteCoeff_0h.2.1, byteCoeff_0h.2.2,
                show (0 * 4095 : Nat) = 0 from rfl]
              refine bytePixel_eq srcMem _ _ _ _ _ _ _ _ ((0 + y2off) * ch)
                (fun j => ?_) ch 0 (by omega)
              have g1 := getD_lt srcMem hbytes ((0 + y1off) * ch + j)
              have g2 := getD_lt srcMem hbytes
                ((byteSampleCoord2 W W 0 + y1off) * ch + j)
              have g3 := getD_lt srcMem hbytes ((0 + y2off) * ch + j)
              have g4 := getD_lt srcMem hbytes
                ((byteSampleCoord2 W W 0 + y2off) * ch + j)
              simp only [Nat.mul_zero, Nat.add_zero]
              rw [blendMod _ (by omega), Nat.shiftRight_eq_div_pow]
              omega
        | succ i =>
            have hi : i + 1 < W := by omega
            rw [byteWeight_same_succ W i hW2 hi, byteCoord1_same_succ W i hW2 hi,
              byteCoord2_same_succ W i hW2 hi]
            rcases hcase with ⟨hwy, hyT⟩ | ⟨hwy, hyT⟩ <;> subst hwy <;> rw [hyT] at hsrc ⊢
            · rw [byteCoeff_h0.1, byteCoeff_h0.2.1, byteCoeff_h0.2.2,
                show (4095 * 0 : Nat) = 0 from rfl]
              refine bytePixel_eq srcMem _ _ _ _ _ _ _ _ ((i + 1 + y1off) * ch)
                (fun j => ?_) ch 0 (by omega)
              have g1 := getD_lt srcMem hbytes ((i + y1off) * ch + j)
              have g2 := getD_lt srcMem hbytes ((i + 1 + y1off) * ch + j)
              have g3 := getD_lt srcMem hbytes ((i + y2off) * ch + j)
              have g4 := getD_lt srcMem hbytes ((i + 1 + y2off) * ch + j)
              simp only [Nat.mul_zero, Nat.add_zero]
              rw [blendMod _ (by omega), Nat.shiftRight_eq_div_pow]
              omega
            · rw [byteCoeff_hh.1, byteCoeff_hh.2.1, byteCoeff_hh.2.2,
                show (4095 * 4095 : Nat) = 16769025 from rfl]
              refine bytePixel_eq srcMem _ _ _ _ _ _ _ _ ((i + 1 + y2off) * ch)
                (fun j => ?_) ch 0 (by omega)
              have g1 := getD_lt srcMem hbytes ((i + y1off) * ch + j)
              have g2 := getD_lt srcMem hbytes ((i + 1 + y1off) * ch + j)
              have g3 := getD_lt srcMem hbytes ((i + y2off) * ch + j)
              have g4 := getD_lt srcMem hbytes ((i + 1 + y2off) * ch + j)
              simp only [Nat.mul_one]
              rw [blendMod _ (by omega), Nat.shiftRight_eq_div_pow]
              omega
      have hbl : (((srcMem.drop ((x + yT) * ch + 0)).take ch)).length = ch := by
        rw [List.length_take, List.length_drop]
        omega
      simp only [byteRow]
      rw [hout]
      rw [ih (x + 1) (off + ch)
        (writeBytes mem off ((srcMem.drop ((x + yT) * ch + 0)).take ch))
        (by omega) (by rw [hx1]; omega)
        (by rw [writeBytes_length _ _ _ (by rw [hbl]; omega)]
            omega)]
      have hw := writeBytes_writeBytes mem
        ((srcMem.drop ((x + yT) * ch + 0)).take ch)
        ((srcMem.drop ((x + 1 + yT) * ch)).take (ch * n)) off
        (by rw [hbl]; omega)
      rw [hbl] at hw
      rw [hx1] at hw ⊢
      simp only [Nat.add_zero] at hw ⊢
      rw [hw, slice_merge,
        show ch + ch * n = ch * (n + 1) from by ring,
        show off + ch + ch * n = off + ch * (n + 1) from by ring]

theorem byteRows_same (ch W H : Nat) (srcMem : List Nat)
    (hW1 : 1 ≤ W) (hW2 : W < 2 ^ 16) (hH1 : 1 ≤ H) (hH2 : H < 2 ^ 16)
    (hbytes : ∀ v ∈ srcMem, v < 256) :
    ∀ (n y off : Nat) (mem : List Nat), y + n ≤ H →
      y * W * ch + ch * (W * n) ≤ srcMem.length →
      off + ch * (W * n) ≤ mem.length →
      byteRows ch srcMem W W H H W 0 n y off mem =
        (off + ch * (W * n),
         writeBytes mem off
           ((srcMem.drop (y * W * ch)).take (ch * (W * n)))) := by
  intro n
  induction n with
  | zero =>
      intro y off mem _ _ _
      simp [byteRows, writeBytes_nil]
  | succ n ih =>
      intro y off mem hy hsrc hmem
      have h9 : ch * (W * (n + 1)) = ch * W + ch * (W * n) := by ring
      have e2 : (y + 1) * W * ch = y * W * ch + ch * W := by ring
      have hcase : (byteSampleWeight H H y = 0 ∧
          y * W = byteSampleCoord1 H H y * W) ∨
          (byteSampleWeight H H y = 4095 ∧
          y * W = byteSampleCoord2 H H y * W) := by
        cases y with
        | zero =>
            exact Or.inl ⟨byteWeight_same_zero H hH1 hH2,
              by rw [byteCoord1_same_zero H hH1 hH2]⟩
        | succ i =>
            have hi : i + 1 < H := by omega
            exact Or.inr ⟨byteWeight_same_succ H i hH2 hi,
              by rw [byteCoord2_same_succ H i hH2 hi]⟩
      have hrow := byteRow_same ch W srcMem
        (byteSampleCoord1 H H y * W) (byteSampleCoord2 H H y * W)
        (y * W) (byteSampleWeight H H y) hW1 hW2 hbytes
        (by rcases hcase with ⟨h1, h2⟩ | ⟨h1, h2⟩
            · exact Or.inl ⟨h1, h2⟩
            · exact Or.inr ⟨h1, h2⟩)
        W 0 off mem (by omega)
        (by rw [show ((0:Nat) + y * W) * ch = y * W * ch from by ring]; omega)
        (by omega)
      have e3 : ((0:Nat) + y * W) * ch = y * W * ch := by ring
      rw [e3] at hrow
      have hbl : ((srcMem.drop (y * W * ch)).take (ch * W)).length =
          ch * W := by
        rw [List.length_take, List.length_drop]
        omega
      simp only [byteRows]
      rw [hrow]
      simp only
      rw [ih (y + 1) (off + ch * W + ch * 0)
        (writeBytes mem off ((srcMem.drop (y * W * ch)).take (ch * W)))
        (by omega)
        (by rw [e2]; omega)
        (by rw [writeBytes_length _ _ _ (by rw [hbl]; omega)]
            omega)]
      have hw := writeBytes_writeBytes mem
        ((srcMem.drop (y * W * ch)).take (ch * W))
        ((srcMem.drop ((y + 1) * W * ch)).take (ch * (W * n))) off
        (by rw [hbl]; omega)
      rw [hbl] at hw
      rw [e2] at hw ⊢
      simp only [Nat.mul_zero, Nat.add_zero] at hw ⊢
      rw [hw, slice_merge,
        show ch * W + ch * (W * n) = ch * (W * (n + 1)) from by ring,
        show off + ch * W + ch * (W * n) = off + ch * (W * (n + 1))
          from by ring]

theorem byteScale_same_core (ch W H : Nat) (srcMem dstMem : List Nat)
    (hW1 : 1 ≤ W) (hW2 : W < 2 ^ 16) (hH1 : 1 ≤ H) (hH2 : H < 2 ^ 16)
    (hbytes : ∀ v ∈ srcMem, v < 256)
    (hsrc : srcMem.length = ch * (W * H))
    (hdst : dstMem.length = ch * (W * H)) :
    (byteRows ch srcMem W W H H W 0 H 0 0 dstMem).2 = srcMem := by
  have e0 : (0:Nat) * W * ch = 0 := by ring
  rw [byteRows_same ch W H srcMem hW1 hW2 hH1 hH2 hbytes H 0 0 dstMem
    (by omega) (by rw [e0]; omega) (by omega)]
  simp only [e0]
  unfold writeBytes
  rw [List.take_zero, List.drop_zero,
    List.take_of_length_le (le_of_eq hsrc)]
  rw [List.drop_eq_nil_of_le (by omega)]
  simp

/-- C8 counterexample: `PF_FLOAT32_RGBA` is accessible, and
`PixelUtil::scale` sends a same-format FLOAT32 bilinear request to
`LinearResampler_Float32` (source lines 1361-1367); but scaling a 2×1×1
float buffer to its own size blends each inner pixel with its left
neighbour at weight 65535/65536, so the pixels 0,1 come back as
0, 65535/65536 — not as the source. -/
theorem c8_counterexample :
    PixelUtil.isAccessible PF_FLOAT32_RGBA = true ∧
    float32Scale ⟨0, 0, 0, 2, 1, 1, 2, 2, PF_FLOAT32_RGBA, []⟩
        ⟨0, 0, 0, 2, 1, 1, 2, 2, PF_FLOAT32_RGBA, []⟩
        [0, 0, 0, 0, 1, 1, 1, 1] [0, 0, 0, 0, 0, 0, 0, 0] =
      [0, 0, 0, 0, 65535 / 65536, 65535 / 65536, 65535 / 65536,
        65535 / 65536] ∧
    ([0, 0, 0, 0, 65535 / 65536, 65535 / 65536, 65535 / 65536,
        65535 / 65536] : List ℚ) ≠ [0, 0, 0, 0, 1, 1, 1, 1] := by
  refine ⟨by decide, ?_, by norm_num⟩
  show (floatSlices [0, 0, 0, 0, 1, 1, 1, 1] 4 4 2 2 1 1 1 1 2 2 0 0 1 0 0
      [0, 0, 0, 0, 0, 0, 0, 0]).2 =
    [0, 0, 0, 0, 65535 / 65536, 65535 / 65536, 65535 / 65536,
      65535 / 65536]
  have e10 : sampleCoord1 2 2 0 = 0 := by decide
  have e20 : sampleCoord2 2 2 0 = 1 := by decide
  have w0 : sampleWeight 2 2 0 = 0 := by decide
  have e11 : sampleCoord1 2 2 1 = 0 := by decide
  have e21 : sampleCoord2 2 2 1 = 1 := by decide
  have w1 : sampleWeight 2 2 1 = 65535 := by decide
  have e1z : sampleCoord1 1 1 0 = 0 := by decide
  have e2z : sampleCoord2 1 1 0 = 0 := by decide
  have wz : sampleWeight 1 1 0 = 0 := by decide
  simp only [floatSlices, floatRows, floatRow, floatPixelOut, floatAccum,
    writeFloats, e10, e20, w0, e11, e21, w1, e1z, e2z, wz]
  norm_num [List.getD]

/-- C8 (amended): same-size scaling is exact for the nearest kernel on
every format (it copies whole elements), and for the byte bilinear
kernel on 2D byte buffers (weights degenerate to 0 or 4095/4096 and the
`+ 0x800000 >> 24` rounding recovers the source byte); the float32
kernel and the generic fallback are not exact.  Buffers are full
consecutive views whose extents fit the 16/48 fixed-point scheme. -/
theorem c8_amended :
    (∀ (es W H D : Nat) (f : PixelFormat) (srcMem dstMem : List Nat),
      1 ≤ W → W < 2 ^ 16 → 1 ≤ H → H < 2 ^ 16 → 1 ≤ D → D < 2 ^ 16 →
      srcMem.length = es * (W * (H * D)) →
      dstMem.length = es * (W * (H * D)) →
      nearestScale es ⟨0, 0, 0, W, H, D, W, W * H, f, srcMem⟩
        ⟨0, 0, 0, W, H, D, W, W * H, f, dstMem⟩ = srcMem) ∧
    (∀ (ch W H : Nat) (f : PixelFormat) (srcMem dstMem : List Nat),
      1 ≤ W → W < 2 ^ 16 → 1 ≤ H → H < 2 ^ 16 →
      (∀ v ∈ srcMem, v < 256) →
      srcMem.length = ch * (W * H) → dstMem.length = ch * (W * H) →
      linearByteScale ch ⟨0, 0, 0, W, H, 1, W, W * H, f, srcMem⟩
        ⟨0, 0, 0, W, H, 1, W, W * H, f, dstMem⟩ = .ok srcMem) := by
  constructor
  · intro es W H D f srcMem dstMem hW1 hW2 hH1 hH2 hD1 hD2 hsrc hdst
    simp only [nearestScale, PixelData.getWidth, PixelData.getHeight,
      PixelData.getDepth, PixelData.getRowSkip, PixelData.getSliceSkip,
      Nat.sub_zero, Nat.sub_self]
    rw [Nat.mul_comm H W, Nat.sub_self]
    exact nearestScale_same_core es W H D srcMem dstMem hW1 hW2 hH1 hH2
      hD1 hD2 hsrc hdst
  · intro ch W H f srcMem dstMem hW1 hW2 hH1 hH2 hbytes hsrc hdst
    simp only [linearByteScale, PixelData.getWidth, PixelData.getHeight,
      PixelData.getDepth, PixelData.getRowSkip, PixelData.getSliceSkip,
      Nat.sub_zero, Nat.sub_self]
    rw [if_neg (by omega)]
    congr 1
    exact byteScale_same_core ch W H srcMem dstMem hW1 hW2 hH1 hH2 hbytes
      hsrc hdst

/-- C8 witness: a 2×1×1 two-byte-element nearest rescale to the same
size returns the source bytes, and a 2×2 one-channel byte bilinear
rescale to the same size returns the source bytes. -/
theorem c8_witness :
    nearestScale 2 ⟨0, 0, 0, 2, 1, 1, 2, 2, PF_R8G8, [1, 2, 3, 4]⟩
        ⟨0, 0, 0, 2, 1, 1, 2, 2, PF_R8G8, [0, 0, 0, 0]⟩ = [1, 2, 3, 4] ∧
    linearByteScale 1 ⟨0, 0, 0, 2, 2, 1, 2, 4, PF_R8, [5, 6, 7, 8]⟩
        ⟨0, 0, 0, 2, 2, 1, 2, 4, PF_R8, [0, 0, 0, 0]⟩ = .ok [5, 6, 7, 8] :=
  ⟨c8_amended.1 2 2 1 1 PF_R8G8 [1, 2, 3, 4] [0, 0, 0, 0] (by decide)
      (by decide) (by decide) (by decide) (by decide) (by decide)
      (by decide) (by decide),
   c8_amended.2 1 2 2 PF_R8 [5, 6, 7, 8] [0, 0, 0, 0] (by decide)
      (by decide) (by decide) (by decide) (by decide) (by decide)
      (by decide)⟩

end Banshee

